import Mathlib

/-!
# LegoOS interrupt routing: IO-APIC registry, register layer and descriptor state machine

A shallow embedding of `arch/x86/kernel/apic/io_apic.c` and `kernel/irq/chip.c`.

* Memory-mapped accesses are recorded, oldest first, in a trace of `mmio_access` events.
  The hardware is an arbitrary function from the trace so far to the value the next
  `readl` returns, so every statement quantified over the device holds for every
  deterministic hardware behaviour.
* Machine integers are natural numbers or integers; 32-bit wrap-around is written
  `% 2 ^ 32` where the C arithmetic is unsigned.
* A call through a NULL function pointer and a fired `BUG_ON` are the result `none`.
* Log output (`pr_warn`, `pr_err`, `pr_info`, `pr_debug`) changes no state and is left out;
  `ioapic_lock` only serialises callers and is left out of the sequential model.
-/

namespace LegoOS

/-! ## Register access layer (io_apic.c) -/

/-- One memory-mapped access or fixmap operation, as issued by the register layer. -/
inductive mmio_access where
  | writel (apic : Nat) (offset : Nat) (value : Nat)
  | readl (apic : Nat) (offset : Nat)
  | set_fixmap_nocache (idx : Nat) (address : Nat)
  | clear_fixmap (idx : Nat)
  deriving DecidableEq, Repr

/-- The hardware: the value a `readl` returns, given every access issued before it. -/
abbrev ioapic_device := List mmio_access → Nat

/-- Byte offset of `index` in `struct io_apic`. -/
def io_apic.index : Nat := 0x00

/-- Byte offset of `data` in `struct io_apic` (after `index` and `unused[3]`). -/
def io_apic.data : Nat := 0x10

/-- Byte offset of `eoi` in `struct io_apic` (after `data` and `unused2[11]`). -/
def io_apic.eoi : Nat := 0x40

/-- Source `io_apic_read`: select the register through `index`, then load `data`.
Returns the 32-bit value read and the extended trace. -/
def io_apic_read (dev : ioapic_device) (log : List mmio_access) (apic reg : Nat) :
    Nat × List mmio_access :=
  let log1 := log ++ [mmio_access.writel apic io_apic.index reg]
  (dev log1 % 2 ^ 32, log1 ++ [mmio_access.readl apic io_apic.data])

/-- Source `io_apic_write`: select the register through `index`, then store to `data`. -/
def io_apic_write (log : List mmio_access) (apic reg value : Nat) : List mmio_access :=
  log ++ [mmio_access.writel apic io_apic.index reg, mmio_access.writel apic io_apic.data value]

/-- Source `io_apic_eoi`: store the vector to the `eoi` register. -/
def io_apic_eoi (log : List mmio_access) (apic vector : Nat) : List mmio_access :=
  log ++ [mmio_access.writel apic io_apic.eoi vector]

/-- Read a C bit-field of `len` bits starting at bit `lo` of the word `w`. -/
def bitfield_get (w lo len : Nat) : Nat := (w / 2 ^ lo) % 2 ^ len

/-- Assign `v` (truncated to `len` bits) to the bit-field at bit `lo` of the word `w`. -/
def bitfield_set (w lo len v : Nat) : Nat :=
  w - bitfield_get w lo len * 2 ^ lo + (v % 2 ^ len) * 2 ^ lo

/-- Modelled from the spec: the declaration of `struct IO_APIC_route_entry` (asm/io_apic.h)
is not among the sources. The entry is the pair of 32-bit words that `union entry_union`
overlays on it; the fields the spec names (vector, delivery mode, destination mode,
polarity, remote-IRR, trigger, mask in the low word, destination in the high word) sit at
the bit positions of the IO-APIC redirection-table register. -/
structure IO_APIC_route_entry where
  w1 : Nat
  w2 : Nat
  deriving DecidableEq, Repr

namespace IO_APIC_route_entry

def vector (e : IO_APIC_route_entry) : Nat := bitfield_get e.w1 0 8
def delivery_mode (e : IO_APIC_route_entry) : Nat := bitfield_get e.w1 8 3
def dest_mode (e : IO_APIC_route_entry) : Nat := bitfield_get e.w1 11 1
def delivery_status (e : IO_APIC_route_entry) : Nat := bitfield_get e.w1 12 1
def polarity (e : IO_APIC_route_entry) : Nat := bitfield_get e.w1 13 1
def irr (e : IO_APIC_route_entry) : Nat := bitfield_get e.w1 14 1
def trigger (e : IO_APIC_route_entry) : Nat := bitfield_get e.w1 15 1
def mask (e : IO_APIC_route_entry) : Nat := bitfield_get e.w1 16 1
def dest (e : IO_APIC_route_entry) : Nat := bitfield_get e.w2 24 8

/-- The assignment `e.mask = v`. -/
def set_mask (e : IO_APIC_route_entry) (v : Nat) : IO_APIC_route_entry :=
  { e with w1 := bitfield_set e.w1 16 1 v }

/-- The assignment `e.trigger = v`. -/
def set_trigger (e : IO_APIC_route_entry) (v : Nat) : IO_APIC_route_entry :=
  { e with w1 := bitfield_set e.w1 15 1 v }

end IO_APIC_route_entry

/-- Modelled from the spec: `enum ioapic_irq_destination_types` is not among the sources;
SMI is delivery mode 2 of the redirection entry. -/
def dest_SMI : Nat := 2

/-- Modelled from the spec: mask bit value of a masked line (asm/io_apic.h is absent). -/
def IOAPIC_MASKED : Nat := 1

/-- Modelled from the spec: mask bit value of an unmasked line. -/
def IOAPIC_UNMASKED : Nat := 0

/-- Modelled from the spec: trigger bit value of an edge-triggered line. -/
def IOAPIC_EDGE : Nat := 0

/-- Modelled from the spec: trigger bit value of a level-triggered line. -/
def IOAPIC_LEVEL : Nat := 1

/-- Source `__ioapic_read_entry`: low word from `0x10 + 2 * pin`, then the high word
from `0x11 + 2 * pin`. -/
def __ioapic_read_entry (dev : ioapic_device) (log : List mmio_access) (apic pin : Nat) :
    IO_APIC_route_entry × List mmio_access :=
  let r1 := io_apic_read dev log apic (0x10 + 2 * pin)
  let r2 := io_apic_read dev r1.2 apic (0x11 + 2 * pin)
  ({ w1 := r1.1, w2 := r2.1 }, r2.2)

/-- Source `ioapic_read_entry`: `__ioapic_read_entry` under `ioapic_lock`. -/
def ioapic_read_entry (dev : ioapic_device) (log : List mmio_access) (apic pin : Nat) :
    IO_APIC_route_entry × List mmio_access :=
  __ioapic_read_entry dev log apic pin

/-- Source `__ioapic_write_entry`: the high word is written first. -/
def __ioapic_write_entry (log : List mmio_access) (apic pin : Nat) (e : IO_APIC_route_entry) :
    List mmio_access :=
  let log1 := io_apic_write log apic (0x11 + 2 * pin) e.w2
  io_apic_write log1 apic (0x10 + 2 * pin) e.w1

/-- Source `ioapic_write_entry`: `__ioapic_write_entry` under `ioapic_lock`. -/
def ioapic_write_entry (log : List mmio_access) (apic pin : Nat) (e : IO_APIC_route_entry) :
    List mmio_access :=
  __ioapic_write_entry log apic pin e

/-- Source `ioapic_mask_entry`: a zeroed entry with only `mask` set, low word first. -/
def ioapic_mask_entry (log : List mmio_access) (apic pin : Nat) : List mmio_access :=
  let eu : IO_APIC_route_entry := IO_APIC_route_entry.set_mask { w1 := 0, w2 := 0 } IOAPIC_MASKED
  let log1 := io_apic_write log apic (0x10 + 2 * pin) eu.w1
  io_apic_write log1 apic (0x11 + 2 * pin) eu.w2

/-! ## Controller registry (io_apic.c) -/

/-- Modelled from the spec: `struct mpc_ioapic` (asm/mpspec_def.h) is not among the sources;
these are the members io_apic.c assigns. `apicid` and `apicver` are bytes. -/
structure mpc_ioapic where
  type : Nat
  apicid : Nat
  apicver : Nat
  flags : Nat
  apicaddr : Nat
  deriving DecidableEq, Repr

/-- Modelled from the spec: `struct mp_ioapic_gsi`, the inclusive GSI range of a controller. -/
structure mp_ioapic_gsi where
  gsi_base : Nat
  gsi_end : Nat
  deriving DecidableEq, Repr

/-- Modelled from the spec: `struct ioapic` (asm/io_apic.h), one slot of `ioapics[]`.
`nr_registers = 0` marks a free slot; `saved_registers` is `none` for a NULL pointer and
otherwise holds the number of entries the buffer was allocated for. -/
structure ioapic where
  nr_registers : Nat
  saved_registers : Option Nat
  mp_config : mpc_ioapic
  gsi_config : mp_ioapic_gsi
  deriving DecidableEq, Repr

/-- The globals of io_apic.c that the registry operations read and write, together with
the trace of hardware accesses issued so far. -/
structure ioapic_state where
  ioapics : Nat → ioapic
  gsi_top : Nat
  nr_ioapics : Nat
  ioapic_initialized : Bool
  mmio : List mmio_access

/-- The zero-initialised slot of a static array. -/
def ioapic.zero : ioapic :=
  { nr_registers := 0, saved_registers := none,
    mp_config := { type := 0, apicid := 0, apicver := 0, flags := 0, apicaddr := 0 },
    gsi_config := { gsi_base := 0, gsi_end := 0 } }

/-- The registry at boot: every static is zero and no access has been issued. -/
def ioapic_state.empty : ioapic_state :=
  { ioapics := fun _ => ioapic.zero, gsi_top := 0, nr_ioapics := 0,
    ioapic_initialized := false, mmio := [] }

/-- Modelled from the spec: errno values (lego/errno.h is not among the sources). -/
def EINVAL : Int := 22

/-- Modelled from the spec: errno value for a duplicate register window. -/
def EEXIST : Int := 17

/-- Modelled from the spec: errno value returned for an absent device. -/
def ENODEV : Int := 19

/-- Modelled from the spec: errno value returned when no space is left. -/
def ENOSPC : Int := 28

/-- Modelled from the spec: MP-table entry type of an IO-APIC (asm/mpspec_def.h). -/
def MP_IOAPIC : Nat := 2

/-- Modelled from the spec: the "usable" flag of an MP-table IO-APIC entry. -/
def MPC_APIC_USABLE : Nat := 0x01

/-- Modelled from the spec: `union IO_APIC_reg_00` is not among the sources; the hardware
ID is the top byte of register 0. -/
def IO_APIC_reg_00.ID (raw : Nat) : Nat := bitfield_get raw 24 8

/-- The assignment `reg_00.bits.ID = v` on the raw word. -/
def IO_APIC_reg_00.set_ID (raw v : Nat) : Nat := bitfield_set raw 24 8 v

/-- Modelled from the spec: `union IO_APIC_reg_01` is not among the sources; the version
is the low byte of register 1. -/
def IO_APIC_reg_01.version (raw : Nat) : Nat := bitfield_get raw 0 8

/-- Modelled from the spec: the "max redirection index" byte of register 1 (bits 16-23). -/
def IO_APIC_reg_01.entries (raw : Nat) : Nat := bitfield_get raw 16 8

/-- The loop of `find_free_ioapic_entry`, with `n` iterations left starting at `idx`. -/
def find_free_ioapic_entry.loop (ioapics : Nat → ioapic) : Nat → Nat → Nat
  | 0, idx => idx
  | n + 1, idx => if (ioapics idx).nr_registers = 0 then idx
      else find_free_ioapic_entry.loop ioapics n (idx + 1)

/-- Source `find_free_ioapic_entry`: the first slot with `nr_registers == 0`, else
`MAX_IO_APICS`. -/
def find_free_ioapic_entry (MAX_IO_APICS : Nat) (s : ioapic_state) : Nat :=
  find_free_ioapic_entry.loop s.ioapics MAX_IO_APICS 0

/-- Source `mpc_ioapic_id`. -/
def mpc_ioapic_id (s : ioapic_state) (ioapic_idx : Nat) : Nat :=
  (s.ioapics ioapic_idx).mp_config.apicid

/-- Source `mp_ioapic_gsi_routing`. -/
def mp_ioapic_gsi_routing (s : ioapic_state) (ioapic_idx : Nat) : mp_ioapic_gsi :=
  (s.ioapics ioapic_idx).gsi_config

/-- Source `mp_pin_to_gsi`: `gsi_base + pin` in 32-bit unsigned arithmetic. -/
def mp_pin_to_gsi (s : ioapic_state) (ioapic : Nat) (pin : Int) : Nat :=
  ((((mp_ioapic_gsi_routing s ioapic).gsi_base : Int) + pin) % 2 ^ 32).toNat

/-- Source macro `mpc_ioapic_ver`. -/
def mpc_ioapic_ver (s : ioapic_state) (ioapic_idx : Nat) : Nat :=
  (s.ioapics ioapic_idx).mp_config.apicver

/-- Source `mpc_ioapic_addr`. -/
def mpc_ioapic_addr (s : ioapic_state) (ioapic_idx : Nat) : Nat :=
  (s.ioapics ioapic_idx).mp_config.apicaddr

/-- Source `bad_ioapic_register`: registers 0, 1 and 2 all read as all-ones. -/
def bad_ioapic_register (dev : ioapic_device) (log : List mmio_access) (idx : Nat) :
    Bool × List mmio_access :=
  let r0 := io_apic_read dev log idx 0
  let r1 := io_apic_read dev r0.2 idx 1
  let r2 := io_apic_read dev r1.2 idx 2
  (r0.1 = 0xFFFFFFFF ∧ r1.1 = 0xFFFFFFFF ∧ r2.1 = 0xFFFFFFFF, r2.2)

/-- The bitmap `used` of `io_apic_unique_id`: bit `b` is set when a slot below
`nr_ioapics` carries hardware ID `b`. -/
def io_apic_unique_id.used (s : ioapic_state) (b : Nat) : Bool :=
  (List.range s.nr_ioapics).any (fun i => mpc_ioapic_id s i == b)

/-- Kernel `find_first_zero_bit`: the first clear bit below `size`, else `size`. -/
def find_first_zero_bit (bits : Nat → Bool) (size : Nat) : Nat :=
  ((List.range size).find? (fun b => !bits b)).getD size

/-- Source `io_apic_unique_id`: the requested ID if free, else the ID the hardware reports
if free, else the first free ID, programmed into register 0. `none` is the `BUG_ON` of the
read-back check. -/
def io_apic_unique_id (dev : ioapic_device) (s : ioapic_state) (idx : Nat) (id : Nat) :
    Option (Nat × List mmio_access) :=
  if !io_apic_unique_id.used s id then some (id, s.mmio)
  else
    let r := io_apic_read dev s.mmio idx 0
    let new_id := IO_APIC_reg_00.ID r.1
    if !io_apic_unique_id.used s new_id then some (new_id, r.2)
    else
      let new_id := find_first_zero_bit (io_apic_unique_id.used s) 256 % 256
      let raw := IO_APIC_reg_00.set_ID r.1 new_id
      let log1 := io_apic_write r.2 idx 0 raw
      let r2 := io_apic_read dev log1 idx 0
      if IO_APIC_reg_00.ID r2.1 ≠ new_id then none
      else some (new_id, r2.2)

/-- Source `io_apic_get_version`. -/
def io_apic_get_version (dev : ioapic_device) (log : List mmio_access) (ioapic : Nat) :
    Nat × List mmio_access :=
  let r := io_apic_read dev log ioapic 1
  (IO_APIC_reg_01.version r.1, r.2)

/-- Source `io_apic_get_redir_entries`: the maximum redirection index plus one. -/
def io_apic_get_redir_entries (dev : ioapic_device) (log : List mmio_access) (ioapic : Nat) :
    Nat × List mmio_access :=
  let r := io_apic_read dev log ioapic 1
  (IO_APIC_reg_01.entries r.1 + 1, r.2)

/-- The range test of `mp_find_ioapic`: `gsi >= gsi_base && gsi <= gsi_end`. -/
def mp_ioapic_gsi.contains (cfg : mp_ioapic_gsi) (gsi : Nat) : Bool :=
  decide (gsi ≥ cfg.gsi_base) && decide (gsi ≤ cfg.gsi_end)

/-- Source `mp_find_ioapic`: the first slot below `nr_ioapics` whose range holds `gsi`,
else -1. -/
def mp_find_ioapic (s : ioapic_state) (gsi : Nat) : Int :=
  if s.nr_ioapics = 0 then -1
  else
    match (List.range s.nr_ioapics).find? (fun i => (mp_ioapic_gsi_routing s i).contains gsi) with
    | some i => (i : Int)
    | none => -1

/-- Conversion of a 32-bit unsigned value to `int` (two's complement). -/
def u32_to_int (v : Nat) : Int :=
  if v % 2 ^ 32 < 2 ^ 31 then ((v % 2 ^ 32 : Nat) : Int) else ((v % 2 ^ 32 : Nat) : Int) - 2 ^ 32

/-- Source `mp_find_ioapic_pin`: -1 for a negative slot or a GSI above `gsi_end`, else
`gsi - gsi_base` computed in 32-bit unsigned arithmetic and returned as `int`. -/
def mp_find_ioapic_pin (s : ioapic_state) (ioapic : Int) (gsi : Nat) : Int :=
  if ioapic < 0 then -1
  else
    let gsi_cfg := mp_ioapic_gsi_routing s ioapic.toNat
    if gsi > gsi_cfg.gsi_end then -1
    else u32_to_int (((gsi : Int) - (gsi_cfg.gsi_base : Int)) % 2 ^ 32).toNat

/-- Source `alloc_ioapic_saved_registers`: keep an existing buffer, else `kzalloc` one for
`nr_registers` entries; `kzalloc_ok = false` is an allocation failure, which only logs. -/
def alloc_ioapic_saved_registers (kzalloc_ok : Bool) (s : ioapic_state) (idx : Nat) :
    ioapic_state :=
  if (s.ioapics idx).saved_registers.isSome then s
  else
    { s with ioapics := fun j => if j = idx then
        { s.ioapics idx with saved_registers :=
            if kzalloc_ok then some (s.ioapics idx).nr_registers else none }
        else s.ioapics j }

/-- The conflict test of `mp_register_ioapic`: the new base or the new end lies in the
range of a slot below `nr_ioapics`. -/
def mp_register_ioapic.conflict (s : ioapic_state) (gsi_base gsi_end : Nat) : Bool :=
  (List.range s.nr_ioapics).any (fun i =>
    (mp_ioapic_gsi_routing s i).contains gsi_base || (mp_ioapic_gsi_routing s i).contains gsi_end)

/-- Replace slot `idx` of the registry. -/
def ioapic_state.set_slot (s : ioapic_state) (idx : Nat) (a : ioapic) : ioapic_state :=
  { s with ioapics := fun j => if j = idx then a else s.ioapics j }

/-- Lines 395-399 of `mp_register_ioapic`: the chosen slot gets its type, flags and
address, and the register window is mapped. -/
def mp_register_ioapic.claim_slot (s : ioapic_state) (idx address : Nat) : ioapic_state :=
  let s1 := s.set_slot idx { s.ioapics idx with mp_config :=
    { (s.ioapics idx).mp_config with
      type := MP_IOAPIC, flags := MPC_APIC_USABLE, apicaddr := address } }
  { s1 with mmio := s1.mmio ++ [mmio_access.set_fixmap_nocache idx address] }

/-- Lines 405-406 of `mp_register_ioapic`: the slot gets its hardware ID and version; `log`
is the trace after the two reads. -/
def mp_register_ioapic.set_ids (s : ioapic_state) (idx apicid apicver : Nat)
    (log : List mmio_access) : ioapic_state :=
  ({ s with mmio := log }).set_slot idx { s.ioapics idx with mp_config :=
    { (s.ioapics idx).mp_config with apicid := apicid, apicver := apicver } }

/-- Lines 427-445 of `mp_register_ioapic`: store the range, allocate the snapshot buffer on
hotplug, raise `gsi_top` and `nr_ioapics`, and set `nr_registers` last. -/
def mp_register_ioapic.commit (kzalloc_ok hotplug : Bool) (s : ioapic_state)
    (idx entries gsi_base gsi_end : Nat) : ioapic_state :=
  let s4 := s.set_slot idx { s.ioapics idx with gsi_config :=
    { gsi_base := gsi_base, gsi_end := gsi_end } }
  let s5 := if hotplug then alloc_ioapic_saved_registers kzalloc_ok s4 idx else s4
  let s6 := if (s5.ioapics idx).gsi_config.gsi_end ≥ s5.gsi_top then
      { s5 with gsi_top := ((s5.ioapics idx).gsi_config.gsi_end + 1) % 2 ^ 32 }
    else s5
  let s7 := if s6.nr_ioapics ≤ idx then { s6 with nr_ioapics := idx + 1 } else s6
  s7.set_slot idx { s7.ioapics idx with nr_registers := entries }

/-- Source `mp_register_ioapic(id, address, gsi_base)`. Returns the `int` result and the
new state; `none` is the `BUG_ON` inside `io_apic_unique_id`. `MAX_IO_APICS` is a constant
of a header that is not among the sources and is taken as a parameter. -/
def mp_register_ioapic (MAX_IO_APICS : Nat) (dev : ioapic_device) (kzalloc_ok : Bool)
    (s : ioapic_state) (id : Int) (address gsi_base : Nat) : Option (Int × ioapic_state) :=
  let hotplug := s.ioapic_initialized
  if address = 0 then some (-EINVAL, s)
  else if (List.range s.nr_ioapics).any (fun i => (s.ioapics i).mp_config.apicaddr == address)
  then some (-EEXIST, s)
  else
    let idx := find_free_ioapic_entry MAX_IO_APICS s
    if idx ≥ MAX_IO_APICS then some (-ENOSPC, s)
    else
      let s2 := mp_register_ioapic.claim_slot s idx address
      let bad := bad_ioapic_register dev s2.mmio idx
      if bad.1 then
        some (-ENODEV, { s2 with mmio := bad.2 ++ [mmio_access.clear_fixmap idx] })
      else
        match io_apic_unique_id dev { s2 with mmio := bad.2 } idx (id % 256).toNat with
        | none => none
        | some (apicid, log3) =>
          let ver := io_apic_get_version dev log3 idx
          let s3 := mp_register_ioapic.set_ids s2 idx apicid ver.1 ver.2
          let ent := io_apic_get_redir_entries dev s3.mmio idx
          let entries := ent.1
          let gsi_end := (gsi_base + entries - 1) % 2 ^ 32
          if mp_register_ioapic.conflict s3 gsi_base gsi_end then
            some (-ENOSPC, { s3 with mmio := ent.2 ++ [mmio_access.clear_fixmap idx] })
          else
            some (0, mp_register_ioapic.commit kzalloc_ok hotplug { s3 with mmio := ent.2 }
              idx entries gsi_base gsi_end)

/-- The registry part of two states agrees: the counters, the hotplug flag, and the
register count and GSI range of every slot. -/
def ioapic_state.same_registry (s t : ioapic_state) : Prop :=
  t.nr_ioapics = s.nr_ioapics ∧ t.gsi_top = s.gsi_top
  ∧ t.ioapic_initialized = s.ioapic_initialized
  ∧ ∀ j, (t.ioapics j).nr_registers = (s.ioapics j).nr_registers
      ∧ (t.ioapics j).gsi_config = (s.ioapics j).gsi_config

/-- One call of `mp_register_ioapic` in a boot or hotplug sequence. -/
structure register_call where
  id : Int
  address : Nat
  gsi_base : Nat
  kzalloc_ok : Bool

/-- A sequence of `mp_register_ioapic` calls, whatever each call returns; `none` when a
call stopped at the `BUG_ON`. -/
def mp_register_ioapic_seq (MAX_IO_APICS : Nat) (dev : ioapic_device) :
    ioapic_state → List register_call → Option ioapic_state
  | s, [] => some s
  | s, c :: cs =>
    match mp_register_ioapic MAX_IO_APICS dev c.kzalloc_ok s c.id c.address c.gsi_base with
    | none => none
    | some r => mp_register_ioapic_seq MAX_IO_APICS dev r.2 cs

/-- Every occupied slot has at most 256 registers and its range end is the base plus the
register count minus one, in 32-bit arithmetic. -/
def ioapic_state.ranges_wf (s : ioapic_state) : Prop :=
  ∀ i, (s.ioapics i).nr_registers > 0 →
    (s.ioapics i).nr_registers ≤ 256
    ∧ (s.ioapics i).gsi_config.gsi_end =
        ((s.ioapics i).gsi_config.gsi_base + (s.ioapics i).nr_registers - 1) % 2 ^ 32

/-- Slots below `nr_ioapics` are exactly the occupied ones. -/
def ioapic_state.gap_free (s : ioapic_state) : Prop :=
  ∀ i, i < s.nr_ioapics ↔ 0 < (s.ioapics i).nr_registers

/-- The registry reached from the empty one by a sequence of calls (the empty registry
if a call stopped at the `BUG_ON`). -/
def registry_after (MAX_IO_APICS : Nat) (dev : ioapic_device) (calls : List register_call) :
    ioapic_state :=
  (mp_register_ioapic_seq MAX_IO_APICS dev ioapic_state.empty calls).getD ioapic_state.empty

/-- The hardware IDs of the slots below `nr_ioapics` are pairwise different. -/
def ioapic_state.ids_unique (s : ioapic_state) : Prop :=
  ∀ i j, i < s.nr_ioapics → j < s.nr_ioapics → mpc_ioapic_id s i = mpc_ioapic_id s j → i = j

/-! ## Pin quiescing (io_apic.c) -/

/-- Source `__eoi_ioapic_pin`: an explicit EOI for versions from 0x20 on, else the
emulation by a masked edge-triggered write followed by a restore of the entry read. -/
def __eoi_ioapic_pin (s : ioapic_state) (dev : ioapic_device) (log : List mmio_access)
    (apic pin vector : Nat) : List mmio_access :=
  if mpc_ioapic_ver s apic ≥ 0x20 then io_apic_eoi log apic vector
  else
    let r := __ioapic_read_entry dev log apic pin
    let entry := r.1
    let entry1 := (r.1.set_mask IOAPIC_MASKED).set_trigger IOAPIC_EDGE
    let log1 := __ioapic_write_entry r.2 apic pin entry1
    __ioapic_write_entry log1 apic pin entry

/-- The part of `clear_IO_APIC_pin` between the SMI test and the remote-IRR test: an
unmasked entry `r0.1` is written back masked and read again. Returns the entry that the
remote-IRR test looks at and the trace so far. -/
def clear_IO_APIC_pin.ensure_masked (dev : ioapic_device) (apic pin : Nat)
    (r0 : IO_APIC_route_entry × List mmio_access) : IO_APIC_route_entry × List mmio_access :=
  if r0.1.mask = IOAPIC_UNMASKED then
    ioapic_read_entry dev (ioapic_write_entry r0.2 apic pin (r0.1.set_mask IOAPIC_MASKED))
      apic pin
  else r0

/-- Source `clear_IO_APIC_pin`; the result is the extended trace (the final `pr_err` only
logs). -/
def clear_IO_APIC_pin (s : ioapic_state) (dev : ioapic_device) (log : List mmio_access)
    (apic pin : Nat) : List mmio_access :=
  let r0 := ioapic_read_entry dev log apic pin
  if r0.1.delivery_mode = dest_SMI then r0.2
  else
    let r1 := clear_IO_APIC_pin.ensure_masked dev apic pin r0
    let log2 := if r1.1.irr ≠ 0 then
        let r2 := if r1.1.trigger = IOAPIC_EDGE then
            (r1.1.set_trigger IOAPIC_LEVEL,
              ioapic_write_entry r1.2 apic pin (r1.1.set_trigger IOAPIC_LEVEL))
          else r1
        __eoi_ioapic_pin s dev r2.2 apic pin r2.1.vector
      else r1.2
    let log3 := ioapic_mask_entry log2 apic pin
    (ioapic_read_entry dev log3 apic pin).2

/-- A store to the `data` register of some controller. -/
def mmio_access.is_data_write : mmio_access → Bool
  | mmio_access.writel _ offset _ => offset == io_apic.data
  | _ => false

/-- A store to the `eoi` register of some controller. -/
def mmio_access.is_eoi_write : mmio_access → Bool
  | mmio_access.writel _ offset _ => offset == io_apic.eoi
  | _ => false

/-- Replay of a trace on a register file: the register selected through `index` on each
controller and the contents of every data register, a store to `data` updating the
selected register. -/
structure regfile where
  sel : Nat → Nat
  regs : Nat → Nat → Nat

/-- The effect of one access on the register file. -/
def regfile.step (f : regfile) : mmio_access → regfile
  | mmio_access.writel apic offset value =>
    if offset = io_apic.index then
      { f with sel := fun a => if a = apic then value else f.sel a }
    else if offset = io_apic.data then
      { f with regs := fun a r => if a = apic ∧ r = f.sel apic then value else f.regs a r }
    else f
  | _ => f

/-- The register file after a trace, from the initial contents `init`. -/
def regfile.replay (init : Nat → Nat → Nat) (log : List mmio_access) : regfile :=
  log.foldl regfile.step { sel := fun _ => 0, regs := init }

/-- Modelled from the spec: a register-file device. A load from `data` returns the value
last stored to the register selected through `index` on that controller, and `init apic
reg` while nothing has been stored to it. -/
def regfile_model (init : Nat → Nat → Nat) : ioapic_device := fun log =>
  match log.getLast? with
  | some (mmio_access.writel apic _ _) =>
    (regfile.replay init log).regs apic ((regfile.replay init log).sel apic)
  | _ => 0

/-- The register files `f` and `g` hold the same values outside the two registers of pin
`pin` of controller `apic`. -/
def regfile.same_outside (f g : regfile) (apic pin : Nat) : Prop :=
  ∀ a r, ¬(a = apic ∧ (r = 0x10 + 2 * pin ∨ r = 0x11 + 2 * pin)) → g.regs a r = f.regs a r

/-- The ID register of the device is writable: a read of register 0 that directly follows
a write of register 0 returns the ID that was written. -/
def id_register_writable (dev : ioapic_device) : Prop :=
  ∀ (log : List mmio_access) (apic v : Nat),
    IO_APIC_reg_00.ID (dev (log ++ [mmio_access.writel apic io_apic.index 0,
      mmio_access.writel apic io_apic.data v, mmio_access.writel apic io_apic.index 0]) % 2 ^ 32)
      = IO_APIC_reg_00.ID v

/-- The controller mapped at slot `apic` reports `n` as its maximum redirection index
whenever register 1 is read, that is, it has `n + 1` redirection entries. -/
def reports_entries (dev : ioapic_device) (apic n : Nat) : Prop :=
  ∀ log : List mmio_access,
    IO_APIC_reg_01.entries (dev (log ++ [mmio_access.writel apic io_apic.index 1]) % 2 ^ 32) = n

/-- An example device for concrete runs: register 1 of the controller at slot `apic` is
read-only and holds version 0x11 and the maximum redirection index `max_redir apic`;
every other register returns the value last written to it, initially 0. -/
def ioapic_model (max_redir : Nat → Nat) : ioapic_device := fun log =>
  match log.getLast? with
  | some (mmio_access.writel apic _ reg) =>
    if reg = 1 then max_redir apic * 2 ^ 16 + 0x11
    else (regfile.replay (fun _ _ => 0) log).regs apic reg
  | _ => 0

/-- An example device whose ID register ignores writes: register 1 holds version 0x11 and
the maximum redirection index `max_redir apic`; every other register reads 0. -/
def stuck_id_model (max_redir : Nat → Nat) : ioapic_device := fun log =>
  match log.getLast? with
  | some (mmio_access.writel apic _ reg) =>
    if reg = 1 then max_redir apic * 2 ^ 16 + 0x11 else 0
  | _ => 0

/-- The calls of the scenario: controllers at GSI base 0 and at GSI base 24. -/
def scenario_calls : List register_call :=
  [{ id := 0, address := 0xFEC00000, gsi_base := 0, kzalloc_ok := true },
   { id := 1, address := 0xFEC01000, gsi_base := 24, kzalloc_ok := true }]

/-- The device of the scenario: 24 entries on the first controller, 8 on the others. -/
def scenario_device : ioapic_device := ioapic_model (fun a => if a = 0 then 23 else 7)

/-- The number of calls of a sequence that return 0, up to a call that stops at the
`BUG_ON`. -/
def mp_register_ioapic_successes (MAX_IO_APICS : Nat) (dev : ioapic_device) :
    ioapic_state → List register_call → Nat
  | _, [] => 0
  | s, c :: cs =>
    match mp_register_ioapic MAX_IO_APICS dev c.kzalloc_ok s c.id c.address c.gsi_base with
    | none => 0
    | some r => (if r.1 = 0 then 1 else 0) + mp_register_ioapic_successes MAX_IO_APICS dev r.2 cs

/-- No registration of the sequence reaches past 2^32 - 1: for every call that returns 0,
its `gsi_base` plus the entry count it stored in the slot it occupied is at most
2^32 - 1. A call that returns an error registers no range and is not constrained. -/
def mp_register_ioapic_fits (MAX_IO_APICS : Nat) (dev : ioapic_device) :
    ioapic_state → List register_call → Bool
  | _, [] => true
  | s, c :: cs =>
    match mp_register_ioapic MAX_IO_APICS dev c.kzalloc_ok s c.id c.address c.gsi_base with
    | none => true
    | some r =>
      (decide (r.1 ≠ 0)
        || decide (c.gsi_base
            + (r.2.ioapics (find_free_ioapic_entry MAX_IO_APICS s)).nr_registers ≤ 2 ^ 32 - 1))
      && mp_register_ioapic_fits MAX_IO_APICS dev r.2 cs

/-- The high-water mark `gsi_top` is exact: it is at least one past the `gsi_end` of every
occupied slot, and it is either 0 with no slot occupied or one past the `gsi_end` of some
occupied slot. -/
def ioapic_state.gsi_top_exact (s : ioapic_state) : Prop :=
  (∀ i, 0 < (s.ioapics i).nr_registers → (s.ioapics i).gsi_config.gsi_end + 1 ≤ s.gsi_top)
  ∧ ((s.gsi_top = 0 ∧ ∀ i, (s.ioapics i).nr_registers = 0)
    ∨ ∃ i, 0 < (s.ioapics i).nr_registers
        ∧ s.gsi_top = (s.ioapics i).gsi_config.gsi_end + 1)

/-- A sequence that ends just below 2^32: 24 entries at GSI base 0, a rejected
registration at GSI base 20, and 8 entries at GSI base 2^32 - 10. -/
def scenario_near_top : List register_call :=
  [{ id := 0, address := 0xFEC00000, gsi_base := 0, kzalloc_ok := true },
   { id := 2, address := 0xFEC02000, gsi_base := 20, kzalloc_ok := true },
   { id := 1, address := 0xFEC01000, gsi_base := 2 ^ 32 - 10, kzalloc_ok := true }]

/-! ## Descriptor state machine (kernel/irq/chip.c) -/

/-- A controller operation invoked through the capability set, or a replayed interrupt. -/
inductive chip_call where
  | irq_startup
  | irq_shutdown
  | irq_enable
  | irq_disable
  | irq_ack
  | irq_mask
  | irq_mask_ack
  | irq_unmask
  | resend
  deriving DecidableEq, Repr

/-- Modelled from the spec: `struct irq_chip` (lego/irqchip.h) is not among the sources.
Each optional operation of the capability set is present or absent (a NULL pointer);
`irq_startup`, when present, carries the value the callback returns. `is_no_irq_chip`
says that the chip is the placeholder `no_irq_chip`. -/
structure irq_chip where
  is_no_irq_chip : Bool
  irq_startup : Option Int
  irq_shutdown : Bool
  irq_enable : Bool
  irq_disable : Bool
  irq_ack : Bool
  irq_mask : Bool
  irq_mask_ack : Bool
  irq_unmask : Bool
  deriving DecidableEq, Repr

/-- Modelled from the spec: `struct irq_data` (lego/irq.h) is not among the sources: the
chip and the two state flags that `irqd_set` and `irqd_clear` change in chip.c. -/
structure irq_data where
  irq : Nat
  chip : irq_chip
  IRQD_IRQ_DISABLED : Bool
  IRQD_IRQ_MASKED : Bool
  trigger_type : Nat
  deriving DecidableEq, Repr

/-- A flow handler pointer. -/
inductive irq_flow_handler where
  | NULL
  | handle_bad_irq
  | other (id : Nat)
  deriving DecidableEq, Repr

/-- An action pointer: NULL, the sentinel `chained_action`, or a real action. -/
inductive irqaction_ptr where
  | NULL
  | chained_action
  | other (id : Nat)
  deriving DecidableEq, Repr

/-- Modelled from the spec: `struct irq_desc` (lego/irqdesc.h) is not among the sources:
the members chip.c reads and writes, with the `istate` bits and the settings bits as
separate flags. `depth` is the nested-disable count. -/
structure irq_desc where
  irq_data : irq_data
  depth : Nat
  IRQS_SUSPENDED : Bool
  IRQS_PENDING : Bool
  IRQ_NOPROBE : Bool
  IRQ_NOREQUEST : Bool
  IRQ_NOTHREAD : Bool
  IRQ_DISABLE_UNLAZY : Bool
  handle_irq : irq_flow_handler
  action : irqaction_ptr
  name : String
  deriving DecidableEq, Repr

/-- A descriptor with its instrumentation: the controller operations invoked so far,
oldest first, and the number of warnings raised. Chip callbacks act on the hardware only
and leave the descriptor alone. -/
structure irq_line where
  desc : irq_desc
  calls : List chip_call
  warnings : Nat
  deriving DecidableEq, Repr

/-- Invoke a controller operation: record it. -/
def irq_line.invoke (m : irq_line) (c : chip_call) : irq_line :=
  { m with calls := m.calls ++ [c] }

/-- Source `irq_state_clr_disabled`. -/
def irq_state_clr_disabled (m : irq_line) : irq_line :=
  { m with desc := { m.desc with irq_data := { m.desc.irq_data with IRQD_IRQ_DISABLED := false } } }

/-- Source `irq_state_set_disabled`. -/
def irq_state_set_disabled (m : irq_line) : irq_line :=
  { m with desc := { m.desc with irq_data := { m.desc.irq_data with IRQD_IRQ_DISABLED := true } } }

/-- Source `irq_state_clr_masked`. -/
def irq_state_clr_masked (m : irq_line) : irq_line :=
  { m with desc := { m.desc with irq_data := { m.desc.irq_data with IRQD_IRQ_MASKED := false } } }

/-- Source `irq_state_set_masked`. -/
def irq_state_set_masked (m : irq_line) : irq_line :=
  { m with desc := { m.desc with irq_data := { m.desc.irq_data with IRQD_IRQ_MASKED := true } } }

/-- Modelled from the spec: `irq_settings_set_noprobe` (kernel/irq/settings.h is not among
the sources) turns probing off for the line. -/
def irq_settings_set_noprobe (m : irq_line) : irq_line :=
  { m with desc := { m.desc with IRQ_NOPROBE := true } }

/-- Modelled from the spec: `check_irq_resend` (kernel/irq/resend.c is not among the
sources): an interrupt recorded as pending while the line was disabled is replayed once,
which clears the pending flag; nothing else of the descriptor changes. -/
def check_irq_resend (m : irq_line) : irq_line :=
  if m.desc.IRQS_PENDING then
    ({ m with desc := { m.desc with IRQS_PENDING := false } }).invoke chip_call.resend
  else m

/-- Source `mask_ack_irq`; `none` is the call through a NULL `irq_mask`. -/
def mask_ack_irq (m : irq_line) : Option irq_line :=
  if m.desc.irq_data.chip.irq_mask_ack then
    some (irq_state_set_masked (m.invoke chip_call.irq_mask_ack))
  else if m.desc.irq_data.chip.irq_mask then
    let m1 := m.invoke chip_call.irq_mask
    let m2 := if m1.desc.irq_data.chip.irq_ack then m1.invoke chip_call.irq_ack else m1
    some (irq_state_set_masked m2)
  else none

/-- Source `mask_irq`. -/
def mask_irq (m : irq_line) : irq_line :=
  if m.desc.irq_data.chip.irq_mask then irq_state_set_masked (m.invoke chip_call.irq_mask)
  else m

/-- Source `unmask_irq`. -/
def unmask_irq (m : irq_line) : irq_line :=
  if m.desc.irq_data.chip.irq_unmask then irq_state_clr_masked (m.invoke chip_call.irq_unmask)
  else m

/-- Source `irq_disable`. -/
def irq_disable (m : irq_line) : irq_line :=
  let m1 := irq_state_set_disabled m
  if m1.desc.irq_data.chip.irq_disable then
    irq_state_set_masked (m1.invoke chip_call.irq_disable)
  else if m1.desc.IRQ_DISABLE_UNLAZY then mask_irq m1
  else m1

/-- Source `irq_enable`; `none` is the call through a NULL `irq_unmask`. -/
def irq_enable (m : irq_line) : Option irq_line :=
  let m1 := irq_state_clr_disabled m
  if m1.desc.irq_data.chip.irq_enable then
    some (irq_state_clr_masked (m1.invoke chip_call.irq_enable))
  else if m1.desc.irq_data.chip.irq_unmask then
    some (irq_state_clr_masked (m1.invoke chip_call.irq_unmask))
  else none

/-- Source `irq_startup(desc, resend)`: the returned `ret` and the new state. -/
def irq_startup (m : irq_line) (resend : Bool) : Option (Int × irq_line) :=
  let m1 := irq_state_clr_disabled m
  let m2 := { m1 with desc := { m1.desc with depth := 0 } }
  let r : Option (Int × irq_line) :=
    match m2.desc.irq_data.chip.irq_startup with
    | some ret => some (ret, irq_state_clr_masked (m2.invoke chip_call.irq_startup))
    | none => (irq_enable m2).map (fun m3 => (0, m3))
  r.map (fun p => (p.1, if resend then check_irq_resend p.2 else p.2))

/-- Source `irq_shutdown`; `none` is the call through a NULL `irq_mask`. -/
def irq_shutdown (m : irq_line) : Option irq_line :=
  let m1 := irq_state_set_disabled m
  let m2 := { m1 with desc := { m1.desc with depth := 1 } }
  if m2.desc.irq_data.chip.irq_shutdown then
    some (irq_state_set_masked (m2.invoke chip_call.irq_shutdown))
  else if m2.desc.irq_data.chip.irq_disable then
    some (irq_state_set_masked (m2.invoke chip_call.irq_disable))
  else if m2.desc.irq_data.chip.irq_mask then
    some (irq_state_set_masked (m2.invoke chip_call.irq_mask))
  else none

/-- Source `__enable_irq`: depth 0 and a suspended line at depth 1 only warn; depth 1
re-enables the line and falls through to the decrement of the default case. -/
def __enable_irq (m : irq_line) : Option irq_line :=
  match m.desc.depth with
  | 0 => some { m with warnings := m.warnings + 1 }
  | 1 =>
    if m.desc.IRQS_SUSPENDED then some { m with warnings := m.warnings + 1 }
    else
      (irq_enable (irq_settings_set_noprobe m)).map (fun m1 =>
        let m2 := check_irq_resend m1
        { m2 with desc := { m2.desc with depth := m2.desc.depth - 1 } })
  | _ + 2 => some { m with desc := { m.desc with depth := m.desc.depth - 1 } }

/-- A run of `n` calls of `__enable_irq`. -/
def __enable_irq_times : Nat → irq_line → Option irq_line
  | 0, m => some m
  | n + 1, m => (__enable_irq m).bind (__enable_irq_times n)

/-- The lines on which `__enable_irq` cannot reach a NULL operation: depth 0, or depth 1
with the line suspended or an enable or unmask operation present. -/
def enable_irq_safe (m : irq_line) : Prop :=
  m.desc.depth = 0 ∨ (m.desc.depth = 1 ∧ (m.desc.IRQS_SUSPENDED = true
    ∨ m.desc.irq_data.chip.irq_enable = true ∨ m.desc.irq_data.chip.irq_unmask = true))

/-- An example capability set with every optional operation absent. -/
def irq_chip.absent : irq_chip :=
  { is_no_irq_chip := false, irq_startup := none, irq_shutdown := false, irq_enable := false,
    irq_disable := false, irq_ack := false, irq_mask := false, irq_mask_ack := false,
    irq_unmask := false }

/-- An example line: started, unmasked, with the given capability set and no operation
invoked yet. -/
def example_line (chip : irq_chip) : irq_line :=
  { desc := { irq_data := { irq := 5, chip := chip, IRQD_IRQ_DISABLED := false,
                            IRQD_IRQ_MASKED := false, trigger_type := 0 },
              depth := 0, IRQS_SUSPENDED := false, IRQS_PENDING := false, IRQ_NOPROBE := false,
              IRQ_NOREQUEST := false, IRQ_NOTHREAD := false, IRQ_DISABLE_UNLAZY := false,
              handle_irq := irq_flow_handler.other 1, action := irqaction_ptr.other 1,
              name := "edge" },
    calls := [], warnings := 0 }

/-- Modelled from the spec: `irq_settings_set_norequest` (kernel/irq/settings.h is not
among the sources) turns requesting off for the line. -/
def irq_settings_set_norequest (m : irq_line) : irq_line :=
  { m with desc := { m.desc with IRQ_NOREQUEST := true } }

/-- Modelled from the spec: `irq_settings_set_nothread` (kernel/irq/settings.h is not
among the sources) turns threading off for the line. -/
def irq_settings_set_nothread (m : irq_line) : irq_line :=
  { m with desc := { m.desc with IRQ_NOTHREAD := true } }

/-- Modelled from the spec: trigger type "none" (lego/irq.h is not among the sources). -/
def IRQ_TYPE_NONE : Nat := 0

/-- Source `__irq_do_set_handler(desc, handle, is_chained, name)`. `__irq_set_trigger` is
a function of the repository that is not among the sources and is taken as a parameter.
A non-NULL handler on the placeholder `no_irq_chip` only warns and returns; `none` is a
call through a NULL operation inside `mask_ack_irq` or `irq_startup`. -/
def __irq_do_set_handler (__irq_set_trigger : irq_line → Nat → irq_line) (m : irq_line)
    (handle : irq_flow_handler) (is_chained : Bool) (name : String) : Option irq_line :=
  if handle ≠ irq_flow_handler.NULL ∧ m.desc.irq_data.chip.is_no_irq_chip = true then
    some { m with warnings := m.warnings + 1 }
  else
    let handle := if handle = irq_flow_handler.NULL then irq_flow_handler.handle_bad_irq
      else handle
    let r1 : Option irq_line :=
      if handle = irq_flow_handler.handle_bad_irq then
        let r0 := if m.desc.irq_data.chip.is_no_irq_chip = false then mask_ack_irq m else some m
        r0.map (fun m1 =>
          let m2 := irq_state_set_disabled m1
          let m3 := if is_chained then
              { m2 with desc := { m2.desc with action := irqaction_ptr.NULL } }
            else m2
          { m3 with desc := { m3.desc with depth := 1 } })
      else some m
    r1.bind (fun m4 =>
      let m5 := { m4 with desc := { m4.desc with handle_irq := handle, name := name } }
      if handle ≠ irq_flow_handler.handle_bad_irq ∧ is_chained = true then
        let type := m5.desc.irq_data.trigger_type
        let m6 := if type ≠ IRQ_TYPE_NONE then
            { __irq_set_trigger m5 type with
              desc := { (__irq_set_trigger m5 type).desc with handle_irq := handle } }
          else m5
        let m7 := irq_settings_set_nothread (irq_settings_set_norequest
          (irq_settings_set_noprobe m6))
        let m8 := { m7 with desc := { m7.desc with action := irqaction_ptr.chained_action } }
        (irq_startup m8 true).map (fun r => r.2)
      else some m5)

/-- The descriptor invariant of the spec: depth is 0 exactly when the disabled flag is
clear. -/
def irq_desc.depth_inv (d : irq_desc) : Prop :=
  d.depth = 0 ↔ d.irq_data.IRQD_IRQ_DISABLED = false

/-! ## Legacy source table (io_apic.c) -/

/-- Modelled from the spec: `struct mpc_intsrc` (asm/mpspec_def.h) is not among the
sources: entry type, interrupt type, polarity and trigger flags, source bus, source bus
IRQ, destination controller ID and destination pin. The struct has no padding, so
`memcmp` over it is equality of the members. -/
structure mpc_intsrc where
  type : Nat
  irqtype : Nat
  irqflag : Nat
  srcbus : Nat
  srcbusirq : Nat
  dstapic : Nat
  dstirq : Nat
  deriving DecidableEq, Repr

/-- The globals `mp_irqs[]` and `mp_irq_entries`. -/
structure mp_irq_table where
  mp_irqs : Nat → mpc_intsrc
  mp_irq_entries : Nat

/-- The table at boot: no record. -/
def mp_irq_table.empty : mp_irq_table :=
  { mp_irqs := fun _ => { type := 0, irqtype := 0, irqflag := 0, srcbus := 0, srcbusirq := 0,
                          dstapic := 0, dstirq := 0 },
    mp_irq_entries := 0 }

/-- The memory after a call of `mp_save_irq` and whether the call ended in `panic`. -/
structure mp_save_irq_result where
  table : mp_irq_table
  panicked : Bool

/-- The scan of `mp_save_irq`: some record below `mp_irq_entries` equals `m`. -/
def mp_irq_table.has (t : mp_irq_table) (m : mpc_intsrc) : Bool :=
  (List.range t.mp_irq_entries).any (fun i => t.mp_irqs i == m)

/-- Source `mp_save_irq`: return on a record equal to `m`; else copy `m` to
`mp_irqs[mp_irq_entries]`, increment the count and `panic` if it now equals
`MAX_IRQ_SOURCES`, a constant of a header that is not among the sources and is taken as
a parameter. -/
def mp_save_irq (MAX_IRQ_SOURCES : Nat) (t : mp_irq_table) (m : mpc_intsrc) :
    mp_save_irq_result :=
  if t.has m then { table := t, panicked := false }
  else
    let t1 : mp_irq_table :=
      { t with mp_irqs := fun j => if j = t.mp_irq_entries then m else t.mp_irqs j }
    let t2 : mp_irq_table := { t1 with mp_irq_entries := t1.mp_irq_entries + 1 }
    { table := t2, panicked := decide (t2.mp_irq_entries = MAX_IRQ_SOURCES) }

/-- A sequence of `mp_save_irq` calls from table `t`; `none` when a call ended in `panic`,
which halts the boot. -/
def mp_save_irq_seq (MAX_IRQ_SOURCES : Nat) : mp_irq_table → List mpc_intsrc →
    Option mp_irq_table
  | t, [] => some t
  | t, m :: ms =>
    if (mp_save_irq MAX_IRQ_SOURCES t m).panicked then none
    else mp_save_irq_seq MAX_IRQ_SOURCES (mp_save_irq MAX_IRQ_SOURCES t m).table ms

/-- No two records below `mp_irq_entries` are equal. -/
def mp_irq_table.no_dup (t : mp_irq_table) : Prop :=
  ∀ i j, i < t.mp_irq_entries → j < t.mp_irq_entries → t.mp_irqs i = t.mp_irqs j → i = j

/-- An example record: ISA IRQ `n` wired to pin `n` of controller 0. -/
def example_intsrc (n : Nat) : mpc_intsrc :=
  { type := 3, irqtype := 0, irqflag := 0, srcbus := 0, srcbusirq := n, dstapic := 0,
    dstirq := n }

/-- An example line that is shut down: depth 1, disabled and masked. -/
def example_line_off (chip : irq_chip) (suspended : Bool) : irq_line :=
  { example_line chip with
    desc := { (example_line chip).desc with
      irq_data := { (example_line chip).desc.irq_data with
        IRQD_IRQ_DISABLED := true, IRQD_IRQ_MASKED := true },
      depth := 1, IRQS_SUSPENDED := suspended } }

/-! ## Theorems: register access layer and pin quiescing -/

/-- The trace of an entry read: two register reads, low word first. -/
theorem __ioapic_read_entry_trace (dev : ioapic_device) (log : List mmio_access)
    (apic pin : Nat) :
    (__ioapic_read_entry dev log apic pin).2 =
      log ++ [mmio_access.writel apic io_apic.index (0x10 + 2 * pin),
              mmio_access.readl apic io_apic.data,
              mmio_access.writel apic io_apic.index (0x11 + 2 * pin),
              mmio_access.readl apic io_apic.data] := by
  simp [__ioapic_read_entry, io_apic_read, List.append_assoc]

/-- The trace of an entry write: two register writes, high word first. -/
theorem __ioapic_write_entry_trace (log : List mmio_access) (apic pin : Nat)
    (e : IO_APIC_route_entry) :
    __ioapic_write_entry log apic pin e =
      log ++ [mmio_access.writel apic io_apic.index (0x11 + 2 * pin),
              mmio_access.writel apic io_apic.data e.w2,
              mmio_access.writel apic io_apic.index (0x10 + 2 * pin),
              mmio_access.writel apic io_apic.data e.w1] := by
  simp [__ioapic_write_entry, io_apic_write, List.append_assoc]

/-- C6: `__ioapic_write_entry` issues exactly two register writes, the high word at index
`0x11 + 2 * pin` first and then the low word, whose bit 16 is the mask bit, at index
`0x10 + 2 * pin`; `ioapic_mask_entry` issues exactly two register writes in the opposite
order, the low word with only the mask bit set at `0x10 + 2 * pin` first and then the high
word 0 at `0x11 + 2 * pin`. -/
theorem ioapic_entry_write_order (log : List mmio_access) (apic pin : Nat)
    (e : IO_APIC_route_entry) :
    __ioapic_write_entry log apic pin e =
        log ++ [mmio_access.writel apic io_apic.index (0x11 + 2 * pin),
                mmio_access.writel apic io_apic.data e.w2,
                mmio_access.writel apic io_apic.index (0x10 + 2 * pin),
                mmio_access.writel apic io_apic.data e.w1]
    ∧ e.mask = e.w1 / 2 ^ 16 % 2
    ∧ ioapic_mask_entry log apic pin =
        log ++ [mmio_access.writel apic io_apic.index (0x10 + 2 * pin),
                mmio_access.writel apic io_apic.data (2 ^ 16),
                mmio_access.writel apic io_apic.index (0x11 + 2 * pin),
                mmio_access.writel apic io_apic.data 0]
    ∧ IO_APIC_route_entry.mask { w1 := 2 ^ 16, w2 := 0 } = IOAPIC_MASKED
    ∧ IO_APIC_route_entry.vector { w1 := 2 ^ 16, w2 := 0 } = 0
    ∧ IO_APIC_route_entry.delivery_mode { w1 := 2 ^ 16, w2 := 0 } = 0
    ∧ IO_APIC_route_entry.dest_mode { w1 := 2 ^ 16, w2 := 0 } = 0
    ∧ IO_APIC_route_entry.delivery_status { w1 := 2 ^ 16, w2 := 0 } = 0
    ∧ IO_APIC_route_entry.polarity { w1 := 2 ^ 16, w2 := 0 } = 0
    ∧ IO_APIC_route_entry.irr { w1 := 2 ^ 16, w2 := 0 } = 0
    ∧ IO_APIC_route_entry.trigger { w1 := 2 ^ 16, w2 := 0 } = 0
    ∧ IO_APIC_route_entry.dest { w1 := 2 ^ 16, w2 := 0 } = 0 := by
  refine ⟨?_, rfl, ?_, by decide, by decide, by decide, by decide, by decide, by decide,
    by decide, by decide, by decide⟩
  · simp [__ioapic_write_entry, io_apic_write, List.append_assoc]
  · simp [ioapic_mask_entry, io_apic_write, List.append_assoc, IO_APIC_route_entry.set_mask,
      bitfield_set, bitfield_get, IOAPIC_MASKED]

/-- C7: when the entry that `clear_IO_APIC_pin` reads has delivery mode SMI, the call issues
only the two register reads of that entry (index selections and data loads): no store to
a data register and no store to the EOI register, so on a register file every data
register of every controller holds the same value after the call as before it, whatever
the mask, trigger and remote-IRR bits of the entry are. -/
theorem clear_IO_APIC_pin_SMI_untouched (s : ioapic_state) (dev : ioapic_device)
    (log : List mmio_access) (apic pin : Nat)
    (hsmi : (ioapic_read_entry dev log apic pin).1.delivery_mode = dest_SMI) :
    clear_IO_APIC_pin s dev log apic pin =
        log ++ [mmio_access.writel apic io_apic.index (0x10 + 2 * pin),
                mmio_access.readl apic io_apic.data,
                mmio_access.writel apic io_apic.index (0x11 + 2 * pin),
                mmio_access.readl apic io_apic.data]
    ∧ (∀ a ∈ (clear_IO_APIC_pin s dev log apic pin).drop log.length,
        a.is_data_write = false ∧ a.is_eoi_write = false)
    ∧ (∀ init, (regfile.replay init (clear_IO_APIC_pin s dev log apic pin)).regs =
        (regfile.replay init log).regs) := by
  have h : clear_IO_APIC_pin s dev log apic pin =
      log ++ [mmio_access.writel apic io_apic.index (0x10 + 2 * pin),
              mmio_access.readl apic io_apic.data,
              mmio_access.writel apic io_apic.index (0x11 + 2 * pin),
              mmio_access.readl apic io_apic.data] := by
    unfold clear_IO_APIC_pin
    simp only [hsmi, if_true]
    exact __ioapic_read_entry_trace dev log apic pin
  refine ⟨h, ?_, ?_⟩
  · rw [h]
    simp [mmio_access.is_data_write, mmio_access.is_eoi_write, io_apic.index, io_apic.data,
      io_apic.eoi]
  · intro init
    rw [h]
    simp [regfile.replay, List.foldl_append, regfile.step, io_apic.index]

/-- Witness for C7: a device whose every read returns 0x200 (delivery mode SMI). -/
theorem clear_IO_APIC_pin_SMI_untouched_witness :
    (ioapic_read_entry (fun _ => 0x200) [] 0 3).1.delivery_mode = dest_SMI
    ∧ clear_IO_APIC_pin ioapic_state.empty (fun _ => 0x200) [] 0 3 =
        [] ++ [mmio_access.writel 0 io_apic.index (0x10 + 2 * 3),
               mmio_access.readl 0 io_apic.data,
               mmio_access.writel 0 io_apic.index (0x11 + 2 * 3),
               mmio_access.readl 0 io_apic.data] :=
  ⟨by decide,
   (clear_IO_APIC_pin_SMI_untouched ioapic_state.empty (fun _ => 0x200) [] 0 3 (by decide)).1⟩

/-! ## Lemmas: controller registry -/

/-- `same_registry` is reflexive. -/
theorem same_registry_refl (s : ioapic_state) : s.same_registry s :=
  ⟨rfl, rfl, rfl, fun _ => ⟨rfl, rfl⟩⟩

/-- `same_registry` is transitive. -/
theorem same_registry_trans {s t u : ioapic_state} (h1 : s.same_registry t)
    (h2 : t.same_registry u) : s.same_registry u :=
  ⟨h2.1.trans h1.1, h2.2.1.trans h1.2.1, h2.2.2.1.trans h1.2.2.1,
    fun j => ⟨(h2.2.2.2 j).1.trans (h1.2.2.2 j).1, (h2.2.2.2 j).2.trans (h1.2.2.2 j).2⟩⟩

/-- Extending the trace leaves the registry alone. -/
theorem same_registry_mmio (s : ioapic_state) (l : List mmio_access) :
    s.same_registry { s with mmio := l } :=
  ⟨rfl, rfl, rfl, fun _ => ⟨rfl, rfl⟩⟩

/-- Claiming a slot changes only its `mp_config` and the trace. -/
theorem same_registry_claim_slot (s : ioapic_state) (idx address : Nat) :
    s.same_registry (mp_register_ioapic.claim_slot s idx address) := by
  refine ⟨rfl, rfl, rfl, fun j => ?_⟩
  by_cases hj : j = idx
  · subst hj; simp [mp_register_ioapic.claim_slot, ioapic_state.set_slot]
  · simp [mp_register_ioapic.claim_slot, ioapic_state.set_slot, hj]

/-- Storing the ID and version changes only `mp_config` and the trace. -/
theorem same_registry_set_ids (s : ioapic_state) (idx a v : Nat) (l : List mmio_access) :
    s.same_registry (mp_register_ioapic.set_ids s idx a v l) := by
  refine ⟨rfl, rfl, rfl, fun j => ?_⟩
  by_cases hj : j = idx
  · subst hj; simp [mp_register_ioapic.set_ids, ioapic_state.set_slot]
  · simp [mp_register_ioapic.set_ids, ioapic_state.set_slot, hj]

/-- The entries field is a byte, so a controller reports at most 256 entries. -/
theorem IO_APIC_reg_01.entries_le (raw : Nat) : IO_APIC_reg_01.entries raw + 1 ≤ 256 := by
  unfold IO_APIC_reg_01.entries bitfield_get
  have : raw / 2 ^ 16 % 2 ^ 8 < 2 ^ 8 := Nat.mod_lt _ (by norm_num)
  omega

/-- The snapshot allocation changes only `saved_registers`. -/
theorem alloc_ioapic_saved_registers_frame (kz : Bool) (s : ioapic_state) (idx : Nat) :
    s.same_registry (alloc_ioapic_saved_registers kz s idx)
    ∧ (alloc_ioapic_saved_registers kz s idx).mmio = s.mmio := by
  unfold alloc_ioapic_saved_registers
  split
  · exact ⟨same_registry_refl s, rfl⟩
  · refine ⟨⟨rfl, rfl, rfl, fun j => ?_⟩, rfl⟩
    by_cases hj : j = idx
    · subst hj; simp
    · simp [hj]

/-- The conflict test only looks at the ranges of the slots below `nr_ioapics`. -/
theorem conflict_congr {s t : ioapic_state} (h : s.same_registry t) (b e : Nat) :
    mp_register_ioapic.conflict t b e = mp_register_ioapic.conflict s b e := by
  unfold mp_register_ioapic.conflict mp_ioapic_gsi_routing
  rw [h.1]
  simp only [fun j => (h.2.2.2 j).2]

/-- What the commit part of a successful registration stores. -/
theorem commit_spec (kz hp : Bool) (s : ioapic_state) (idx entries b e : Nat) :
    (∀ j, j ≠ idx →
      ((mp_register_ioapic.commit kz hp s idx entries b e).ioapics j).nr_registers
          = (s.ioapics j).nr_registers
      ∧ ((mp_register_ioapic.commit kz hp s idx entries b e).ioapics j).gsi_config
          = (s.ioapics j).gsi_config)
    ∧ ((mp_register_ioapic.commit kz hp s idx entries b e).ioapics idx).nr_registers = entries
    ∧ ((mp_register_ioapic.commit kz hp s idx entries b e).ioapics idx).gsi_config
        = { gsi_base := b, gsi_end := e }
    ∧ (mp_register_ioapic.commit kz hp s idx entries b e).nr_ioapics
        = (if s.nr_ioapics ≤ idx then idx + 1 else s.nr_ioapics)
    ∧ (mp_register_ioapic.commit kz hp s idx entries b e).gsi_top
        = (if e ≥ s.gsi_top then (e + 1) % 2 ^ 32 else s.gsi_top)
    ∧ (mp_register_ioapic.commit kz hp s idx entries b e).ioapic_initialized
        = s.ioapic_initialized
    ∧ (mp_register_ioapic.commit kz hp s idx entries b e).mmio = s.mmio := by
  have key : ∀ s5 : ioapic_state,
      (s.set_slot idx { s.ioapics idx with gsi_config := { gsi_base := b, gsi_end := e } }).same_registry s5 →
      s5.mmio = s.mmio →
      (let s6 := if (s5.ioapics idx).gsi_config.gsi_end ≥ s5.gsi_top then
          { s5 with gsi_top := ((s5.ioapics idx).gsi_config.gsi_end + 1) % 2 ^ 32 }
        else s5
       let s7 := if s6.nr_ioapics ≤ idx then { s6 with nr_ioapics := idx + 1 } else s6
       let r := s7.set_slot idx { s7.ioapics idx with nr_registers := entries }
       (∀ j, j ≠ idx → (r.ioapics j).nr_registers = (s.ioapics j).nr_registers
          ∧ (r.ioapics j).gsi_config = (s.ioapics j).gsi_config)
        ∧ (r.ioapics idx).nr_registers = entries
        ∧ (r.ioapics idx).gsi_config = { gsi_base := b, gsi_end := e }
        ∧ r.nr_ioapics = (if s.nr_ioapics ≤ idx then idx + 1 else s.nr_ioapics)
        ∧ r.gsi_top = (if e ≥ s.gsi_top then (e + 1) % 2 ^ 32 else s.gsi_top)
        ∧ r.ioapic_initialized = s.ioapic_initialized
        ∧ r.mmio = s.mmio) := by
    intro s5 h5 hm
    obtain ⟨hn, ht, hi, hs⟩ := h5
    have hidx := hs idx
    simp only [ioapic_state.set_slot, if_true] at hidx hn ht hi
    have hoth : ∀ j, j ≠ idx → (s5.ioapics j).nr_registers = (s.ioapics j).nr_registers
        ∧ (s5.ioapics j).gsi_config = (s.ioapics j).gsi_config := by
      intro j hj
      have := hs j
      simpa [ioapic_state.set_slot, hj] using this
    simp only [hidx.2, ht, ge_iff_le]
    by_cases c1 : s.gsi_top ≤ e <;> by_cases c2 : s.nr_ioapics ≤ idx <;>
      simp [c1, c2, hn, ht, hi, hm, ioapic_state.set_slot, hidx] <;>
      intro j hj <;> simp [hj, hoth j hj]
  unfold mp_register_ioapic.commit
  cases hp
  · exact key _ (same_registry_refl _) rfl
  · have := alloc_ioapic_saved_registers_frame kz
      (s.set_slot idx { s.ioapics idx with gsi_config := { gsi_base := b, gsi_end := e } }) idx
    exact key _ this.1 this.2

/-- A controller reports between 1 and 256 redirection entries, read from register 1. -/
theorem io_apic_get_redir_entries_bounds (dev : ioapic_device) (log : List mmio_access)
    (idx : Nat) : 1 ≤ (io_apic_get_redir_entries dev log idx).1
      ∧ (io_apic_get_redir_entries dev log idx).1 ≤ 256
      ∧ ∃ t : List mmio_access, (io_apic_get_redir_entries dev log idx).1 =
          IO_APIC_reg_01.entries (dev (t ++ [mmio_access.writel idx io_apic.index 1]) % 2 ^ 32)
            + 1 := by
  simp only [io_apic_get_redir_entries]
  exact ⟨by omega, IO_APIC_reg_01.entries_le _, log, rfl⟩

/-- Every return of `mp_register_ioapic`: an error leaves the registry as it was, and a
success commits exactly one slot, the first free one, after the conflict test passed. -/
theorem mp_register_ioapic_cases (MAX_IO_APICS : Nat) (dev : ioapic_device) (kz : Bool)
    (s : ioapic_state) (id : Int) (address gsi_base : Nat) (r : Int × ioapic_state)
    (h : mp_register_ioapic MAX_IO_APICS dev kz s id address gsi_base = some r) :
    (r.1 ≠ 0 ∧ s.same_registry r.2)
    ∨ (r.1 = 0 ∧ ∃ entries, 1 ≤ entries ∧ entries ≤ 256
      ∧ address ≠ 0
      ∧ find_free_ioapic_entry MAX_IO_APICS s < MAX_IO_APICS
      ∧ (∀ j, j ≠ find_free_ioapic_entry MAX_IO_APICS s →
          (r.2.ioapics j).nr_registers = (s.ioapics j).nr_registers
          ∧ (r.2.ioapics j).gsi_config = (s.ioapics j).gsi_config)
      ∧ (r.2.ioapics (find_free_ioapic_entry MAX_IO_APICS s)).nr_registers = entries
      ∧ (r.2.ioapics (find_free_ioapic_entry MAX_IO_APICS s)).gsi_config =
          { gsi_base := gsi_base, gsi_end := (gsi_base + entries - 1) % 2 ^ 32 }
      ∧ mp_register_ioapic.conflict s gsi_base ((gsi_base + entries - 1) % 2 ^ 32) = false
      ∧ r.2.nr_ioapics = (if s.nr_ioapics ≤ find_free_ioapic_entry MAX_IO_APICS s
          then find_free_ioapic_entry MAX_IO_APICS s + 1 else s.nr_ioapics)
      ∧ r.2.gsi_top = (if (gsi_base + entries - 1) % 2 ^ 32 ≥ s.gsi_top
          then ((gsi_base + entries - 1) % 2 ^ 32 + 1) % 2 ^ 32 else s.gsi_top)
      ∧ r.2.ioapic_initialized = s.ioapic_initialized
      ∧ ∃ t : List mmio_access, entries = IO_APIC_reg_01.entries
          (dev (t ++ [mmio_access.writel (find_free_ioapic_entry MAX_IO_APICS s)
            io_apic.index 1]) % 2 ^ 32) + 1) := by
  unfold mp_register_ioapic at h
  by_cases h1 : address = 0
  · rw [if_pos h1] at h; cases h
    exact Or.inl ⟨by simp [EINVAL], same_registry_refl s⟩
  rw [if_neg h1] at h
  dsimp only at h
  split at h
  · cases h; exact Or.inl ⟨by simp [EEXIST], same_registry_refl s⟩
  split at h
  · cases h; exact Or.inl ⟨by simp [ENOSPC], same_registry_refl s⟩
  rename_i hidx
  split at h
  · cases h
    exact Or.inl ⟨by simp [ENODEV],
      same_registry_trans (same_registry_claim_slot s _ address) (same_registry_mmio _ _)⟩
  split at h
  · cases h
  rename_i apicid log3 hu
  have hs3 : s.same_registry (mp_register_ioapic.set_ids
      (mp_register_ioapic.claim_slot s (find_free_ioapic_entry MAX_IO_APICS s) address)
      (find_free_ioapic_entry MAX_IO_APICS s) apicid
      (io_apic_get_version dev log3 (find_free_ioapic_entry MAX_IO_APICS s)).1
      (io_apic_get_version dev log3 (find_free_ioapic_entry MAX_IO_APICS s)).2) :=
    same_registry_trans (same_registry_claim_slot s _ address) (same_registry_set_ids _ _ _ _ _)
  generalize mp_register_ioapic.set_ids
      (mp_register_ioapic.claim_slot s (find_free_ioapic_entry MAX_IO_APICS s) address)
      (find_free_ioapic_entry MAX_IO_APICS s) apicid
      (io_apic_get_version dev log3 (find_free_ioapic_entry MAX_IO_APICS s)).1
      (io_apic_get_version dev log3 (find_free_ioapic_entry MAX_IO_APICS s)).2 = s3 at h hs3
  have hb := io_apic_get_redir_entries_bounds dev s3.mmio (find_free_ioapic_entry MAX_IO_APICS s)
  generalize io_apic_get_redir_entries dev s3.mmio (find_free_ioapic_entry MAX_IO_APICS s)
    = ent at h hb
  split at h
  · cases h
    exact Or.inl ⟨by simp [ENOSPC], same_registry_trans hs3 (same_registry_mmio _ _)⟩
  rename_i hconf
  cases h
  right
  have hs4 := same_registry_trans hs3 (same_registry_mmio s3 ent.2)
  obtain ⟨c1, c2, c3, c4, c5, c6, -⟩ := commit_spec kz s.ioapic_initialized
    { s3 with mmio := ent.2 } (find_free_ioapic_entry MAX_IO_APICS s) ent.1 gsi_base
    ((gsi_base + ent.1 - 1) % 2 ^ 32)
  refine ⟨rfl, ent.1, hb.1, hb.2.1, h1, by omega, ?_, c2, c3, ?_, ?_, ?_, ?_, hb.2.2⟩
  · intro j hj
    exact ⟨((c1 j hj).1).trans (hs4.2.2.2 j).1, ((c1 j hj).2).trans (hs4.2.2.2 j).2⟩
  · rw [← conflict_congr hs3]
    simpa using hconf
  · rw [c4]; simp only [hs3.1]
  · rw [c5]; simp only [hs3.2.1]
  · rw [c6]; exact hs3.2.2.1
/-- Reading the ID field back after assigning it gives the assigned byte. -/
theorem IO_APIC_reg_00.ID_set_ID (raw v : Nat) :
    IO_APIC_reg_00.ID (IO_APIC_reg_00.set_ID raw v) = v % 256 := by
  simp only [IO_APIC_reg_00.ID, IO_APIC_reg_00.set_ID, bitfield_set, bitfield_get,
    Nat.reducePow]
  omega

/-- With a writable ID register the read-back check of `io_apic_unique_id` passes. -/
theorem io_apic_unique_id_returns (dev : ioapic_device) (hw : id_register_writable dev)
    (s : ioapic_state) (idx id : Nat) : ∃ p, io_apic_unique_id dev s idx id = some p := by
  unfold io_apic_unique_id
  split
  · exact ⟨_, rfl⟩
  dsimp only
  split
  · exact ⟨_, rfl⟩
  split
  · rename_i hne
    exfalso
    apply hne
    have := hw (s.mmio ++ [mmio_access.writel idx io_apic.index 0,
        mmio_access.readl idx io_apic.data]) idx
      (IO_APIC_reg_00.set_ID (io_apic_read dev s.mmio idx 0).1
        (find_first_zero_bit (io_apic_unique_id.used s) 256 % 256))
    rw [IO_APIC_reg_00.ID_set_ID, Nat.mod_mod] at this
    simpa [io_apic_read, io_apic_write, List.append_assoc] using this
  · exact ⟨_, rfl⟩

/-- With a writable ID register `mp_register_ioapic` returns. -/
theorem mp_register_ioapic_returns (MAX_IO_APICS : Nat) (dev : ioapic_device)
    (hw : id_register_writable dev) (kz : Bool)
    (s : ioapic_state) (id : Int) (address gsi_base : Nat) :
    ∃ r, mp_register_ioapic MAX_IO_APICS dev kz s id address gsi_base = some r := by
  unfold mp_register_ioapic
  dsimp only
  split
  · exact ⟨_, rfl⟩
  split
  · exact ⟨_, rfl⟩
  split
  · exact ⟨_, rfl⟩
  split
  · exact ⟨_, rfl⟩
  split
  · rename_i hu
    obtain ⟨p, hp⟩ := io_apic_unique_id_returns dev hw
      { mp_register_ioapic.claim_slot s (find_free_ioapic_entry MAX_IO_APICS s) address with
        mmio := (bad_ioapic_register dev (mp_register_ioapic.claim_slot s
          (find_free_ioapic_entry MAX_IO_APICS s) address).mmio
          (find_free_ioapic_entry MAX_IO_APICS s)).2 }
      (find_free_ioapic_entry MAX_IO_APICS s) (id % 256).toNat
    rw [hp] at hu
    cases hu
  · split
    · exact ⟨_, rfl⟩
    · exact ⟨_, rfl⟩

/-- The conflict test fires exactly when the new base or end lies in the range of a slot below `nr_ioapics`. -/
theorem conflict_eq_true_iff (s : ioapic_state) (b e : Nat) :
    mp_register_ioapic.conflict s b e = true ↔
      ∃ i, i < s.nr_ioapics ∧ ((mp_ioapic_gsi_routing s i).contains b = true
        ∨ (mp_ioapic_gsi_routing s i).contains e = true) := by
  simp [mp_register_ioapic.conflict, List.any_eq_true]

/-- The example device has a writable ID register. -/
theorem ioapic_model_id_register_writable (m : Nat → Nat) :
    id_register_writable (ioapic_model m) := by
  intro log apic v
  have : ioapic_model m (log ++ [mmio_access.writel apic io_apic.index 0,
      mmio_access.writel apic io_apic.data v, mmio_access.writel apic io_apic.index 0]) = v := by
    simp [ioapic_model, List.getLast?_append, regfile.replay, List.foldl_append, regfile.step,
      io_apic.index, io_apic.data]
  rw [this]
  simp only [IO_APIC_reg_00.ID, bitfield_get, Nat.reducePow]
  omega

/-- The example device reports its configured maximum redirection index. -/
theorem ioapic_model_reports_entries (m : Nat → Nat) (apic : Nat) (h : m apic < 256) :
    reports_entries (ioapic_model m) apic (m apic) := by
  intro log
  have : ioapic_model m (log ++ [mmio_access.writel apic io_apic.index 1])
      = m apic * 2 ^ 16 + 0x11 := by
    simp [ioapic_model, List.getLast?_append]
  rw [this]
  simp only [IO_APIC_reg_01.entries, bitfield_get, Nat.reducePow]
  omega

/-- The empty registry is well formed. -/
theorem ranges_wf_empty : ioapic_state.empty.ranges_wf := by
  intro i h
  simp [ioapic_state.empty, ioapic.zero] at h

/-- A call of `mp_register_ioapic` keeps the ranges well formed. -/
theorem ranges_wf_step (MAX_IO_APICS : Nat) (dev : ioapic_device) (kz : Bool)
    (s : ioapic_state) (id : Int) (address gsi_base : Nat) (r : Int × ioapic_state)
    (h : mp_register_ioapic MAX_IO_APICS dev kz s id address gsi_base = some r)
    (hs : s.ranges_wf) : r.2.ranges_wf := by
  rcases mp_register_ioapic_cases MAX_IO_APICS dev kz s id address gsi_base r h with
    ⟨-, hsame⟩ | ⟨-, entries, he1, he2, -, -, hoth, hn, hg, -⟩
  · intro i hi
    rw [(hsame.2.2.2 i).1, (hsame.2.2.2 i).2] at *
    exact hs i hi
  · intro i hi
    by_cases hj : i = find_free_ioapic_entry MAX_IO_APICS s
    · subst hj
      rw [hn, hg]
      exact ⟨he2, rfl⟩
    · rw [(hoth i hj).1, (hoth i hj).2] at *
      exact hs i hi

/-- A sequence of calls keeps the ranges well formed. -/
theorem ranges_wf_seq (MAX_IO_APICS : Nat) (dev : ioapic_device) (calls : List register_call) :
    ∀ s t : ioapic_state, s.ranges_wf →
      mp_register_ioapic_seq MAX_IO_APICS dev s calls = some t → t.ranges_wf := by
  induction calls with
  | nil => intro s t hs h; simp [mp_register_ioapic_seq] at h; subst h; exact hs
  | cons c cs ih =>
    intro s t hs h
    unfold mp_register_ioapic_seq at h
    split at h
    · cases h
    · rename_i r hr
      exact ih r.2 t (ranges_wf_step _ _ _ _ _ _ _ r hr hs) h

/-- A difference below 256 survives the 32-bit subtraction and the conversion to `int`. -/
theorem u32_diff_in_range (b g n : Nat) (hb : b ≤ g) (hn : g - b < n) (hn2 : n ≤ 256) :
    u32_to_int (((g : Int) - (b : Int)) % 2 ^ 32).toNat = (g : Int) - (b : Int) := by
  have h1 : (((g : Int) - (b : Int)) % 2 ^ 32).toNat = g - b := by omega
  rw [h1]
  unfold u32_to_int
  have h2 : (g - b) % 2 ^ 32 = g - b := by omega
  rw [h2, if_pos (by omega)]
  omega

/-- The first index below `n` satisfying `p`. -/
theorem find_range_eq_some (p : Nat → Bool) (n i : Nat) :
    (List.range n).find? p = some i ↔ i < n ∧ p i = true ∧ ∀ j, j < i → p j = false := by
  induction n generalizing i with
  | zero => simp
  | succ n ih =>
    rw [List.range_succ, List.find?_append]
    cases hf : (List.range n).find? p with
    | some k =>
      have hk := ((ih k).mp hf)
      simp only [Option.or, Option.some.injEq]
      constructor
      · intro h; subst h
        exact ⟨by omega, hk.2.1, hk.2.2⟩
      · rintro ⟨-, hpi, hlt⟩
        rcases Nat.lt_trichotomy k i with hlt2 | heq | hgt
        · have := hlt k hlt2; rw [hk.2.1] at this; cases this
        · exact heq
        · have := hk.2.2 i hgt; rw [hpi] at this; cases this
    | none =>
      have hnone : ∀ j, j < n → p j = false := by
        intro j hj
        have := List.find?_eq_none.mp hf j (List.mem_range.mpr hj)
        simpa using this
      simp only [Option.or]
      by_cases hpn : p n = true
      · simp only [List.find?_cons, hpn, Option.some.injEq]
        constructor
        · intro h; subst h; exact ⟨by omega, hpn, hnone⟩
        · rintro ⟨hi, hpi, hlt⟩
          rcases Nat.lt_trichotomy n i with h1 | h1 | h1
          · omega
          · exact h1
          · have := hnone i h1; rw [hpi] at this; cases this
      · have hpn2 : p n = false := by simpa using hpn
        simp only [List.find?_cons, hpn2, List.find?_nil]
        constructor
        · intro h; cases h
        · rintro ⟨hi, hpi, -⟩
          exfalso
          rcases Nat.lt_or_ge i n with h1 | h1
          · have := hnone i h1; rw [hpi] at this; cases this
          · have : i = n := by omega
            subst this; rw [hpi] at hpn2; cases hpn2

/-- No index below `n` satisfies `p`. -/
theorem find_range_eq_none (p : Nat → Bool) (n : Nat) :
    (List.range n).find? p = none ↔ ∀ i, i < n → p i = false := by
  rw [List.find?_eq_none]
  constructor
  · intro h i hi; simpa using h i (List.mem_range.mpr hi)
  · intro h i hi; simpa using h i (List.mem_range.mp hi)

/-- The loop of `find_free_ioapic_entry` returns the first free slot of its window, or the end of the window. -/
theorem find_free_loop_spec (ioapics : Nat → ioapic) (n idx : Nat) :
    idx ≤ find_free_ioapic_entry.loop ioapics n idx
    ∧ find_free_ioapic_entry.loop ioapics n idx ≤ idx + n
    ∧ (∀ j, idx ≤ j → j < find_free_ioapic_entry.loop ioapics n idx →
        (ioapics j).nr_registers ≠ 0)
    ∧ (find_free_ioapic_entry.loop ioapics n idx < idx + n →
        (ioapics (find_free_ioapic_entry.loop ioapics n idx)).nr_registers = 0) := by
  induction n generalizing idx with
  | zero =>
    simp only [find_free_ioapic_entry.loop]
    exact ⟨le_refl _, le_refl _, fun j h1 h2 => by omega, fun h => by omega⟩
  | succ n ih =>
    simp only [find_free_ioapic_entry.loop]
    split
    · rename_i h0
      exact ⟨le_refl _, by omega, fun j h1 h2 => by omega, fun _ => h0⟩
    · rename_i h0
      obtain ⟨a, b, c, d⟩ := ih (idx + 1)
      refine ⟨by omega, by omega, ?_, fun h => d (by omega)⟩
      intro j h1 h2
      by_cases hj : j = idx
      · subst hj; exact h0
      · exact c j (by omega) h2

/-- The empty registry has no gap. -/
theorem gap_free_empty : ioapic_state.empty.gap_free := by
  intro i
  simp [ioapic_state.empty, ioapic.zero]

/-- In a gap-free registry the first free slot is slot `nr_ioapics`. -/
theorem find_free_eq_nr_ioapics (MAX_IO_APICS : Nat) (s : ioapic_state) (hs : s.gap_free)
    (h : find_free_ioapic_entry MAX_IO_APICS s < MAX_IO_APICS) :
    find_free_ioapic_entry MAX_IO_APICS s = s.nr_ioapics := by
  obtain ⟨-, -, c, d⟩ := find_free_loop_spec s.ioapics MAX_IO_APICS 0
  unfold find_free_ioapic_entry at h ⊢
  have h1 := d (by omega)
  have h2 : ¬ find_free_ioapic_entry.loop s.ioapics MAX_IO_APICS 0 < s.nr_ioapics := by
    intro hlt
    have := (hs _).mp hlt
    omega
  by_contra hne
  have hgt : s.nr_ioapics < find_free_ioapic_entry.loop s.ioapics MAX_IO_APICS 0 := by omega
  have h3 := c s.nr_ioapics (Nat.zero_le _) hgt
  have h4 := (hs s.nr_ioapics).mpr (by omega)
  omega

/-- A call of `mp_register_ioapic` keeps the registry gap-free. -/
theorem gap_free_step (MAX_IO_APICS : Nat) (dev : ioapic_device) (kz : Bool)
    (s : ioapic_state) (id : Int) (address gsi_base : Nat) (r : Int × ioapic_state)
    (h : mp_register_ioapic MAX_IO_APICS dev kz s id address gsi_base = some r)
    (hs : s.gap_free) : r.2.gap_free := by
  rcases mp_register_ioapic_cases MAX_IO_APICS dev kz s id address gsi_base r h with
    ⟨-, hsame⟩ | ⟨-, entries, he1, he2, -, hlt, hoth, hn, hg, -, hnr, -⟩
  · intro i
    rw [hsame.1, (hsame.2.2.2 i).1]
    exact hs i
  · have hidx := find_free_eq_nr_ioapics MAX_IO_APICS s hs hlt
    rw [hidx] at hoth hn hnr
    rw [if_pos (le_refl _)] at hnr
    intro i
    rw [hnr]
    by_cases hi : i = s.nr_ioapics
    · subst hi; rw [hn]; omega
    · rw [(hoth i hi).1]
      have := hs i
      omega

/-- A sequence of calls keeps the registry gap-free. -/
theorem gap_free_seq (MAX_IO_APICS : Nat) (dev : ioapic_device) (calls : List register_call) :
    ∀ s t : ioapic_state, s.gap_free →
      mp_register_ioapic_seq MAX_IO_APICS dev s calls = some t → t.gap_free := by
  induction calls with
  | nil => intro s t hs h; simp [mp_register_ioapic_seq] at h; subst h; exact hs
  | cons c cs ih =>
    intro s t hs h
    unfold mp_register_ioapic_seq at h
    split at h
    · cases h
    · rename_i r hr
      exact ih r.2 t (gap_free_step _ _ _ _ _ _ _ r hr hs) h

/-! ## Theorems: controller registry -/

/-- A sequence that does not stop at the `BUG_ON` reaches `registry_after`. -/
theorem registry_after_reaches (MAX_IO_APICS : Nat) (dev : ioapic_device)
    (calls : List register_call)
    (h : (mp_register_ioapic_seq MAX_IO_APICS dev ioapic_state.empty calls).isSome = true) :
    mp_register_ioapic_seq MAX_IO_APICS dev ioapic_state.empty calls
      = some (registry_after MAX_IO_APICS dev calls) := by
  unfold registry_after
  cases hr : mp_register_ioapic_seq MAX_IO_APICS dev ioapic_state.empty calls with
  | none => rw [hr] at h; cases h
  | some t => rfl

/-- C1 (the code breaks the claim): from the empty registry, registering a controller
with 2 entries at GSI base 10 and then one with 24 entries at GSI base 5 succeeds twice and
leaves the occupied slots 0 and 1 with the ranges [10, 11] and [5, 28], which overlap: the
conflict test of `mp_register_ioapic` misses a new range that encloses an existing one. -/
theorem mp_register_ioapic_accepts_enclosing_range :
    (mp_register_ioapic_seq 128 (ioapic_model (fun a => if a = 0 then 1 else 23))
        ioapic_state.empty
        [{ id := 0, address := 0xFEC00000, gsi_base := 10, kzalloc_ok := true },
         { id := 1, address := 0xFEC01000, gsi_base := 5, kzalloc_ok := true }]).map
      (fun s => (s.nr_ioapics, (s.ioapics 0).nr_registers, (s.ioapics 0).gsi_config,
        (s.ioapics 1).nr_registers, (s.ioapics 1).gsi_config))
      = some (2, 2, { gsi_base := 10, gsi_end := 11 }, 24, { gsi_base := 5, gsi_end := 28 }) := by
  decide

/-- C2 (counterexample): controllers with ranges [0, 23] and [24, 31] and hardware IDs 0
and 1 are registered on a device that passes the presence probe but whose ID register
ignores writes. A third registration at `gsi_base = 20` with a fresh address and the
requested ID 0 does not return an error: the ID resolution programs ID 2, reads back 0 and
stops at its `BUG_ON`. -/
theorem mp_register_ioapic_overlap_stops_at_BUG_ON :
    ((registry_after 128 (stuck_id_model (fun a => if a = 0 then 23 else 7))
        scenario_calls).nr_ioapics,
      ((registry_after 128 (stuck_id_model (fun a => if a = 0 then 23 else 7))
        scenario_calls).ioapics 0).gsi_config,
      ((registry_after 128 (stuck_id_model (fun a => if a = 0 then 23 else 7))
        scenario_calls).ioapics 1).gsi_config,
      ((registry_after 128 (stuck_id_model (fun a => if a = 0 then 23 else 7))
        scenario_calls).ioapics 0).mp_config.apicid,
      ((registry_after 128 (stuck_id_model (fun a => if a = 0 then 23 else 7))
        scenario_calls).ioapics 1).mp_config.apicid)
        = (2, { gsi_base := 0, gsi_end := 23 }, { gsi_base := 24, gsi_end := 31 }, 0, 1)
    ∧ (bad_ioapic_register (stuck_id_model (fun a => if a = 0 then 23 else 7)) [] 2).1 = false
    ∧ (mp_register_ioapic 128 (stuck_id_model (fun a => if a = 0 then 23 else 7)) true
        (registry_after 128 (stuck_id_model (fun a => if a = 0 then 23 else 7)) scenario_calls)
        0 0xFEC02000 20).isNone = true := by
  decide

/-- C2 (amended): on a device whose ID register is writable, a registration whose `gsi_base` lies in
the range of a registered controller, or whose `gsi_end` does (the controller reporting
`n + 1` entries, so that `gsi_end = gsi_base + n`), returns a non-zero error and leaves
`nr_ioapics`, `gsi_top` and the register count and GSI range of every slot as they were.
The scenario is the instance with ranges [0, 23] and [24, 31] and `gsi_base = 20`. -/
theorem mp_register_ioapic_rejects_overlap (MAX_IO_APICS : Nat) (dev : ioapic_device)
    (kz : Bool) (s : ioapic_state) (id : Int) (address gsi_base : Nat)
    (hw : id_register_writable dev)
    (hc : ∃ i, i < s.nr_ioapics ∧
      ((mp_ioapic_gsi_routing s i).contains gsi_base = true
        ∨ ∃ n, reports_entries dev (find_free_ioapic_entry MAX_IO_APICS s) n
            ∧ (mp_ioapic_gsi_routing s i).contains ((gsi_base + (n + 1) - 1) % 2 ^ 32) = true)) :
    ∃ r, mp_register_ioapic MAX_IO_APICS dev kz s id address gsi_base = some r
      ∧ r.1 ≠ 0
      ∧ r.2.nr_ioapics = s.nr_ioapics ∧ r.2.gsi_top = s.gsi_top
      ∧ ∀ j, (r.2.ioapics j).nr_registers = (s.ioapics j).nr_registers
          ∧ (r.2.ioapics j).gsi_config = (s.ioapics j).gsi_config := by
  obtain ⟨r, hr⟩ := mp_register_ioapic_returns MAX_IO_APICS dev hw kz s id address gsi_base
  refine ⟨r, hr, ?_⟩
  rcases mp_register_ioapic_cases MAX_IO_APICS dev kz s id address gsi_base r hr with
    ⟨h0, hs⟩ | ⟨-, entries, -, -, -, -, -, -, -, hconf, -, -, -, t, ht⟩
  · exact ⟨h0, hs.1, hs.2.1, hs.2.2.2⟩
  · exfalso
    have : mp_register_ioapic.conflict s gsi_base ((gsi_base + entries - 1) % 2 ^ 32) = true := by
      rw [conflict_eq_true_iff]
      obtain ⟨i, hi, hci⟩ := hc
      refine ⟨i, hi, ?_⟩
      rcases hci with hb | ⟨n, hn, he⟩
      · exact Or.inl hb
      · right
        rw [ht, hn t]
        exact he
    rw [this] at hconf
    cases hconf

/-- Witness for C2: the scenario. Controllers with ranges [0, 23] and [24, 31] are
registered; a third registration at `gsi_base = 20` is rejected. -/
theorem mp_register_ioapic_rejects_overlap_witness :
    ((registry_after 128 scenario_device scenario_calls).nr_ioapics,
      ((registry_after 128 scenario_device scenario_calls).ioapics 0).gsi_config,
      ((registry_after 128 scenario_device scenario_calls).ioapics 1).gsi_config)
        = (2, { gsi_base := 0, gsi_end := 23 }, { gsi_base := 24, gsi_end := 31 })
    ∧ ∃ r, mp_register_ioapic 128 scenario_device true
          (registry_after 128 scenario_device scenario_calls) 2 0xFEC02000 20 = some r
        ∧ r.1 ≠ 0
        ∧ r.2.nr_ioapics = (registry_after 128 scenario_device scenario_calls).nr_ioapics
        ∧ r.2.gsi_top = (registry_after 128 scenario_device scenario_calls).gsi_top
        ∧ ∀ j, (r.2.ioapics j).nr_registers
              = ((registry_after 128 scenario_device scenario_calls).ioapics j).nr_registers
            ∧ (r.2.ioapics j).gsi_config
              = ((registry_after 128 scenario_device scenario_calls).ioapics j).gsi_config :=
  ⟨by decide,
   mp_register_ioapic_rejects_overlap 128 scenario_device true
     (registry_after 128 scenario_device scenario_calls) 2 0xFEC02000 20
     (ioapic_model_id_register_writable _) ⟨0, by decide, Or.inl (by decide)⟩⟩

/-- C3 (counterexample): a controller with 8 entries registered at GSI base 24 has the range
[24, 31]; for GSI 20, below `gsi_base`, `mp_find_ioapic_pin` returns -4 and not -1. -/
theorem mp_find_ioapic_pin_below_base :
    (mp_register_ioapic 128 (ioapic_model (fun _ => 7)) true ioapic_state.empty 0 0xFEC00000
        24).map
      (fun r => (r.1, (r.2.ioapics 0).nr_registers, (r.2.ioapics 0).gsi_config,
        mp_find_ioapic_pin r.2 0 20))
      = some (0, 8, { gsi_base := 24, gsi_end := 31 }, -4) := by
  decide

/-- C3 (amended): for every registry state, `mp_find_ioapic_pin` returns -1 when the slot
is negative or the GSI is above `gsi_end`; otherwise it returns the 32-bit difference
`gsi - gsi_base` converted to `int`; in a registry built by `mp_register_ioapic` calls, for
an occupied slot and `gsi_base <= gsi <= gsi_end`, this is `gsi - gsi_base` and lies in
`[0, nr_registers)`. A GSI below `gsi_base` is not rejected. -/
theorem mp_find_ioapic_pin_spec (s : ioapic_state) (slot : Int) (gsi : Nat) :
    (slot < 0 ∨ gsi > (mp_ioapic_gsi_routing s slot.toNat).gsi_end →
        mp_find_ioapic_pin s slot gsi = -1)
    ∧ (0 ≤ slot → gsi ≤ (mp_ioapic_gsi_routing s slot.toNat).gsi_end →
        mp_find_ioapic_pin s slot gsi =
          u32_to_int (((gsi : Int) - ((mp_ioapic_gsi_routing s slot.toNat).gsi_base : Int))
            % 2 ^ 32).toNat)
    ∧ (∀ (MAX_IO_APICS : Nat) (dev : ioapic_device) (calls : List register_call),
        mp_register_ioapic_seq MAX_IO_APICS dev ioapic_state.empty calls = some s →
        0 ≤ slot → (s.ioapics slot.toNat).nr_registers > 0 →
        (mp_ioapic_gsi_routing s slot.toNat).gsi_base ≤ gsi →
        gsi ≤ (mp_ioapic_gsi_routing s slot.toNat).gsi_end →
        mp_find_ioapic_pin s slot gsi
            = (gsi : Int) - ((mp_ioapic_gsi_routing s slot.toNat).gsi_base : Int)
          ∧ 0 ≤ mp_find_ioapic_pin s slot gsi
          ∧ mp_find_ioapic_pin s slot gsi < ((s.ioapics slot.toNat).nr_registers : Int)) := by
  have hdef : 0 ≤ slot → gsi ≤ (mp_ioapic_gsi_routing s slot.toNat).gsi_end →
      mp_find_ioapic_pin s slot gsi =
        u32_to_int (((gsi : Int) - ((mp_ioapic_gsi_routing s slot.toNat).gsi_base : Int))
          % 2 ^ 32).toNat := by
    intro h0 hg
    unfold mp_find_ioapic_pin
    rw [if_neg (by omega)]
    dsimp only
    rw [if_neg (by omega)]
  refine ⟨?_, hdef, ?_⟩
  · intro h
    unfold mp_find_ioapic_pin
    by_cases h0 : slot < 0
    · rw [if_pos h0]
    · rw [if_neg h0]
      dsimp only
      rw [if_pos (by omega)]
  · intro MAX_IO_APICS dev calls hreach h0 hocc hb he
    have hwf := ranges_wf_seq MAX_IO_APICS dev calls _ s ranges_wf_empty hreach
    obtain ⟨hle, hend⟩ := hwf slot.toNat hocc
    simp only [mp_ioapic_gsi_routing] at hb he hdef ⊢
    have hlt : gsi - (s.ioapics slot.toNat).gsi_config.gsi_base
        < (s.ioapics slot.toNat).nr_registers := by omega
    rw [hdef h0 he, u32_diff_in_range _ _ _ hb hlt hle]
    omega

/-- Witness for C3 (amended): GSI 26 on the controller registered at base 24 with 8
entries is pin 2. -/
theorem mp_find_ioapic_pin_spec_witness :
    mp_register_ioapic_seq 128 (ioapic_model (fun _ => 7)) ioapic_state.empty
        [{ id := 0, address := 0xFEC00000, gsi_base := 24, kzalloc_ok := true }]
      = some (registry_after 128 (ioapic_model (fun _ => 7))
        [{ id := 0, address := 0xFEC00000, gsi_base := 24, kzalloc_ok := true }])
    ∧ (mp_find_ioapic_pin (registry_after 128 (ioapic_model (fun _ => 7))
          [{ id := 0, address := 0xFEC00000, gsi_base := 24, kzalloc_ok := true }]) 0 26
        = ((26 : Nat) : Int) - ((mp_ioapic_gsi_routing
            (registry_after 128 (ioapic_model (fun _ => 7))
              [{ id := 0, address := 0xFEC00000, gsi_base := 24, kzalloc_ok := true }])
            (0 : Int).toNat).gsi_base : Int)
      ∧ 0 ≤ mp_find_ioapic_pin (registry_after 128 (ioapic_model (fun _ => 7))
          [{ id := 0, address := 0xFEC00000, gsi_base := 24, kzalloc_ok := true }]) 0 26
      ∧ mp_find_ioapic_pin (registry_after 128 (ioapic_model (fun _ => 7))
          [{ id := 0, address := 0xFEC00000, gsi_base := 24, kzalloc_ok := true }]) 0 26
        < (((registry_after 128 (ioapic_model (fun _ => 7))
          [{ id := 0, address := 0xFEC00000, gsi_base := 24, kzalloc_ok := true }]).ioapics
            (0 : Int).toNat).nr_registers : Int)) :=
  ⟨registry_after_reaches _ _ _ (by decide),
   (mp_find_ioapic_pin_spec (registry_after 128 (ioapic_model (fun _ => 7))
      [{ id := 0, address := 0xFEC00000, gsi_base := 24, kzalloc_ok := true }]) 0 26).2.2
    128 (ioapic_model (fun _ => 7))
    [{ id := 0, address := 0xFEC00000, gsi_base := 24, kzalloc_ok := true }]
    (registry_after_reaches _ _ _ (by decide)) (by decide) (by decide) (by decide) (by decide)⟩

/-- C4 (counterexample): a controller with 24 entries registered at GSI base 0xFFFFFFF0
gets `gsi_end = 7` by 32-bit wrap-around; pin 0 maps to GSI 0xFFFFFFF0, which
`mp_find_ioapic_pin` rejects with -1 instead of returning pin 0. -/
theorem pin_gsi_round_trip_fails_on_wrapped_range :
    (mp_register_ioapic 128 (ioapic_model (fun _ => 23)) true ioapic_state.empty 0 0xFEC00000
        0xFFFFFFF0).map
      (fun r => (r.1, (r.2.ioapics 0).nr_registers, (r.2.ioapics 0).gsi_config,
        mp_pin_to_gsi r.2 0 0, mp_find_ioapic_pin r.2 0 (mp_pin_to_gsi r.2 0 0)))
      = some (0, 24, { gsi_base := 0xFFFFFFF0, gsi_end := 7 }, 0xFFFFFFF0, -1) := by
  decide

/-- C4 (amended): in a registry built by `mp_register_ioapic` calls, for every occupied
slot whose range does not wrap around (`gsi_base + nr_registers <= 2 ^ 32`) and every pin
with `0 <= pin < nr_registers`, `mp_find_ioapic_pin (slot, mp_pin_to_gsi (slot, pin))` is
`pin`. -/
theorem pin_gsi_round_trip (MAX_IO_APICS : Nat) (dev : ioapic_device)
    (calls : List register_call) (s : ioapic_state)
    (hreach : mp_register_ioapic_seq MAX_IO_APICS dev ioapic_state.empty calls = some s)
    (slot : Nat) (pin : Int)
    (hocc : 0 < (s.ioapics slot).nr_registers)
    (hnowrap : (s.ioapics slot).gsi_config.gsi_base + (s.ioapics slot).nr_registers ≤ 2 ^ 32)
    (hpin0 : 0 ≤ pin) (hpin : pin < ((s.ioapics slot).nr_registers : Int)) :
    mp_find_ioapic_pin s (slot : Int) (mp_pin_to_gsi s slot pin) = pin := by
  obtain ⟨hle, hend⟩ := ranges_wf_seq MAX_IO_APICS dev calls _ s ranges_wf_empty hreach slot hocc
  have hg : mp_pin_to_gsi s slot pin = (s.ioapics slot).gsi_config.gsi_base + pin.toNat := by
    unfold mp_pin_to_gsi mp_ioapic_gsi_routing
    omega
  rw [hg]
  unfold mp_find_ioapic_pin mp_ioapic_gsi_routing
  rw [if_neg (by omega)]
  dsimp only
  rw [Int.toNat_ofNat, if_neg (by omega),
    u32_diff_in_range _ _ (s.ioapics slot).nr_registers (by omega) (by omega) hle]
  omega

/-- Witness for C4 (amended): pin 5 of the controller registered at base 24. -/
theorem pin_gsi_round_trip_witness :
    mp_register_ioapic_seq 128 (ioapic_model (fun _ => 7)) ioapic_state.empty
        [{ id := 0, address := 0xFEC00000, gsi_base := 24, kzalloc_ok := true }]
      = some (registry_after 128 (ioapic_model (fun _ => 7))
        [{ id := 0, address := 0xFEC00000, gsi_base := 24, kzalloc_ok := true }])
    ∧ mp_find_ioapic_pin (registry_after 128 (ioapic_model (fun _ => 7))
        [{ id := 0, address := 0xFEC00000, gsi_base := 24, kzalloc_ok := true }]) ((0 : Nat) : Int)
        (mp_pin_to_gsi (registry_after 128 (ioapic_model (fun _ => 7))
          [{ id := 0, address := 0xFEC00000, gsi_base := 24, kzalloc_ok := true }]) 0 5) = 5 :=
  ⟨registry_after_reaches _ _ _ (by decide),
   pin_gsi_round_trip 128 (ioapic_model (fun _ => 7))
    [{ id := 0, address := 0xFEC00000, gsi_base := 24, kzalloc_ok := true }] _
    (registry_after_reaches _ _ _ (by decide)) 0 5 (by decide) (by decide) (by decide)
    (by decide)⟩

/-- The scan of `mp_find_ioapic` over the slots below `nr_ioapics`. -/
theorem mp_find_ioapic_scan (s : ioapic_state) (gsi : Nat) :
    (∀ i : Nat, mp_find_ioapic s gsi = (i : Int) ↔
        (i < s.nr_ioapics
          ∧ ((mp_ioapic_gsi_routing s i).gsi_base ≤ gsi ∧ gsi ≤ (mp_ioapic_gsi_routing s i).gsi_end)
          ∧ ∀ j, j < i → ¬ ((mp_ioapic_gsi_routing s j).gsi_base ≤ gsi
              ∧ gsi ≤ (mp_ioapic_gsi_routing s j).gsi_end)))
    ∧ (mp_find_ioapic s gsi = -1 ↔
        (s.nr_ioapics = 0 ∨ ∀ i, i < s.nr_ioapics →
          ¬ ((mp_ioapic_gsi_routing s i).gsi_base ≤ gsi
            ∧ gsi ≤ (mp_ioapic_gsi_routing s i).gsi_end)))
    ∧ (mp_find_ioapic s gsi = -1 ∨ ∃ i : Nat, mp_find_ioapic s gsi = (i : Int)) := by
  have hc : ∀ i, (mp_ioapic_gsi_routing s i).contains gsi = true ↔
      ((mp_ioapic_gsi_routing s i).gsi_base ≤ gsi ∧ gsi ≤ (mp_ioapic_gsi_routing s i).gsi_end) := by
    intro i; simp [mp_ioapic_gsi.contains]
  have hcf : ∀ i, (mp_ioapic_gsi_routing s i).contains gsi = false ↔
      ¬ ((mp_ioapic_gsi_routing s i).gsi_base ≤ gsi ∧ gsi ≤ (mp_ioapic_gsi_routing s i).gsi_end) := by
    intro i; rw [← hc]; simp
  by_cases h0 : s.nr_ioapics = 0
  · have hv : mp_find_ioapic s gsi = -1 := by
      unfold mp_find_ioapic; rw [if_pos h0]
    rw [hv]
    refine ⟨?_, ⟨fun _ => Or.inl h0, fun _ => rfl⟩, Or.inl rfl⟩
    intro i
    constructor
    · intro h; omega
    · rintro ⟨h, -⟩; omega
  · cases hf : (List.range s.nr_ioapics).find?
        (fun i => (mp_ioapic_gsi_routing s i).contains gsi) with
    | none =>
      have hv : mp_find_ioapic s gsi = -1 := by
        unfold mp_find_ioapic; rw [if_neg h0, hf]
      rw [hv]
      have hn := (find_range_eq_none _ _).mp hf
      refine ⟨?_, ⟨fun _ => Or.inr fun i hi => (hcf i).mp (hn i hi), fun _ => rfl⟩, Or.inl rfl⟩
      intro i
      constructor
      · intro h; omega
      · rintro ⟨hi, hci, -⟩
        exact absurd hci ((hcf i).mp (hn i hi))
    | some k =>
      have hv : mp_find_ioapic s gsi = (k : Int) := by
        unfold mp_find_ioapic; rw [if_neg h0, hf]
      rw [hv]
      have hk := (find_range_eq_some _ _ _).mp hf
      refine ⟨?_, ?_, Or.inr ⟨k, rfl⟩⟩
      · intro i
        rw [Nat.cast_inj]
        constructor
        · intro h; subst h
          exact ⟨hk.1, (hc k).mp hk.2.1, fun j hj => (hcf j).mp (hk.2.2 j hj)⟩
        · rintro ⟨hi, hci, hlt⟩
          rcases Nat.lt_trichotomy k i with h1 | h1 | h1
          · exact absurd ((hc k).mp hk.2.1) (hlt k h1)
          · exact h1
          · exact absurd hci ((hcf i).mp (hk.2.2 i h1))
      · constructor
        · intro h; omega
        · intro h
          rcases h with h | h
          · exact absurd h h0
          · exact absurd ((hc k).mp hk.2.1) (h k hk.1)

/-- C5: `mp_find_ioapic` returns slot `i` exactly when `i` is the lowest slot below
`nr_ioapics` whose range `[gsi_base, gsi_end]` holds the GSI, and -1 exactly when
`nr_ioapics` is 0 or no slot below `nr_ioapics` holds it; it returns nothing else. In a
registry built by `mp_register_ioapic` calls the slots below `nr_ioapics` are exactly the
occupied (registered) ones. -/
theorem mp_find_ioapic_spec (s : ioapic_state) (gsi : Nat) :
    (∀ i : Nat, mp_find_ioapic s gsi = (i : Int) ↔
        (i < s.nr_ioapics
          ∧ ((mp_ioapic_gsi_routing s i).gsi_base ≤ gsi ∧ gsi ≤ (mp_ioapic_gsi_routing s i).gsi_end)
          ∧ ∀ j, j < i → ¬ ((mp_ioapic_gsi_routing s j).gsi_base ≤ gsi
              ∧ gsi ≤ (mp_ioapic_gsi_routing s j).gsi_end)))
    ∧ (mp_find_ioapic s gsi = -1 ↔
        (s.nr_ioapics = 0 ∨ ∀ i, i < s.nr_ioapics →
          ¬ ((mp_ioapic_gsi_routing s i).gsi_base ≤ gsi
            ∧ gsi ≤ (mp_ioapic_gsi_routing s i).gsi_end)))
    ∧ (mp_find_ioapic s gsi = -1 ∨ ∃ i : Nat, mp_find_ioapic s gsi = (i : Int))
    ∧ (∀ (MAX_IO_APICS : Nat) (dev : ioapic_device) (calls : List register_call),
        mp_register_ioapic_seq MAX_IO_APICS dev ioapic_state.empty calls = some s →
        ∀ i, i < s.nr_ioapics ↔ 0 < (s.ioapics i).nr_registers) :=
  ⟨(mp_find_ioapic_scan s gsi).1, (mp_find_ioapic_scan s gsi).2.1,
    (mp_find_ioapic_scan s gsi).2.2,
    fun M dev calls h => gap_free_seq M dev calls _ s gap_free_empty h⟩

/-- Witness for C5: in the scenario registry GSI 26 is found on slot 1, and the slots
below `nr_ioapics` are the occupied ones. -/
theorem mp_find_ioapic_spec_witness :
    mp_register_ioapic_seq 128 scenario_device ioapic_state.empty scenario_calls
      = some (registry_after 128 scenario_device scenario_calls)
    ∧ mp_find_ioapic (registry_after 128 scenario_device scenario_calls) 26 = ((1 : Nat) : Int)
    ∧ ∀ i, i < (registry_after 128 scenario_device scenario_calls).nr_ioapics ↔
        0 < ((registry_after 128 scenario_device scenario_calls).ioapics i).nr_registers :=
  ⟨registry_after_reaches _ _ _ (by decide), by decide,
   (mp_find_ioapic_spec (registry_after 128 scenario_device scenario_calls) 26).2.2.2
    128 scenario_device scenario_calls (registry_after_reaches _ _ _ (by decide))⟩

/-! ## Theorems: end of interrupt -/

/-- The fields of an entry after `mask = IOAPIC_MASKED; trigger = IOAPIC_EDGE`: mask and
trigger take the new values and every other bit keeps its value. -/
theorem masked_edge_fields (e : IO_APIC_route_entry) :
    ((e.set_mask IOAPIC_MASKED).set_trigger IOAPIC_EDGE).mask = IOAPIC_MASKED
    ∧ ((e.set_mask IOAPIC_MASKED).set_trigger IOAPIC_EDGE).trigger = IOAPIC_EDGE
    ∧ ((e.set_mask IOAPIC_MASKED).set_trigger IOAPIC_EDGE).vector = e.vector
    ∧ ((e.set_mask IOAPIC_MASKED).set_trigger IOAPIC_EDGE).delivery_mode = e.delivery_mode
    ∧ ((e.set_mask IOAPIC_MASKED).set_trigger IOAPIC_EDGE).dest_mode = e.dest_mode
    ∧ ((e.set_mask IOAPIC_MASKED).set_trigger IOAPIC_EDGE).delivery_status = e.delivery_status
    ∧ ((e.set_mask IOAPIC_MASKED).set_trigger IOAPIC_EDGE).polarity = e.polarity
    ∧ ((e.set_mask IOAPIC_MASKED).set_trigger IOAPIC_EDGE).irr = e.irr
    ∧ ((e.set_mask IOAPIC_MASKED).set_trigger IOAPIC_EDGE).w1 / 2 ^ 17 = e.w1 / 2 ^ 17
    ∧ ((e.set_mask IOAPIC_MASKED).set_trigger IOAPIC_EDGE).w2 = e.w2 := by
  obtain ⟨a, w2⟩ := e
  simp only [IO_APIC_route_entry.set_mask, IO_APIC_route_entry.set_trigger,
    IO_APIC_route_entry.mask, IO_APIC_route_entry.trigger, IO_APIC_route_entry.vector,
    IO_APIC_route_entry.delivery_mode, IO_APIC_route_entry.dest_mode,
    IO_APIC_route_entry.delivery_status, IO_APIC_route_entry.polarity,
    IO_APIC_route_entry.irr, bitfield_set, bitfield_get, IOAPIC_MASKED, IOAPIC_EDGE,
    Nat.reducePow, Nat.reduceMod, Nat.pow_zero, Nat.div_one]
  generalize hb : a - a / 65536 % 2 * 65536 + 1 * 65536 = b
  generalize hc : b - b / 32768 % 2 * 32768 + 0 * 32768 = c
  refine ⟨?_, ?_, ?_, ?_, ?_, ?_, ?_, ?_, ?_, trivial⟩ <;> omega

/-- C8: when the entry read by `clear_IO_APIC_pin` is not SMI and the entry at the
remote-IRR test has remote-IRR set and is level-triggered, the call is the first read (and
the masking of an unmasked entry), then `__eoi_ioapic_pin` with the entry's vector, then
the final force-mask and re-read. `__eoi_ioapic_pin` on a controller of version below
0x20 reads the entry and issues exactly two full entry writes, high word first: the entry
as read with mask set and trigger edge, then the entry as read, and no EOI-register
write; on a controller of version 0x20 or above it issues exactly one EOI-register write,
of the vector, and no entry write. -/
theorem eoi_step_by_version (s : ioapic_state) (dev : ioapic_device)
    (log : List mmio_access) (apic pin : Nat)
    (hsmi : (ioapic_read_entry dev log apic pin).1.delivery_mode ≠ dest_SMI)
    (hirr : (clear_IO_APIC_pin.ensure_masked dev apic pin
      (ioapic_read_entry dev log apic pin)).1.irr ≠ 0)
    (hlvl : (clear_IO_APIC_pin.ensure_masked dev apic pin
      (ioapic_read_entry dev log apic pin)).1.trigger = IOAPIC_LEVEL) :
    clear_IO_APIC_pin s dev log apic pin =
        (ioapic_read_entry dev (ioapic_mask_entry
          (__eoi_ioapic_pin s dev
            (clear_IO_APIC_pin.ensure_masked dev apic pin (ioapic_read_entry dev log apic pin)).2
            apic pin
            (clear_IO_APIC_pin.ensure_masked dev apic pin
              (ioapic_read_entry dev log apic pin)).1.vector)
          apic pin) apic pin).2
    ∧ (∀ (t : List mmio_access) (vector : Nat), mpc_ioapic_ver s apic < 0x20 →
        __eoi_ioapic_pin s dev t apic pin vector =
          t ++ [mmio_access.writel apic io_apic.index (0x10 + 2 * pin),
                mmio_access.readl apic io_apic.data,
                mmio_access.writel apic io_apic.index (0x11 + 2 * pin),
                mmio_access.readl apic io_apic.data,
                mmio_access.writel apic io_apic.index (0x11 + 2 * pin),
                mmio_access.writel apic io_apic.data
                  (((__ioapic_read_entry dev t apic pin).1.set_mask
                    IOAPIC_MASKED).set_trigger IOAPIC_EDGE).w2,
                mmio_access.writel apic io_apic.index (0x10 + 2 * pin),
                mmio_access.writel apic io_apic.data
                  (((__ioapic_read_entry dev t apic pin).1.set_mask
                    IOAPIC_MASKED).set_trigger IOAPIC_EDGE).w1,
                mmio_access.writel apic io_apic.index (0x11 + 2 * pin),
                mmio_access.writel apic io_apic.data (__ioapic_read_entry dev t apic pin).1.w2,
                mmio_access.writel apic io_apic.index (0x10 + 2 * pin),
                mmio_access.writel apic io_apic.data (__ioapic_read_entry dev t apic pin).1.w1])
    ∧ (∀ (t : List mmio_access) (vector : Nat), mpc_ioapic_ver s apic ≥ 0x20 →
        __eoi_ioapic_pin s dev t apic pin vector =
          t ++ [mmio_access.writel apic io_apic.eoi vector])
    ∧ (∀ e : IO_APIC_route_entry,
        ((e.set_mask IOAPIC_MASKED).set_trigger IOAPIC_EDGE).mask = IOAPIC_MASKED
        ∧ ((e.set_mask IOAPIC_MASKED).set_trigger IOAPIC_EDGE).trigger = IOAPIC_EDGE
        ∧ ((e.set_mask IOAPIC_MASKED).set_trigger IOAPIC_EDGE).vector = e.vector
        ∧ ((e.set_mask IOAPIC_MASKED).set_trigger IOAPIC_EDGE).delivery_mode = e.delivery_mode
        ∧ ((e.set_mask IOAPIC_MASKED).set_trigger IOAPIC_EDGE).dest_mode = e.dest_mode
        ∧ ((e.set_mask IOAPIC_MASKED).set_trigger IOAPIC_EDGE).delivery_status
            = e.delivery_status
        ∧ ((e.set_mask IOAPIC_MASKED).set_trigger IOAPIC_EDGE).polarity = e.polarity
        ∧ ((e.set_mask IOAPIC_MASKED).set_trigger IOAPIC_EDGE).irr = e.irr
        ∧ ((e.set_mask IOAPIC_MASKED).set_trigger IOAPIC_EDGE).w1 / 2 ^ 17 = e.w1 / 2 ^ 17
        ∧ ((e.set_mask IOAPIC_MASKED).set_trigger IOAPIC_EDGE).w2 = e.w2) := by
  refine ⟨?_, ?_, ?_, masked_edge_fields⟩
  · unfold clear_IO_APIC_pin
    have hl : (clear_IO_APIC_pin.ensure_masked dev apic pin
      (ioapic_read_entry dev log apic pin)).1.trigger ≠ IOAPIC_EDGE := by
      rw [hlvl]; decide
    simp only [hsmi, if_false, hirr, ne_eq, not_false_eq_true, if_true, hl]
  · intro t vector hv
    have hv2 : ¬ (mpc_ioapic_ver s apic ≥ 0x20) := by omega
    unfold __eoi_ioapic_pin
    simp only [hv2, if_false]
    rw [__ioapic_write_entry_trace, __ioapic_write_entry_trace, __ioapic_read_entry_trace]
    simp [List.append_assoc]
  · intro t vector hv
    unfold __eoi_ioapic_pin
    simp only [hv, if_true, io_apic_eoi]

/-- Witness for C8: a masked, level-triggered entry with remote-IRR set and vector 0x31
on a controller of version 0 (below 0x20). -/
theorem eoi_step_by_version_witness :
    (ioapic_read_entry (fun _ => 0x1C031) [] 0 3).1.delivery_mode ≠ dest_SMI
    ∧ (clear_IO_APIC_pin.ensure_masked (fun _ => 0x1C031) 0 3
        (ioapic_read_entry (fun _ => 0x1C031) [] 0 3)).1.irr ≠ 0
    ∧ (clear_IO_APIC_pin.ensure_masked (fun _ => 0x1C031) 0 3
        (ioapic_read_entry (fun _ => 0x1C031) [] 0 3)).1.trigger = IOAPIC_LEVEL
    ∧ clear_IO_APIC_pin ioapic_state.empty (fun _ => 0x1C031) [] 0 3 =
        (ioapic_read_entry (fun _ => 0x1C031) (ioapic_mask_entry
          (__eoi_ioapic_pin ioapic_state.empty (fun _ => 0x1C031)
            (clear_IO_APIC_pin.ensure_masked (fun _ => 0x1C031) 0 3
              (ioapic_read_entry (fun _ => 0x1C031) [] 0 3)).2
            0 3
            (clear_IO_APIC_pin.ensure_masked (fun _ => 0x1C031) 0 3
              (ioapic_read_entry (fun _ => 0x1C031) [] 0 3)).1.vector)
          0 3) 0 3).2 :=
  ⟨by decide, by decide, by decide,
   (eoi_step_by_version ioapic_state.empty (fun _ => 0x1C031) [] 0 3 (by decide) (by decide)
    (by decide)).1⟩

/-! ## Theorems: descriptor state machine -/

/-- What `irq_enable` does when an enable or unmask operation is present. -/
theorem irq_enable_spec (m : irq_line)
    (hcap : m.desc.irq_data.chip.irq_enable = true ∨ m.desc.irq_data.chip.irq_unmask = true) :
    ∃ m', irq_enable m = some m'
      ∧ m'.desc = { m.desc with irq_data :=
          { m.desc.irq_data with IRQD_IRQ_DISABLED := false, IRQD_IRQ_MASKED := false } }
      ∧ m'.calls = m.calls ++
          [if m.desc.irq_data.chip.irq_enable then chip_call.irq_enable
           else chip_call.irq_unmask]
      ∧ m'.warnings = m.warnings := by
  unfold irq_enable
  by_cases h1 : m.desc.irq_data.chip.irq_enable = true
  · simp [h1, irq_state_clr_disabled, irq_state_clr_masked, irq_line.invoke]
  · have h2 : m.desc.irq_data.chip.irq_unmask = true := by tauto
    simp [h1, h2, irq_state_clr_disabled, irq_state_clr_masked, irq_line.invoke]

/-- What `check_irq_resend` changes: the pending flag and the replay record. -/
theorem check_irq_resend_frame (m : irq_line) :
    (check_irq_resend m).desc = { m.desc with IRQS_PENDING := false }
    ∧ (check_irq_resend m).calls =
        m.calls ++ (if m.desc.IRQS_PENDING then [chip_call.resend] else [])
    ∧ (check_irq_resend m).warnings = m.warnings := by
  unfold check_irq_resend
  by_cases h : m.desc.IRQS_PENDING = true
  · simp [h, irq_line.invoke]
  · have h' : m.desc.IRQS_PENDING = false := by simpa using h
    simp only [h', Bool.false_eq_true, if_false, List.append_nil, and_true]
    cases m with
    | mk desc calls warnings =>
      cases desc
      simp_all

/-- What `irq_startup` does when a startup, enable or unmask operation is present. -/
theorem irq_startup_spec_aux (m : irq_line) (resend : Bool)
    (hcap : m.desc.irq_data.chip.irq_startup.isSome = true
      ∨ m.desc.irq_data.chip.irq_enable = true ∨ m.desc.irq_data.chip.irq_unmask = true) :
    ∃ ret m', irq_startup m resend = some (ret, m')
      ∧ m'.desc.depth = 0
      ∧ m'.desc.irq_data.IRQD_IRQ_DISABLED = false
      ∧ m'.desc.irq_data.IRQD_IRQ_MASKED = false
      ∧ m'.desc.irq_data.chip = m.desc.irq_data.chip
      ∧ m'.calls = m.calls ++
          [if m.desc.irq_data.chip.irq_startup.isSome then chip_call.irq_startup
           else if m.desc.irq_data.chip.irq_enable then chip_call.irq_enable
           else chip_call.irq_unmask]
          ++ (if resend && m.desc.IRQS_PENDING then [chip_call.resend] else [])
      ∧ m'.warnings = m.warnings
      ∧ ret = m.desc.irq_data.chip.irq_startup.getD 0 := by
  cases hs : m.desc.irq_data.chip.irq_startup with
  | some ret =>
    have hv : irq_startup m resend = some (ret,
        if resend = true then check_irq_resend (irq_state_clr_masked
          (({ irq_state_clr_disabled m with desc := { (irq_state_clr_disabled m).desc with
            depth := 0 } }).invoke chip_call.irq_startup))
        else irq_state_clr_masked
          (({ irq_state_clr_disabled m with desc := { (irq_state_clr_disabled m).desc with
            depth := 0 } }).invoke chip_call.irq_startup)) := by
      simp only [irq_startup, irq_state_clr_disabled, hs, Option.map_some']
    refine ⟨_, _, hv, ?_⟩
    cases resend
    · simp [irq_state_clr_disabled, irq_state_clr_masked, irq_line.invoke]
    · obtain ⟨r1, r2, r3⟩ := check_irq_resend_frame (irq_state_clr_masked
        (({ irq_state_clr_disabled m with desc := { (irq_state_clr_disabled m).desc with
          depth := 0 } }).invoke chip_call.irq_startup))
      simp only [if_true, r1, r2, r3]
      simp [irq_state_clr_disabled, irq_state_clr_masked, irq_line.invoke]
  | none =>
    have hcap2 : m.desc.irq_data.chip.irq_enable = true ∨ m.desc.irq_data.chip.irq_unmask = true := by
      rw [hs] at hcap; simpa using hcap
    obtain ⟨m1, e1, e2, e3, e4⟩ := irq_enable_spec
      ({ irq_state_clr_disabled m with desc := { (irq_state_clr_disabled m).desc with
          depth := 0 } }) (by simpa [irq_state_clr_disabled] using hcap2)
    have hv : irq_startup m resend = some (0,
        if resend = true then check_irq_resend m1 else m1) := by
      simp only [irq_state_clr_disabled] at e1
      simp only [irq_startup, irq_state_clr_disabled, hs, e1, Option.map_some']
    refine ⟨_, _, hv, ?_⟩
    cases resend
    · simp [irq_state_clr_disabled, e2, e3, e4]
    · obtain ⟨r1, r2, r3⟩ := check_irq_resend_frame m1
      simp only [if_true, r1, r2, r3]
      simp [irq_state_clr_disabled, e2, e3, e4]

/-- What `irq_shutdown` does when a shutdown, disable or mask operation is present. -/
theorem irq_shutdown_spec_aux (m : irq_line)
    (hcap : m.desc.irq_data.chip.irq_shutdown = true ∨ m.desc.irq_data.chip.irq_disable = true
      ∨ m.desc.irq_data.chip.irq_mask = true) :
    ∃ m', irq_shutdown m = some m'
      ∧ m'.calls = m.calls ++
          [if m.desc.irq_data.chip.irq_shutdown then chip_call.irq_shutdown
           else if m.desc.irq_data.chip.irq_disable then chip_call.irq_disable
           else chip_call.irq_mask]
      ∧ m'.warnings = m.warnings
      ∧ m'.desc = { m.desc with
          irq_data := { m.desc.irq_data with IRQD_IRQ_DISABLED := true, IRQD_IRQ_MASKED := true },
          depth := 1 } := by
  unfold irq_shutdown
  by_cases h1 : m.desc.irq_data.chip.irq_shutdown = true
  · simp [h1, irq_state_set_disabled, irq_state_set_masked, irq_line.invoke]
  · by_cases h2 : m.desc.irq_data.chip.irq_disable = true
    · simp [h1, h2, irq_state_set_disabled, irq_state_set_masked, irq_line.invoke]
    · have h3 : m.desc.irq_data.chip.irq_mask = true := by tauto
      simp [h1, h2, h3, irq_state_set_disabled, irq_state_set_masked, irq_line.invoke]

/-- One `__enable_irq` on a safe line returns, keeps the chip and leaves a safe line. -/
theorem __enable_irq_safe_step (m : irq_line) (h : enable_irq_safe m) :
    ∃ m', __enable_irq m = some m' ∧ m'.desc.irq_data.chip = m.desc.irq_data.chip
      ∧ enable_irq_safe m' := by
  rcases h with h0 | ⟨h1, hc⟩
  · refine ⟨{ m with warnings := m.warnings + 1 }, ?_, rfl, Or.inl h0⟩
    unfold __enable_irq
    rw [h0]
  · by_cases hs : m.desc.IRQS_SUSPENDED = true
    · refine ⟨{ m with warnings := m.warnings + 1 }, ?_, rfl, Or.inr ⟨h1, Or.inl hs⟩⟩
      unfold __enable_irq
      rw [h1]
      simp [hs]
    · have hc2 : m.desc.irq_data.chip.irq_enable = true
          ∨ m.desc.irq_data.chip.irq_unmask = true := by tauto
      obtain ⟨m1, e1, e2, e3, e4⟩ := irq_enable_spec (irq_settings_set_noprobe m)
        (by simpa [irq_settings_set_noprobe] using hc2)
      obtain ⟨r1, r2, r3⟩ := check_irq_resend_frame m1
      have hv : __enable_irq m = some { check_irq_resend m1 with
          desc := { (check_irq_resend m1).desc with
            depth := (check_irq_resend m1).desc.depth - 1 } } := by
        unfold __enable_irq
        rw [h1]
        simp only [hs, Bool.false_eq_true, if_false, e1, Option.map_some']
      refine ⟨_, hv, ?_, ?_⟩
      · simp [r1, e2, irq_settings_set_noprobe]
      · left
        simp [r1, e2, irq_settings_set_noprobe, h1]

/-- Any number of `__enable_irq` calls on a safe line return and keep the chip. -/
theorem __enable_irq_times_safe (n : Nat) :
    ∀ m : irq_line, enable_irq_safe m →
      ∃ m', __enable_irq_times n m = some m'
        ∧ m'.desc.irq_data.chip = m.desc.irq_data.chip := by
  induction n with
  | zero => intro m _; exact ⟨m, rfl, rfl⟩
  | succ n ih =>
    intro m hm
    obtain ⟨m1, e1, e2, e3⟩ := __enable_irq_safe_step m hm
    obtain ⟨m2, f1, f2⟩ := ih m1 e3
    refine ⟨m2, ?_, f2.trans e2⟩
    simp [__enable_irq_times, e1, f1]

/-- C9 (counterexample): with only a startup operation `irq_shutdown` calls the NULL mask
operation, and with only startup and shutdown operations the first `__enable_irq` after
`irq_shutdown` calls the NULL unmask operation, so the sequence shutdown, enable, startup
does not run to its end although a startup operation exists. -/
theorem irq_shutdown_enable_needs_operations :
    irq_shutdown (example_line { irq_chip.absent with irq_startup := some 0 }) = none
    ∧ (irq_shutdown (example_line
          { irq_chip.absent with irq_startup := some 0, irq_shutdown := true })).isSome = true
    ∧ (irq_shutdown (example_line
          { irq_chip.absent with irq_startup := some 0, irq_shutdown := true })).bind
        (__enable_irq_times 1) = none := by
  decide

/-- C9 (amended): when the capability set has a startup, enable or unmask operation,
`irq_startup` returns and leaves depth 0 with the disabled and masked flags cleared, having
invoked the startup operation when present and otherwise the enable path (enable, else
unmask). Consequently, when the capability set also has a shutdown, disable or mask
operation, and an enable or unmask operation in case `__enable_irq` is called at least
once on a line that is not suspended, `irq_shutdown` followed by `n` calls of
`__enable_irq` and then `irq_startup` ends with depth 0 and the disabled flag cleared. -/
theorem irq_startup_resets_nesting (m : irq_line) (n : Nat) (resend : Bool)
    (hcap : m.desc.irq_data.chip.irq_startup.isSome = true
      ∨ m.desc.irq_data.chip.irq_enable = true ∨ m.desc.irq_data.chip.irq_unmask = true) :
    (∃ ret m', irq_startup m resend = some (ret, m')
      ∧ m'.desc.depth = 0
      ∧ m'.desc.irq_data.IRQD_IRQ_DISABLED = false
      ∧ m'.desc.irq_data.IRQD_IRQ_MASKED = false
      ∧ m'.calls = m.calls ++
          [if m.desc.irq_data.chip.irq_startup.isSome then chip_call.irq_startup
           else if m.desc.irq_data.chip.irq_enable then chip_call.irq_enable
           else chip_call.irq_unmask]
          ++ (if resend && m.desc.IRQS_PENDING then [chip_call.resend] else []))
    ∧ ((m.desc.irq_data.chip.irq_shutdown = true ∨ m.desc.irq_data.chip.irq_disable = true
          ∨ m.desc.irq_data.chip.irq_mask = true) →
        (n = 0 ∨ m.desc.IRQS_SUSPENDED = true ∨ m.desc.irq_data.chip.irq_enable = true
          ∨ m.desc.irq_data.chip.irq_unmask = true) →
        ∃ m1 m2 ret m3, irq_shutdown m = some m1
          ∧ __enable_irq_times n m1 = some m2
          ∧ irq_startup m2 resend = some (ret, m3)
          ∧ m3.desc.depth = 0
          ∧ m3.desc.irq_data.IRQD_IRQ_DISABLED = false
          ∧ m3.desc.irq_data.IRQD_IRQ_MASKED = false) := by
  constructor
  · obtain ⟨ret, m', h1, h2, h3, h4, -, h6, -⟩ := irq_startup_spec_aux m resend hcap
    exact ⟨ret, m', h1, h2, h3, h4, h6⟩
  · intro hsd hen
    obtain ⟨m1, e1, -, -, e4⟩ := irq_shutdown_spec_aux m hsd
    have hchip1 : m1.desc.irq_data.chip = m.desc.irq_data.chip := by rw [e4]
    have htimes : ∃ m2, __enable_irq_times n m1 = some m2
        ∧ m2.desc.irq_data.chip = m1.desc.irq_data.chip := by
      rcases hen with h0 | hrest
      · subst h0; exact ⟨m1, rfl, rfl⟩
      · apply __enable_irq_times_safe
        right
        rw [e4]
        exact ⟨rfl, hrest⟩
    obtain ⟨m2, f1, f2⟩ := htimes
    obtain ⟨ret, m3, g1, g2, g3, g4, -⟩ := irq_startup_spec_aux m2 resend
      (by rw [f2, hchip1]; exact hcap)
    exact ⟨m1, m2, ret, m3, e1, f1, g1, g2, g3, g4⟩

/-- Witness for C9 (amended): a line whose chip has only mask and unmask operations, three
`__enable_irq` calls between shutdown and startup. -/
theorem irq_startup_resets_nesting_witness :
    ((example_line { irq_chip.absent with irq_mask := true, irq_unmask := true
        }).desc.irq_data.chip.irq_startup.isSome = true
      ∨ (example_line { irq_chip.absent with irq_mask := true, irq_unmask := true
        }).desc.irq_data.chip.irq_enable = true
      ∨ (example_line { irq_chip.absent with irq_mask := true, irq_unmask := true
        }).desc.irq_data.chip.irq_unmask = true)
    ∧ ∃ m1 m2 ret m3,
        irq_shutdown (example_line { irq_chip.absent with irq_mask := true, irq_unmask := true })
          = some m1
        ∧ __enable_irq_times 3 m1 = some m2
        ∧ irq_startup m2 true = some (ret, m3)
        ∧ m3.desc.depth = 0
        ∧ m3.desc.irq_data.IRQD_IRQ_DISABLED = false
        ∧ m3.desc.irq_data.IRQD_IRQ_MASKED = false :=
  ⟨by decide,
   (irq_startup_resets_nesting
    (example_line { irq_chip.absent with irq_mask := true, irq_unmask := true }) 3 true
    (by decide)).2 (by decide) (by decide)⟩

/-- C10 (counterexample): on a capability set without shutdown, disable and mask
operations `irq_shutdown` calls the NULL mask operation. -/
theorem irq_shutdown_without_operations :
    irq_shutdown (example_line irq_chip.absent) = none := by
  decide

/-- C10 (amended): for every descriptor state and every capability set with a shutdown,
disable or mask operation, `irq_shutdown` returns with the disabled flag set, the masked
flag set and depth 1, having invoked exactly one controller operation: shutdown if
present, else disable if present, else mask; nothing else of the descriptor changes. -/
theorem irq_shutdown_spec (m : irq_line)
    (hcap : m.desc.irq_data.chip.irq_shutdown = true ∨ m.desc.irq_data.chip.irq_disable = true
      ∨ m.desc.irq_data.chip.irq_mask = true) :
    ∃ m', irq_shutdown m = some m'
      ∧ m'.desc.irq_data.IRQD_IRQ_DISABLED = true
      ∧ m'.desc.irq_data.IRQD_IRQ_MASKED = true
      ∧ m'.desc.depth = 1
      ∧ m'.calls = m.calls ++
          [if m.desc.irq_data.chip.irq_shutdown then chip_call.irq_shutdown
           else if m.desc.irq_data.chip.irq_disable then chip_call.irq_disable
           else chip_call.irq_mask]
      ∧ m'.warnings = m.warnings
      ∧ m'.desc = { m.desc with
          irq_data := { m.desc.irq_data with IRQD_IRQ_DISABLED := true, IRQD_IRQ_MASKED := true },
          depth := 1 } := by
  obtain ⟨m', h1, h2, h3, h4⟩ := irq_shutdown_spec_aux m hcap
  refine ⟨m', h1, ?_, ?_, ?_, h2, h3, h4⟩ <;> rw [h4]

/-- Witness for C10 (amended): a chip with disable and mask operations; the disable
operation is the one invoked. -/
theorem irq_shutdown_spec_witness :
    ((example_line { irq_chip.absent with irq_disable := true, irq_mask := true
        }).desc.irq_data.chip.irq_shutdown = true
      ∨ (example_line { irq_chip.absent with irq_disable := true, irq_mask := true
        }).desc.irq_data.chip.irq_disable = true
      ∨ (example_line { irq_chip.absent with irq_disable := true, irq_mask := true
        }).desc.irq_data.chip.irq_mask = true)
    ∧ ∃ m', irq_shutdown
          (example_line { irq_chip.absent with irq_disable := true, irq_mask := true }) = some m'
        ∧ m'.desc.irq_data.IRQD_IRQ_DISABLED = true
        ∧ m'.desc.irq_data.IRQD_IRQ_MASKED = true
        ∧ m'.desc.depth = 1
        ∧ m'.calls = [] ++ [chip_call.irq_disable] :=
  ⟨by decide,
   (irq_shutdown_spec
      (example_line { irq_chip.absent with irq_disable := true, irq_mask := true })
      (by decide)).imp fun _ h => ⟨h.1, h.2.1, h.2.2.1, h.2.2.2.1, h.2.2.2.2.1⟩⟩

/-! ## Theorems: nested enable, invariant and disable -/

/-- If `irq_enable` returns, an enable or unmask operation is present. -/
theorem irq_enable_returns_cap (m m' : irq_line) (h : irq_enable m = some m') :
    m.desc.irq_data.chip.irq_enable = true ∨ m.desc.irq_data.chip.irq_unmask = true := by
  by_contra hc
  have h1 : m.desc.irq_data.chip.irq_enable = false := by
    cases hx : m.desc.irq_data.chip.irq_enable
    · rfl
    · exact absurd (Or.inl hx) hc
  have h2 : m.desc.irq_data.chip.irq_unmask = false := by
    cases hx : m.desc.irq_data.chip.irq_unmask
    · rfl
    · exact absurd (Or.inr hx) hc
  simp [irq_enable, irq_state_clr_disabled, h1, h2] at h

/-- The descriptor after `irq_enable`: only the disabled and masked flags are cleared. -/
theorem irq_enable_desc (m m' : irq_line) (h : irq_enable m = some m') :
    m'.desc = { m.desc with irq_data := { m.desc.irq_data with
      IRQD_IRQ_DISABLED := false, IRQD_IRQ_MASKED := false } } := by
  obtain ⟨m1, e1, e2, -⟩ := irq_enable_spec m (irq_enable_returns_cap m m' h)
  rw [e1] at h
  cases h
  exact e2

/-- If `irq_startup` returns, a startup, enable or unmask operation is present. -/
theorem irq_startup_returns_cap (m : irq_line) (resend : Bool) (r : Int × irq_line)
    (h : irq_startup m resend = some r) :
    m.desc.irq_data.chip.irq_startup.isSome = true ∨ m.desc.irq_data.chip.irq_enable = true
      ∨ m.desc.irq_data.chip.irq_unmask = true := by
  by_contra hc
  have h0 : m.desc.irq_data.chip.irq_startup = none := by
    cases hx : m.desc.irq_data.chip.irq_startup
    · rfl
    · exact absurd (Or.inl (by rw [hx]; rfl)) hc
  have h1 : m.desc.irq_data.chip.irq_enable = false := by
    cases hx : m.desc.irq_data.chip.irq_enable
    · rfl
    · exact absurd (Or.inr (Or.inl hx)) hc
  have h2 : m.desc.irq_data.chip.irq_unmask = false := by
    cases hx : m.desc.irq_data.chip.irq_unmask
    · rfl
    · exact absurd (Or.inr (Or.inr hx)) hc
  simp [irq_startup, irq_enable, irq_state_clr_disabled, h0, h1, h2] at h

/-- The descriptor after `mask_ack_irq`: only the masked flag is set. -/
theorem mask_ack_irq_desc (m m' : irq_line) (h : mask_ack_irq m = some m') :
    m'.desc = { m.desc with irq_data := { m.desc.irq_data with IRQD_IRQ_MASKED := true } } := by
  unfold mask_ack_irq at h
  split at h
  · cases h; rfl
  · split at h
    · dsimp only at h
      cases h
      simp only [irq_state_set_masked, irq_line.invoke]
      split <;> rfl
    · cases h

/-- The descriptor after `irq_startup`: depth 0, disabled and masked cleared, and the
pending flag cleared when a resend was asked for. -/
theorem irq_startup_desc (m : irq_line) (resend : Bool) (r : Int × irq_line)
    (h : irq_startup m resend = some r) :
    r.2.desc = { m.desc with
      irq_data := { m.desc.irq_data with IRQD_IRQ_DISABLED := false, IRQD_IRQ_MASKED := false },
      depth := 0,
      IRQS_PENDING := if resend then false else m.desc.IRQS_PENDING } := by
  cases hs : m.desc.irq_data.chip.irq_startup with
  | some ret =>
    have hv : irq_startup m resend = some (ret,
        if resend = true then check_irq_resend (irq_state_clr_masked
          (({ irq_state_clr_disabled m with desc := { (irq_state_clr_disabled m).desc with
            depth := 0 } }).invoke chip_call.irq_startup))
        else irq_state_clr_masked
          (({ irq_state_clr_disabled m with desc := { (irq_state_clr_disabled m).desc with
            depth := 0 } }).invoke chip_call.irq_startup)) := by
      simp only [irq_startup, irq_state_clr_disabled, hs, Option.map_some']
    rw [hv] at h
    cases h
    cases resend
    · simp [irq_state_clr_disabled, irq_state_clr_masked, irq_line.invoke]
    · simp only [if_true]
      rw [(check_irq_resend_frame _).1]
      simp [irq_state_clr_disabled, irq_state_clr_masked, irq_line.invoke]
  | none =>
    cases he : irq_enable ({ irq_state_clr_disabled m with
        desc := { (irq_state_clr_disabled m).desc with depth := 0 } }) with
    | none =>
      simp only [irq_state_clr_disabled] at he
      simp [irq_startup, irq_state_clr_disabled, hs, he] at h
    | some m1 =>
      have hd := irq_enable_desc _ _ he
      simp only [irq_state_clr_disabled] at he
      have hv : irq_startup m resend = some (0,
          if resend = true then check_irq_resend m1 else m1) := by
        simp only [irq_startup, irq_state_clr_disabled, hs, he, Option.map_some']
      rw [hv] at h
      cases h
      cases resend
      · simp [hd, irq_state_clr_disabled]
      · simp only [if_true]
        rw [(check_irq_resend_frame _).1]
        simp [hd, irq_state_clr_disabled]

/-- The descriptor invariant survives `__enable_irq`. -/
theorem __enable_irq_keeps_inv (m m' : irq_line) (hm : m.desc.depth_inv)
    (h : __enable_irq m = some m') : m'.desc.depth_inv := by
  unfold __enable_irq at h
  split at h
  · cases h; exact hm
  · rename_i h1
    split at h
    · cases h; exact hm
    · cases he : irq_enable (irq_settings_set_noprobe m) with
      | none => rw [he] at h; cases h
      | some m1 =>
        rw [he] at h
        simp only [Option.map_some', Option.some.injEq] at h
        subst h
        have hd := irq_enable_desc _ _ he
        obtain ⟨r1, -, -⟩ := check_irq_resend_frame m1
        simp [irq_desc.depth_inv, r1, hd, irq_settings_set_noprobe, h1]
  · rename_i k hk
    cases h
    unfold irq_desc.depth_inv at hm ⊢
    simp only [hk] at hm ⊢
    constructor
    · intro h; omega
    · intro h
      have := hm.mpr h
      omega

/-- C11: for every descriptor with depth 0, `__enable_irq` returns with the descriptor
(depth, flags, settings) unchanged, no controller operation invoked and one more warning
raised. -/
theorem __enable_irq_depth_zero (m : irq_line) (h : m.desc.depth = 0) :
    __enable_irq m = some { m with warnings := m.warnings + 1 }
    ∧ ∃ m', __enable_irq m = some m' ∧ m'.desc = m.desc ∧ m'.calls = m.calls
        ∧ m'.warnings = m.warnings + 1 := by
  have hv : __enable_irq m = some { m with warnings := m.warnings + 1 } := by
    unfold __enable_irq
    rw [h]
  exact ⟨hv, _, hv, rfl, rfl, rfl⟩

/-- Witness for C11: the example line is at depth 0. -/
theorem __enable_irq_depth_zero_witness :
    (example_line irq_chip.absent).desc.depth = 0
    ∧ __enable_irq (example_line irq_chip.absent)
        = some { example_line irq_chip.absent with
            warnings := (example_line irq_chip.absent).warnings + 1 } :=
  ⟨by decide, (__enable_irq_depth_zero (example_line irq_chip.absent) (by decide)).1⟩

/-- C12 (counterexample): on a suspended line at depth 1 `__enable_irq` only warns: depth
stays 1 and the disabled and masked flags stay set although an enable operation exists;
and on a line at depth 1 whose chip has neither an enable nor an unmask operation it
calls the NULL unmask operation. -/
theorem __enable_irq_depth_one_suspended :
    (example_line_off { irq_chip.absent with irq_enable := true } true).desc.depth = 1
    ∧ __enable_irq (example_line_off { irq_chip.absent with irq_enable := true } true)
        = some { example_line_off { irq_chip.absent with irq_enable := true } true with
            warnings := 1 }
    ∧ (example_line_off irq_chip.absent false).desc.depth = 1
    ∧ __enable_irq (example_line_off irq_chip.absent false) = none := by
  decide

/-- C12 (amended): for every descriptor with depth 1 that is not suspended and whose chip
has an enable or unmask operation, `__enable_irq` clears the disabled flag, turns probing
off, re-enables the hardware (enable if present, else unmask) clearing the masked flag,
replays a pending resend and leaves depth 0; a suspended descriptor with depth 1 is left
as it is, with a warning; for every descriptor with depth above 1 it only decrements
depth by one, leaving every flag unchanged and invoking no controller operation. -/
theorem __enable_irq_spec (m : irq_line) :
    (m.desc.depth = 1 → m.desc.IRQS_SUSPENDED = false →
      (m.desc.irq_data.chip.irq_enable = true ∨ m.desc.irq_data.chip.irq_unmask = true) →
      ∃ m', __enable_irq m = some m'
        ∧ m'.desc = { m.desc with
            irq_data := { m.desc.irq_data with
              IRQD_IRQ_DISABLED := false, IRQD_IRQ_MASKED := false },
            depth := 0, IRQS_PENDING := false, IRQ_NOPROBE := true }
        ∧ m'.calls = m.calls ++
            [if m.desc.irq_data.chip.irq_enable then chip_call.irq_enable
             else chip_call.irq_unmask]
            ++ (if m.desc.IRQS_PENDING then [chip_call.resend] else [])
        ∧ m'.warnings = m.warnings)
    ∧ (m.desc.depth = 1 → m.desc.IRQS_SUSPENDED = true →
        __enable_irq m = some { m with warnings := m.warnings + 1 })
    ∧ (m.desc.depth > 1 →
        __enable_irq m = some { m with desc := { m.desc with depth := m.desc.depth - 1 } }) := by
  refine ⟨?_, ?_, ?_⟩
  · intro h1 hs hc
    obtain ⟨m1, e1, e2, e3, e4⟩ := irq_enable_spec (irq_settings_set_noprobe m)
      (by simpa [irq_settings_set_noprobe] using hc)
    obtain ⟨r1, r2, r3⟩ := check_irq_resend_frame m1
    have hv : __enable_irq m = some { check_irq_resend m1 with
        desc := { (check_irq_resend m1).desc with
          depth := (check_irq_resend m1).desc.depth - 1 } } := by
      unfold __enable_irq
      rw [h1]
      simp only [hs, Bool.false_eq_true, if_false, e1, Option.map_some']
    refine ⟨_, hv, ?_, ?_, ?_⟩
    · simp [r1, e2, irq_settings_set_noprobe, h1]
    · simp [r2, e3, e2, irq_settings_set_noprobe]
    · simp [r3, e4, irq_settings_set_noprobe]
  · intro h1 hs
    unfold __enable_irq
    rw [h1]
    simp [hs]
  · intro h
    unfold __enable_irq
    split
    · omega
    · omega
    · rfl

/-- Witness for C12 (amended): a shut-down line with an unmask operation. -/
theorem __enable_irq_spec_witness :
    (example_line_off { irq_chip.absent with irq_unmask := true } false).desc.depth = 1
    ∧ ∃ m', __enable_irq (example_line_off { irq_chip.absent with irq_unmask := true } false)
          = some m'
        ∧ m'.desc.depth = 0
        ∧ m'.desc.irq_data.IRQD_IRQ_DISABLED = false
        ∧ m'.calls = [chip_call.irq_unmask] :=
  ⟨by decide,
   ((__enable_irq_spec (example_line_off { irq_chip.absent with irq_unmask := true } false)).1
      (by decide) (by decide) (by decide)).imp fun _ h =>
        ⟨h.1, by rw [h.2.1], by rw [h.2.1], by rw [h.2.2.1]; decide⟩⟩

/-- C13 (counterexample): `irq_disable` on a started line (depth 0, not disabled) sets the
disabled flag and leaves depth 0, and `irq_enable` on a shut-down line (depth 1,
disabled) clears the disabled flag and leaves depth 1, so neither preserves the
invariant. -/
theorem irq_disable_breaks_depth_invariant :
    (example_line irq_chip.absent).desc.depth = 0
    ∧ (example_line irq_chip.absent).desc.irq_data.IRQD_IRQ_DISABLED = false
    ∧ (irq_disable (example_line irq_chip.absent)).desc.depth = 0
    ∧ (irq_disable (example_line irq_chip.absent)).desc.irq_data.IRQD_IRQ_DISABLED = true
    ∧ (example_line_off { irq_chip.absent with irq_unmask := true } false).desc.depth = 1
    ∧ (example_line_off { irq_chip.absent with irq_unmask := true }
        false).desc.irq_data.IRQD_IRQ_DISABLED = true
    ∧ (irq_enable (example_line_off { irq_chip.absent with irq_unmask := true } false)).map
        (fun m => (m.desc.depth, m.desc.irq_data.IRQD_IRQ_DISABLED)) = some (1, false) := by
  decide

/-- C13 (amended): for every descriptor satisfying the invariant (depth 0 exactly when
the disabled flag is clear), the descriptor after `irq_startup`, `irq_shutdown`,
`mask_irq`, `unmask_irq`, `mask_ack_irq` or `__enable_irq` satisfies it again; `irq_enable`
preserves it at depth 0 and `irq_disable` at depth above 0, since both change the disabled
flag without touching depth. Each of the operations that can reach a NULL operation
returns when the operation it falls back to is present. -/
theorem depth_invariant_preserved (m : irq_line) (resend : Bool) (hm : m.desc.depth_inv) :
    (∀ r, irq_startup m resend = some r → r.2.desc.depth_inv)
    ∧ (∀ m', irq_shutdown m = some m' → m'.desc.depth_inv)
    ∧ (mask_irq m).desc.depth_inv
    ∧ (unmask_irq m).desc.depth_inv
    ∧ (∀ m', mask_ack_irq m = some m' → m'.desc.depth_inv)
    ∧ (∀ m', __enable_irq m = some m' → m'.desc.depth_inv)
    ∧ (m.desc.depth = 0 → ∀ m', irq_enable m = some m' → m'.desc.depth_inv)
    ∧ (m.desc.depth ≠ 0 → (irq_disable m).desc.depth_inv)
    ∧ ((m.desc.irq_data.chip.irq_startup.isSome = true ∨ m.desc.irq_data.chip.irq_enable = true
          ∨ m.desc.irq_data.chip.irq_unmask = true) → (irq_startup m resend).isSome = true)
    ∧ ((m.desc.irq_data.chip.irq_shutdown = true ∨ m.desc.irq_data.chip.irq_disable = true
          ∨ m.desc.irq_data.chip.irq_mask = true) → (irq_shutdown m).isSome = true)
    ∧ ((m.desc.irq_data.chip.irq_mask_ack = true ∨ m.desc.irq_data.chip.irq_mask = true) →
          (mask_ack_irq m).isSome = true)
    ∧ ((m.desc.irq_data.chip.irq_enable = true ∨ m.desc.irq_data.chip.irq_unmask = true
          ∨ m.desc.depth ≠ 1 ∨ m.desc.IRQS_SUSPENDED = true) → (__enable_irq m).isSome = true)
    ∧ ((m.desc.irq_data.chip.irq_enable = true ∨ m.desc.irq_data.chip.irq_unmask = true) →
          (irq_enable m).isSome = true) := by
  have henable := irq_enable_desc
  refine ⟨?_, ?_, ?_, ?_, ?_, ?_, ?_, ?_, ?_, ?_, ?_, ?_, ?_⟩
  · intro r hr
    have hd : r.2.desc.depth = 0 ∧ r.2.desc.irq_data.IRQD_IRQ_DISABLED = false := by
      obtain ⟨ret, m', e, d1, d2, -⟩ := irq_startup_spec_aux m resend
        (irq_startup_returns_cap m resend r hr)
      rw [e] at hr
      cases hr
      exact ⟨d1, d2⟩
    simp [irq_desc.depth_inv, hd.1, hd.2]
  · intro m' h
    have : m'.desc.depth = 1 ∧ m'.desc.irq_data.IRQD_IRQ_DISABLED = true := by
      unfold irq_shutdown at h
      dsimp only at h
      split at h
      · cases h; exact ⟨rfl, rfl⟩
      · split at h
        · cases h; exact ⟨rfl, rfl⟩
        · split at h
          · cases h; exact ⟨rfl, rfl⟩
          · cases h
    simp [irq_desc.depth_inv, this.1, this.2]
  · unfold mask_irq
    split
    · exact hm
    · exact hm
  · unfold unmask_irq
    split
    · exact hm
    · exact hm
  · intro m' h
    rw [mask_ack_irq_desc m m' h]
    exact hm
  · intro m' h
    exact __enable_irq_keeps_inv m m' hm h
  · intro h0 m' h
    rw [henable m m' h]
    simp [irq_desc.depth_inv, h0]
  · intro h0
    have : (irq_disable m).desc.depth = m.desc.depth
        ∧ (irq_disable m).desc.irq_data.IRQD_IRQ_DISABLED = true := by
      unfold irq_disable
      dsimp only [irq_state_set_disabled]
      split
      · exact ⟨rfl, rfl⟩
      · split
        · unfold mask_irq
          split
          · exact ⟨rfl, rfl⟩
          · exact ⟨rfl, rfl⟩
        · exact ⟨rfl, rfl⟩
    simp [irq_desc.depth_inv, this.1, this.2, h0]
  · intro hc
    obtain ⟨ret, m', h, -⟩ := irq_startup_spec_aux m resend hc
    rw [h]; rfl
  · intro hc
    obtain ⟨m', h, -⟩ := irq_shutdown_spec_aux m hc
    rw [h]; rfl
  · intro hc
    unfold mask_ack_irq
    rcases hc with h | h
    · simp [h]
    · by_cases h2 : m.desc.irq_data.chip.irq_mask_ack = true
      · simp [h2]
      · simp [h2, h]
  · intro hc
    have hsafe : enable_irq_safe m ∨ 2 ≤ m.desc.depth := by
      unfold enable_irq_safe
      rcases hc with h | h | h | h
      · rcases Nat.lt_trichotomy m.desc.depth 1 with h1 | h1 | h1
        · left; left; omega
        · left; right; exact ⟨h1, Or.inr (Or.inl h)⟩
        · right; omega
      · rcases Nat.lt_trichotomy m.desc.depth 1 with h1 | h1 | h1
        · left; left; omega
        · left; right; exact ⟨h1, Or.inr (Or.inr h)⟩
        · right; omega
      · rcases Nat.lt_or_ge m.desc.depth 1 with h1 | h1
        · left; left; omega
        · right; omega
      · rcases Nat.lt_trichotomy m.desc.depth 1 with h1 | h1 | h1
        · left; left; omega
        · left; right; exact ⟨h1, Or.inl h⟩
        · right; omega
    rcases hsafe with h | h
    · obtain ⟨m', h', -⟩ := __enable_irq_safe_step m h
      rw [h']; rfl
    · unfold __enable_irq
      split
      · omega
      · omega
      · rfl
  · intro hc
    obtain ⟨m', h, -⟩ := irq_enable_spec m hc
    rw [h]; rfl

/-- Witness for C13 (amended): the example line satisfies the invariant, and so does the
line after `mask_irq`. -/
theorem depth_invariant_preserved_witness :
    (example_line { irq_chip.absent with irq_mask := true }).desc.depth_inv
    ∧ (mask_irq (example_line { irq_chip.absent with irq_mask := true })).desc.depth_inv :=
  ⟨by simp [irq_desc.depth_inv, example_line],
   (depth_invariant_preserved (example_line { irq_chip.absent with irq_mask := true }) true
    (by simp [irq_desc.depth_inv, example_line])).2.2.1⟩

/-- C14 (counterexample): on a line flagged disable-unlazy whose chip has neither a
disable nor a mask operation, `irq_disable` only sets the disabled flag: no controller
operation is invoked and the masked flag stays clear. -/
theorem irq_disable_unlazy_without_mask :
    irq_disable ({ example_line irq_chip.absent with
        desc := { (example_line irq_chip.absent).desc with IRQ_DISABLE_UNLAZY := true } })
      = irq_state_set_disabled ({ example_line irq_chip.absent with
        desc := { (example_line irq_chip.absent).desc with IRQ_DISABLE_UNLAZY := true } })
    ∧ (irq_disable ({ example_line irq_chip.absent with
        desc := { (example_line irq_chip.absent).desc with IRQ_DISABLE_UNLAZY := true } })).calls
      = []
    ∧ (irq_disable ({ example_line irq_chip.absent with
        desc := { (example_line irq_chip.absent).desc with IRQ_DISABLE_UNLAZY := true }
        })).desc.irq_data.IRQD_IRQ_MASKED = false := by
  decide

/-- C14 (amended): `irq_disable` sets the disabled flag and then: if the chip has a
disable operation, invokes it and sets the masked flag; otherwise, if the line is not
flagged disable-unlazy, invokes nothing and leaves the masked flag unchanged; otherwise
(unlazy) invokes the mask operation and sets the masked flag if the chip has a mask
operation, and does nothing more if it has none. -/
theorem irq_disable_spec (m : irq_line) :
    (irq_disable m).desc.irq_data.IRQD_IRQ_DISABLED = true
    ∧ (m.desc.irq_data.chip.irq_disable = true →
        irq_disable m = irq_state_set_masked ((irq_state_set_disabled m).invoke
          chip_call.irq_disable)
        ∧ (irq_disable m).calls = m.calls ++ [chip_call.irq_disable]
        ∧ (irq_disable m).desc.irq_data.IRQD_IRQ_MASKED = true)
    ∧ (m.desc.irq_data.chip.irq_disable = false → m.desc.IRQ_DISABLE_UNLAZY = false →
        irq_disable m = irq_state_set_disabled m
        ∧ (irq_disable m).calls = m.calls
        ∧ (irq_disable m).desc.irq_data.IRQD_IRQ_MASKED = m.desc.irq_data.IRQD_IRQ_MASKED)
    ∧ (m.desc.irq_data.chip.irq_disable = false → m.desc.IRQ_DISABLE_UNLAZY = true →
        m.desc.irq_data.chip.irq_mask = true →
        irq_disable m = irq_state_set_masked ((irq_state_set_disabled m).invoke
          chip_call.irq_mask)
        ∧ (irq_disable m).calls = m.calls ++ [chip_call.irq_mask]
        ∧ (irq_disable m).desc.irq_data.IRQD_IRQ_MASKED = true)
    ∧ (m.desc.irq_data.chip.irq_disable = false → m.desc.IRQ_DISABLE_UNLAZY = true →
        m.desc.irq_data.chip.irq_mask = false →
        irq_disable m = irq_state_set_disabled m
        ∧ (irq_disable m).calls = m.calls
        ∧ (irq_disable m).desc.irq_data.IRQD_IRQ_MASKED = m.desc.irq_data.IRQD_IRQ_MASKED) := by
  refine ⟨?_, ?_, ?_, ?_, ?_⟩
  · unfold irq_disable
    dsimp only [irq_state_set_disabled]
    split
    · rfl
    · split
      · unfold mask_irq
        split <;> rfl
      · rfl
  · intro h
    have hv : irq_disable m = irq_state_set_masked ((irq_state_set_disabled m).invoke
        chip_call.irq_disable) := by
      simp [irq_disable, irq_state_set_disabled, h]
    rw [hv]
    exact ⟨rfl, rfl, rfl⟩
  · intro h hu
    have hv : irq_disable m = irq_state_set_disabled m := by
      simp [irq_disable, irq_state_set_disabled, h, hu]
    rw [hv]
    exact ⟨rfl, rfl, rfl⟩
  · intro h hu hmk
    have hv : irq_disable m = irq_state_set_masked ((irq_state_set_disabled m).invoke
        chip_call.irq_mask) := by
      simp [irq_disable, irq_state_set_disabled, mask_irq, h, hu, hmk]
    rw [hv]
    exact ⟨rfl, rfl, rfl⟩
  · intro h hu hmk
    have hv : irq_disable m = irq_state_set_disabled m := by
      simp [irq_disable, irq_state_set_disabled, mask_irq, h, hu, hmk]
    rw [hv]
    exact ⟨rfl, rfl, rfl⟩

/-- Witness for C14 (amended): the lazy case on the example line. -/
theorem irq_disable_spec_witness :
    (example_line irq_chip.absent).desc.irq_data.chip.irq_disable = false
    ∧ (example_line irq_chip.absent).desc.IRQ_DISABLE_UNLAZY = false
    ∧ irq_disable (example_line irq_chip.absent)
        = irq_state_set_disabled (example_line irq_chip.absent) :=
  ⟨by decide, by decide,
   ((irq_disable_spec (example_line irq_chip.absent)).2.2.1 (by decide) (by decide)).1⟩

/-! ## Theorems: chained installation -/

/-- The tail of a chained installation: with a startup, enable or unmask operation, the
three settings, the sentinel action and `irq_startup` leave the line started. -/
theorem chained_tail (m6 : irq_line)
    (hcap : m6.desc.irq_data.chip.irq_startup.isSome = true
      ∨ m6.desc.irq_data.chip.irq_enable = true ∨ m6.desc.irq_data.chip.irq_unmask = true) :
    ∃ r, irq_startup ({ irq_settings_set_nothread (irq_settings_set_norequest
            (irq_settings_set_noprobe m6)) with
          desc := { (irq_settings_set_nothread (irq_settings_set_norequest
            (irq_settings_set_noprobe m6))).desc with
              action := irqaction_ptr.chained_action } }) true = some r
      ∧ r.2.desc.depth = 0 ∧ r.2.desc.irq_data.IRQD_IRQ_DISABLED = false
      ∧ r.2.desc.irq_data.IRQD_IRQ_MASKED = false
      ∧ r.2.desc.action = irqaction_ptr.chained_action
      ∧ r.2.desc.handle_irq = m6.desc.handle_irq
      ∧ r.2.desc.IRQ_NOPROBE = true ∧ r.2.desc.IRQ_NOREQUEST = true
      ∧ r.2.desc.IRQ_NOTHREAD = true
      ∧ r.2.desc.name = m6.desc.name := by
  obtain ⟨ret, m', e, -⟩ := irq_startup_spec_aux
    ({ irq_settings_set_nothread (irq_settings_set_norequest
            (irq_settings_set_noprobe m6)) with
          desc := { (irq_settings_set_nothread (irq_settings_set_norequest
            (irq_settings_set_noprobe m6))).desc with
              action := irqaction_ptr.chained_action } }) true
    (by simpa [irq_settings_set_nothread, irq_settings_set_norequest,
      irq_settings_set_noprobe] using hcap)
  have hd : m'.desc = _ := irq_startup_desc _ _ _ e
  refine ⟨(ret, m'), e, ?_⟩
  dsimp only
  rw [hd]
  simp [irq_settings_set_nothread, irq_settings_set_norequest, irq_settings_set_noprobe]

/-- C15 (counterexample): a chained installation of a real flow handler on a line whose
chip is not the placeholder but has no startup, enable or unmask operation does not leave
the line started: `irq_startup` falls through to `irq_enable`, which calls the NULL
`irq_unmask` pointer. -/
theorem chained_install_without_operations :
    (example_line irq_chip.absent).desc.irq_data.chip.is_no_irq_chip = false
    ∧ __irq_do_set_handler (fun m _ => m) (example_line irq_chip.absent)
        (irq_flow_handler.other 7) true "cascade" = none := by
  decide

/-- C15 (amended): for a flow handler that is neither NULL nor `handle_bad_irq` and a
trigger-setting routine that leaves the chip pointer alone, `__irq_do_set_handler` with
`is_chained` set, on a line whose chip is not the `no_irq_chip` placeholder and has a
startup, enable or unmask operation, returns with the line started (depth 0, disabled and
masked flags clear), the action equal to the sentinel `chained_action`, `handle_irq` equal
to the given handler and the noprobe, norequest and nothread settings set. On the
placeholder chip the call leaves the descriptor as it was and only logs a warning,
chained or not. -/
theorem chained_install_starts_line (__irq_set_trigger : irq_line → Nat → irq_line)
    (m : irq_line) (id : Nat) (name : String)
    (hst : ∀ x t, (__irq_set_trigger x t).desc.irq_data.chip = x.desc.irq_data.chip)
    (hcap : m.desc.irq_data.chip.is_no_irq_chip = true
      ∨ m.desc.irq_data.chip.irq_startup.isSome = true
      ∨ m.desc.irq_data.chip.irq_enable = true ∨ m.desc.irq_data.chip.irq_unmask = true) :
    (m.desc.irq_data.chip.is_no_irq_chip = false →
      ∃ m', __irq_do_set_handler __irq_set_trigger m (irq_flow_handler.other id) true name
          = some m'
        ∧ m'.desc.depth = 0 ∧ m'.desc.irq_data.IRQD_IRQ_DISABLED = false
        ∧ m'.desc.irq_data.IRQD_IRQ_MASKED = false
        ∧ m'.desc.action = irqaction_ptr.chained_action
        ∧ m'.desc.handle_irq = irq_flow_handler.other id
        ∧ m'.desc.IRQ_NOPROBE = true ∧ m'.desc.IRQ_NOREQUEST = true
        ∧ m'.desc.IRQ_NOTHREAD = true)
    ∧ (m.desc.irq_data.chip.is_no_irq_chip = true →
        ∀ is_chained, __irq_do_set_handler __irq_set_trigger m (irq_flow_handler.other id)
          is_chained name = some { m with warnings := m.warnings + 1 }) := by
  constructor
  · intro hno
    have hcap2 : m.desc.irq_data.chip.irq_startup.isSome = true
        ∨ m.desc.irq_data.chip.irq_enable = true ∨ m.desc.irq_data.chip.irq_unmask = true := by
      rcases hcap with h | h
      · rw [hno] at h; cases h
      · exact h
    have key : ∀ m6 : irq_line, m6.desc.irq_data.chip = m.desc.irq_data.chip →
        m6.desc.handle_irq = irq_flow_handler.other id →
        ∃ m', (irq_startup ({ irq_settings_set_nothread (irq_settings_set_norequest
              (irq_settings_set_noprobe m6)) with
            desc := { (irq_settings_set_nothread (irq_settings_set_norequest
              (irq_settings_set_noprobe m6))).desc with
                action := irqaction_ptr.chained_action } }) true).map (fun r => r.2) = some m'
          ∧ m'.desc.depth = 0 ∧ m'.desc.irq_data.IRQD_IRQ_DISABLED = false
          ∧ m'.desc.irq_data.IRQD_IRQ_MASKED = false
          ∧ m'.desc.action = irqaction_ptr.chained_action
          ∧ m'.desc.handle_irq = irq_flow_handler.other id
          ∧ m'.desc.IRQ_NOPROBE = true ∧ m'.desc.IRQ_NOREQUEST = true
          ∧ m'.desc.IRQ_NOTHREAD = true := by
      intro m6 hchip hh
      obtain ⟨r, e, a1, a2, a3, a4, a5, a6, a7, a8, -⟩ :=
        chained_tail m6 (by rw [hchip]; exact hcap2)
      exact ⟨r.2, by rw [e]; rfl, a1, a2, a3, a4, a5.trans hh, a6, a7, a8⟩
    unfold __irq_do_set_handler
    simp only [hno, Bool.false_eq_true, and_false, if_false, ne_eq, reduceCtorEq,
      not_false_eq_true, and_self, if_true, Option.some_bind]
    by_cases ht : m.desc.irq_data.trigger_type = IRQ_TYPE_NONE
    · simp only [ht, not_true_eq_false, if_false]
      exact key _ rfl rfl
    · simp only [ht, not_false_eq_true, if_true]
      exact key _ (hst _ _) rfl
  · intro hno is_chained
    unfold __irq_do_set_handler
    simp [hno]

/-- Witness for C15 (amended): a chained installation on the example line with a chip that
has a startup operation. -/
theorem chained_install_starts_line_witness :
    ((example_line { irq_chip.absent with irq_startup := some 0 }).desc.irq_data.chip.is_no_irq_chip
        = true
      ∨ (example_line { irq_chip.absent with irq_startup := some 0
          }).desc.irq_data.chip.irq_startup.isSome = true
      ∨ (example_line { irq_chip.absent with irq_startup := some 0
          }).desc.irq_data.chip.irq_enable = true
      ∨ (example_line { irq_chip.absent with irq_startup := some 0
          }).desc.irq_data.chip.irq_unmask = true)
    ∧ ∃ m', __irq_do_set_handler (fun m _ => m)
          (example_line { irq_chip.absent with irq_startup := some 0 })
          (irq_flow_handler.other 7) true "cascade" = some m'
        ∧ m'.desc.depth = 0 ∧ m'.desc.irq_data.IRQD_IRQ_DISABLED = false
        ∧ m'.desc.irq_data.IRQD_IRQ_MASKED = false
        ∧ m'.desc.action = irqaction_ptr.chained_action
        ∧ m'.desc.handle_irq = irq_flow_handler.other 7
        ∧ m'.desc.IRQ_NOPROBE = true ∧ m'.desc.IRQ_NOREQUEST = true
        ∧ m'.desc.IRQ_NOTHREAD = true :=
  ⟨Or.inr (Or.inl rfl),
   (chained_install_starts_line (fun m _ => m)
      (example_line { irq_chip.absent with irq_startup := some 0 }) 7 "cascade"
      (fun _ _ => rfl) (Or.inr (Or.inl rfl))).1 rfl⟩

/-! ## Theorems: probe of an absent controller -/

/-- The free-slot scan only looks at the register counts. -/
theorem find_free_loop_congr (a b : Nat → ioapic)
    (h : ∀ j, (b j).nr_registers = (a j).nr_registers) (n idx : Nat) :
    find_free_ioapic_entry.loop b n idx = find_free_ioapic_entry.loop a n idx := by
  induction n generalizing idx with
  | zero => rfl
  | succ n ih => simp only [find_free_ioapic_entry.loop, h, ih]

/-- Two states with the same registry have the same first free slot. -/
theorem find_free_congr (MAX_IO_APICS : Nat) {s t : ioapic_state} (h : s.same_registry t) :
    find_free_ioapic_entry MAX_IO_APICS t = find_free_ioapic_entry MAX_IO_APICS s :=
  find_free_loop_congr s.ioapics t.ioapics (fun j => (h.2.2.2 j).1) MAX_IO_APICS 0

/-- A device whose registers 0, 1 and 2 always read all-ones fails the probe. -/
theorem bad_ioapic_register_all_ones (dev : ioapic_device) (log : List mmio_access) (idx : Nat)
    (hones : ∀ (t : List mmio_access) (reg : Nat), reg ≤ 2 →
      dev (t ++ [mmio_access.writel idx io_apic.index reg]) % 2 ^ 32 = 0xFFFFFFFF) :
    (bad_ioapic_register dev log idx).1 = true := by
  have h0 := hones log 0 (by omega)
  have h1 := hones (log ++ [mmio_access.writel idx io_apic.index 0,
    mmio_access.readl idx io_apic.data]) 1 (by omega)
  have h2 := hones (log ++ [mmio_access.writel idx io_apic.index 0,
    mmio_access.readl idx io_apic.data, mmio_access.writel idx io_apic.index 1,
    mmio_access.readl idx io_apic.data]) 2 (by omega)
  simp only [List.append_assoc, List.cons_append, List.nil_append, Nat.reducePow] at h0 h1 h2
  simp [bad_ioapic_register, io_apic_read, h0, h1, h2]

/-- A device with one of the registers 0, 1 and 2 never reading all-ones passes the probe. -/
theorem bad_ioapic_register_some_reg (dev : ioapic_device) (log : List mmio_access) (idx : Nat)
    (h : ∃ reg, reg ≤ 2 ∧ ∀ t : List mmio_access,
      dev (t ++ [mmio_access.writel idx io_apic.index reg]) % 2 ^ 32 ≠ 0xFFFFFFFF) :
    (bad_ioapic_register dev log idx).1 = false := by
  obtain ⟨reg, hreg, hne⟩ := h
  have h3 : reg = 0 ∨ reg = 1 ∨ reg = 2 := by omega
  have h0 := hne log
  have h1 := hne (log ++ [mmio_access.writel idx io_apic.index 0,
    mmio_access.readl idx io_apic.data])
  have h2 := hne (log ++ [mmio_access.writel idx io_apic.index 0,
    mmio_access.readl idx io_apic.data, mmio_access.writel idx io_apic.index 1,
    mmio_access.readl idx io_apic.data])
  simp only [List.append_assoc, List.cons_append, List.nil_append, Nat.reducePow] at h0 h1 h2
  rcases h3 with h | h | h <;> subst h
  · simp [bad_ioapic_register, io_apic_read, h0]
  · simp [bad_ioapic_register, io_apic_read, h1]
  · simp [bad_ioapic_register, io_apic_read, h2]

/-- The value `mp_register_ioapic` returns, by the test that produced it. -/
theorem mp_register_ioapic_code (MAX_IO_APICS : Nat) (dev : ioapic_device) (kz : Bool)
    (s : ioapic_state) (id : Int) (address gsi_base : Nat) (r : Int × ioapic_state)
    (h : mp_register_ioapic MAX_IO_APICS dev kz s id address gsi_base = some r) :
    (r.1 = -EINVAL ∧ address = 0)
    ∨ (r.1 = -EEXIST ∧ address ≠ 0
        ∧ (List.range s.nr_ioapics).any
            (fun i => (s.ioapics i).mp_config.apicaddr == address) = true)
    ∨ (r.1 = -ENOSPC ∧ MAX_IO_APICS ≤ find_free_ioapic_entry MAX_IO_APICS s)
    ∨ (r.1 = -ENODEV ∧ (bad_ioapic_register dev
          (mp_register_ioapic.claim_slot s (find_free_ioapic_entry MAX_IO_APICS s) address).mmio
          (find_free_ioapic_entry MAX_IO_APICS s)).1 = true)
    ∨ (r.1 = -ENOSPC ∧ find_free_ioapic_entry MAX_IO_APICS s < MAX_IO_APICS
        ∧ ∃ entries, mp_register_ioapic.conflict s gsi_base
            ((gsi_base + entries - 1) % 2 ^ 32) = true)
    ∨ r.1 = 0 := by
  unfold mp_register_ioapic at h
  by_cases h1 : address = 0
  · rw [if_pos h1] at h; cases h
    exact Or.inl ⟨rfl, h1⟩
  rw [if_neg h1] at h
  dsimp only at h
  split at h
  · rename_i hd
    cases h; exact Or.inr (Or.inl ⟨rfl, h1, hd⟩)
  split at h
  · rename_i hf
    cases h; exact Or.inr (Or.inr (Or.inl ⟨rfl, hf⟩))
  rename_i hidx
  split at h
  · rename_i hb
    cases h
    exact Or.inr (Or.inr (Or.inr (Or.inl ⟨rfl, hb⟩)))
  split at h
  · cases h
  rename_i apicid log3 hu
  have hs3 : s.same_registry (mp_register_ioapic.set_ids
      (mp_register_ioapic.claim_slot s (find_free_ioapic_entry MAX_IO_APICS s) address)
      (find_free_ioapic_entry MAX_IO_APICS s) apicid
      (io_apic_get_version dev log3 (find_free_ioapic_entry MAX_IO_APICS s)).1
      (io_apic_get_version dev log3 (find_free_ioapic_entry MAX_IO_APICS s)).2) :=
    same_registry_trans (same_registry_claim_slot s _ address) (same_registry_set_ids _ _ _ _ _)
  generalize mp_register_ioapic.set_ids
      (mp_register_ioapic.claim_slot s (find_free_ioapic_entry MAX_IO_APICS s) address)
      (find_free_ioapic_entry MAX_IO_APICS s) apicid
      (io_apic_get_version dev log3 (find_free_ioapic_entry MAX_IO_APICS s)).1
      (io_apic_get_version dev log3 (find_free_ioapic_entry MAX_IO_APICS s)).2 = s3 at h hs3
  generalize io_apic_get_redir_entries dev s3.mmio (find_free_ioapic_entry MAX_IO_APICS s)
    = ent at h
  split at h
  · rename_i hc
    cases h
    refine Or.inr (Or.inr (Or.inr (Or.inr (Or.inl ⟨rfl, by omega, ent.1, ?_⟩))))
    rw [← conflict_congr hs3]
    exact hc
  · cases h
    exact Or.inr (Or.inr (Or.inr (Or.inr (Or.inr rfl))))

/-- Claiming a slot leaves the configuration of every other slot alone. -/
theorem claim_slot_other (s : ioapic_state) (idx address j : Nat) (hj : j ≠ idx) :
    (mp_register_ioapic.claim_slot s idx address).ioapics j = s.ioapics j := by
  simp [mp_register_ioapic.claim_slot, ioapic_state.set_slot, hj]

/-- The duplicate-window test as a statement about the slots below `nr_ioapics`. -/
theorem dup_window_eq_false_iff (s : ioapic_state) (address : Nat) :
    (List.range s.nr_ioapics).any (fun i => (s.ioapics i).mp_config.apicaddr == address) = false
      ↔ ∀ i, i < s.nr_ioapics → (s.ioapics i).mp_config.apicaddr ≠ address := by
  simp [List.any_eq_false]

/-- C16: with a non-zero address that no registered controller uses, a free slot and a
gap-free registry (as every registry built by `mp_register_ioapic` is), registering a
controller whose registers 0, 1 and 2 read all-ones returns `-ENODEV`; the chosen slot
keeps `nr_registers = 0`, every register count, `nr_ioapics` and `gsi_top` are unchanged,
the first free slot is the same one afterwards, the duplicate-window test does not see the
address left in the free slot, and a following call with the same address on a present
controller with a writable ID register reaches the range test for that same slot: it
either succeeds and occupies that slot or returns the range-conflict code. If one of the
three registers never reads all-ones, the probe passes and no return is `-ENODEV`. -/
theorem mp_register_ioapic_absent_device (MAX_IO_APICS : Nat) (dev : ioapic_device)
    (kz : Bool) (s : ioapic_state) (id : Int) (address gsi_base : Nat)
    (haddr : address ≠ 0)
    (hfresh : (List.range s.nr_ioapics).any
        (fun i => (s.ioapics i).mp_config.apicaddr == address) = false)
    (hfree : find_free_ioapic_entry MAX_IO_APICS s < MAX_IO_APICS)
    (hgap : s.gap_free) :
    ((∀ (t : List mmio_access) (reg : Nat), reg ≤ 2 →
        dev (t ++ [mmio_access.writel (find_free_ioapic_entry MAX_IO_APICS s) io_apic.index
          reg]) % 2 ^ 32 = 0xFFFFFFFF) →
      ∃ s', mp_register_ioapic MAX_IO_APICS dev kz s id address gsi_base = some (-ENODEV, s')
        ∧ (s'.ioapics (find_free_ioapic_entry MAX_IO_APICS s)).nr_registers = 0
        ∧ s'.nr_ioapics = s.nr_ioapics ∧ s'.gsi_top = s.gsi_top
        ∧ (∀ j, (s'.ioapics j).nr_registers = (s.ioapics j).nr_registers)
        ∧ find_free_ioapic_entry MAX_IO_APICS s' = find_free_ioapic_entry MAX_IO_APICS s
        ∧ (List.range s'.nr_ioapics).any
            (fun i => (s'.ioapics i).mp_config.apicaddr == address) = false
        ∧ ∀ (dev2 : ioapic_device) (kz2 : Bool) (id2 : Int) (gsi_base2 : Nat),
            id_register_writable dev2 →
            (∃ reg, reg ≤ 2 ∧ ∀ t : List mmio_access,
              dev2 (t ++ [mmio_access.writel (find_free_ioapic_entry MAX_IO_APICS s)
                io_apic.index reg]) % 2 ^ 32 ≠ 0xFFFFFFFF) →
            ∃ r, mp_register_ioapic MAX_IO_APICS dev2 kz2 s' id2 address gsi_base2 = some r
              ∧ ((r.1 = 0
                  ∧ 0 < (r.2.ioapics (find_free_ioapic_entry MAX_IO_APICS s)).nr_registers
                  ∧ r.2.nr_ioapics = s.nr_ioapics + 1)
                ∨ (r.1 = -ENOSPC ∧ ∃ entries, mp_register_ioapic.conflict s gsi_base2
                    ((gsi_base2 + entries - 1) % 2 ^ 32) = true)))
    ∧ ((∃ reg, reg ≤ 2 ∧ ∀ t : List mmio_access,
          dev (t ++ [mmio_access.writel (find_free_ioapic_entry MAX_IO_APICS s) io_apic.index
            reg]) % 2 ^ 32 ≠ 0xFFFFFFFF) →
        (bad_ioapic_register dev (mp_register_ioapic.claim_slot s
            (find_free_ioapic_entry MAX_IO_APICS s) address).mmio
            (find_free_ioapic_entry MAX_IO_APICS s)).1 = false
        ∧ ∀ r, mp_register_ioapic MAX_IO_APICS dev kz s id address gsi_base = some r →
            r.1 ≠ -ENODEV) := by
  have hidx := find_free_eq_nr_ioapics MAX_IO_APICS s hgap hfree
  constructor
  · intro hones
    have hbad := bad_ioapic_register_all_ones dev
      (mp_register_ioapic.claim_slot s (find_free_ioapic_entry MAX_IO_APICS s) address).mmio
      (find_free_ioapic_entry MAX_IO_APICS s) hones
    have hv : mp_register_ioapic MAX_IO_APICS dev kz s id address gsi_base
        = some (-ENODEV, { mp_register_ioapic.claim_slot s
            (find_free_ioapic_entry MAX_IO_APICS s) address with
            mmio := (bad_ioapic_register dev (mp_register_ioapic.claim_slot s
              (find_free_ioapic_entry MAX_IO_APICS s) address).mmio
              (find_free_ioapic_entry MAX_IO_APICS s)).2
              ++ [mmio_access.clear_fixmap (find_free_ioapic_entry MAX_IO_APICS s)] }) := by
      unfold mp_register_ioapic
      rw [if_neg haddr]
      dsimp only
      rw [hfresh, if_neg (by simp), if_neg (by omega), hbad, if_pos rfl]
    have hsame : s.same_registry { mp_register_ioapic.claim_slot s
          (find_free_ioapic_entry MAX_IO_APICS s) address with
          mmio := (bad_ioapic_register dev (mp_register_ioapic.claim_slot s
            (find_free_ioapic_entry MAX_IO_APICS s) address).mmio
            (find_free_ioapic_entry MAX_IO_APICS s)).2
            ++ [mmio_access.clear_fixmap (find_free_ioapic_entry MAX_IO_APICS s)] } :=
      same_registry_trans (same_registry_claim_slot s _ address) (same_registry_mmio _ _)
    have hoth : ∀ j, j ≠ find_free_ioapic_entry MAX_IO_APICS s →
        ({ mp_register_ioapic.claim_slot s
          (find_free_ioapic_entry MAX_IO_APICS s) address with
          mmio := (bad_ioapic_register dev (mp_register_ioapic.claim_slot s
            (find_free_ioapic_entry MAX_IO_APICS s) address).mmio
            (find_free_ioapic_entry MAX_IO_APICS s)).2
            ++ [mmio_access.clear_fixmap (find_free_ioapic_entry MAX_IO_APICS s)]
          } : ioapic_state).ioapics j = s.ioapics j :=
      fun j hj => claim_slot_other s _ address j hj
    generalize ({ mp_register_ioapic.claim_slot s
          (find_free_ioapic_entry MAX_IO_APICS s) address with
          mmio := (bad_ioapic_register dev (mp_register_ioapic.claim_slot s
            (find_free_ioapic_entry MAX_IO_APICS s) address).mmio
            (find_free_ioapic_entry MAX_IO_APICS s)).2
            ++ [mmio_access.clear_fixmap (find_free_ioapic_entry MAX_IO_APICS s)]
          } : ioapic_state) = s' at hv hsame hoth
    have hzero : (s.ioapics (find_free_ioapic_entry MAX_IO_APICS s)).nr_registers = 0 := by
      have := (hgap (find_free_ioapic_entry MAX_IO_APICS s)).mpr
      rw [hidx] at this ⊢
      by_contra hne
      exact absurd (this (by omega)) (by omega)
    have hff := find_free_congr MAX_IO_APICS hsame
    have hdup : (List.range s'.nr_ioapics).any
        (fun i => (s'.ioapics i).mp_config.apicaddr == address) = false := by
      rw [dup_window_eq_false_iff] at hfresh ⊢
      intro i hi
      rw [hsame.1] at hi
      rw [hoth i (by omega)]
      exact hfresh i hi
    refine ⟨s', hv, ?_, hsame.1, hsame.2.1, fun j => (hsame.2.2.2 j).1, hff, hdup, ?_⟩
    · rw [(hsame.2.2.2 _).1]; exact hzero
    · intro dev2 kz2 id2 gsi_base2 hw hreg
      obtain ⟨r, hr⟩ := mp_register_ioapic_returns MAX_IO_APICS dev2 hw kz2 s' id2 address
        gsi_base2
      refine ⟨r, hr, ?_⟩
      have hcode := mp_register_ioapic_code MAX_IO_APICS dev2 kz2 s' id2 address gsi_base2 r hr
      rw [hff] at hcode
      rcases hcode with ⟨-, h0⟩ | ⟨-, -, hd⟩ | ⟨-, hfull⟩ | ⟨-, hb⟩ | ⟨hc, -, entries, he⟩ | hok
      · exact absurd h0 haddr
      · rw [hdup] at hd; cases hd
      · omega
      · rw [bad_ioapic_register_some_reg dev2 _ _ hreg] at hb; cases hb
      · right
        refine ⟨hc, entries, ?_⟩
        rw [← conflict_congr hsame]
        exact he
      · left
        rcases mp_register_ioapic_cases MAX_IO_APICS dev2 kz2 s' id2 address gsi_base2 r hr
          with ⟨hne, -⟩ | ⟨-, entries, he1, -, -, -, -, hn, -, -, hnr, -⟩
        · exact absurd hok hne
        · rw [hff] at hn hnr
          refine ⟨hok, by omega, ?_⟩
          rw [hnr, hsame.1, if_pos (by omega), hidx]
  · intro hreg
    have hb := bad_ioapic_register_some_reg dev
      (mp_register_ioapic.claim_slot s (find_free_ioapic_entry MAX_IO_APICS s) address).mmio
      (find_free_ioapic_entry MAX_IO_APICS s) hreg
    refine ⟨hb, ?_⟩
    intro r hr hcode
    rcases mp_register_ioapic_code MAX_IO_APICS dev kz s id address gsi_base r hr with
      ⟨h, -⟩ | ⟨h, -⟩ | ⟨h, -⟩ | ⟨-, h⟩ | ⟨h, -⟩ | h
    · rw [hcode] at h; revert h; decide
    · rw [hcode] at h; revert h; decide
    · rw [hcode] at h; revert h; decide
    · rw [hb] at h; cases h
    · rw [hcode] at h; revert h; decide
    · rw [hcode] at h; revert h; decide

/-- Witness for C16: on the empty registry with 128 slots, a device that reads all-ones
everywhere is rejected with `-ENODEV` and slot 0 stays free. -/
theorem mp_register_ioapic_absent_device_witness :
    (0xFEC00000 ≠ 0)
    ∧ (List.range ioapic_state.empty.nr_ioapics).any
        (fun i => (ioapic_state.empty.ioapics i).mp_config.apicaddr == 0xFEC00000) = false
    ∧ find_free_ioapic_entry 128 ioapic_state.empty < 128
    ∧ ioapic_state.empty.gap_free
    ∧ ∃ s', mp_register_ioapic 128 (fun _ => 0xFFFFFFFF) true ioapic_state.empty 0
          0xFEC00000 0 = some (-ENODEV, s')
        ∧ (s'.ioapics (find_free_ioapic_entry 128 ioapic_state.empty)).nr_registers = 0
        ∧ s'.nr_ioapics = ioapic_state.empty.nr_ioapics
        ∧ find_free_ioapic_entry 128 s' = find_free_ioapic_entry 128 ioapic_state.empty :=
  ⟨by decide, by decide, by decide, gap_free_empty,
   by
    obtain ⟨s', h1, h2, h3, -, -, h6, -⟩ :=
      (mp_register_ioapic_absent_device 128 (fun _ => 0xFFFFFFFF) true ioapic_state.empty 0
        0xFEC00000 0 (by decide) (by decide) (by decide) gap_free_empty).1
        (fun _ _ _ => by decide)
    exact ⟨s', h1, h2, h3, h6⟩⟩

/-! ## Theorems: hardware IDs -/

/-- Bit `b` of the bitmap is set exactly when a slot below `nr_ioapics` carries ID `b`. -/
theorem used_eq_true_iff (s : ioapic_state) (b : Nat) :
    io_apic_unique_id.used s b = true ↔ ∃ i, i < s.nr_ioapics ∧ mpc_ioapic_id s i = b := by
  simp [io_apic_unique_id.used, List.any_eq_true]

/-- Bit `b` of the bitmap is clear exactly when no slot below `nr_ioapics` carries ID `b`. -/
theorem used_eq_false_iff (s : ioapic_state) (b : Nat) :
    io_apic_unique_id.used s b = false ↔ ∀ i, i < s.nr_ioapics → mpc_ioapic_id s i ≠ b := by
  simp [io_apic_unique_id.used, List.any_eq_false]

/-- With fewer than 256 registered controllers some ID below 256 is unused. -/
theorem exists_unused_id (s : ioapic_state) (hn : s.nr_ioapics < 256) :
    ∃ b, b < 256 ∧ io_apic_unique_id.used s b = false := by
  by_contra hall
  have hsub : Finset.range 256 ⊆ (Finset.range s.nr_ioapics).image (mpc_ioapic_id s) := by
    intro b hb
    have hb2 := Finset.mem_range.mp hb
    have hu : io_apic_unique_id.used s b = true := by
      by_contra hu
      exact hall ⟨b, hb2, by simpa using hu⟩
    obtain ⟨i, hi, he⟩ := (used_eq_true_iff s b).mp hu
    exact Finset.mem_image.mpr ⟨i, Finset.mem_range.mpr hi, he⟩
  have h1 := Finset.card_le_card hsub
  have h2 : ((Finset.range s.nr_ioapics).image (mpc_ioapic_id s)).card
      ≤ (Finset.range s.nr_ioapics).card := Finset.card_image_le
  rw [Finset.card_range] at h1 h2
  omega

/-- With fewer than 256 registered controllers `find_first_zero_bit` on the bitmap is the
lowest unused ID. -/
theorem find_first_zero_bit_used (s : ioapic_state) (hn : s.nr_ioapics < 256) :
    find_first_zero_bit (io_apic_unique_id.used s) 256 < 256
    ∧ io_apic_unique_id.used s (find_first_zero_bit (io_apic_unique_id.used s) 256) = false
    ∧ ∀ b, b < find_first_zero_bit (io_apic_unique_id.used s) 256 →
        io_apic_unique_id.used s b = true := by
  unfold find_first_zero_bit
  cases hf : (List.range 256).find? (fun b => !io_apic_unique_id.used s b) with
  | none =>
    exfalso
    obtain ⟨b, hb, hu⟩ := exists_unused_id s hn
    have := (find_range_eq_none _ 256).mp hf b hb
    simp [hu] at this
  | some k =>
    obtain ⟨h1, h2, h3⟩ := (find_range_eq_some _ 256 k).mp hf
    refine ⟨h1, by simpa using h2, ?_⟩
    intro b hb
    have := h3 b hb
    simpa using this

/-- Every ID `io_apic_unique_id` returns is a byte that no slot below `nr_ioapics`
carries, provided fewer than 256 controllers are registered and the request is a byte. -/
theorem io_apic_unique_id_fresh (dev : ioapic_device) (s : ioapic_state) (idx id : Nat)
    (hn : s.nr_ioapics < 256) (hid : id < 256) (p : Nat × List mmio_access)
    (h : io_apic_unique_id dev s idx id = some p) :
    p.1 < 256 ∧ io_apic_unique_id.used s p.1 = false := by
  obtain ⟨l1, l2, -⟩ := find_first_zero_bit_used s hn
  unfold io_apic_unique_id at h
  split at h
  · rename_i hu
    cases h
    exact ⟨hid, by simpa using hu⟩
  dsimp only at h
  split at h
  · rename_i hu
    cases h
    refine ⟨?_, by simpa using hu⟩
    simp only [IO_APIC_reg_00.ID, bitfield_get, Nat.reducePow]
    omega
  split at h
  · cases h
  · cases h
    rw [Nat.mod_eq_of_lt l1]
    exact ⟨l1, l2⟩

/-- Storing the ID and version leaves every other slot alone and puts the ID in the slot. -/
theorem set_ids_slots (s : ioapic_state) (idx a v : Nat) (l : List mmio_access) :
    (∀ j, j ≠ idx → (mp_register_ioapic.set_ids s idx a v l).ioapics j = s.ioapics j)
    ∧ ((mp_register_ioapic.set_ids s idx a v l).ioapics idx).mp_config.apicid = a := by
  constructor
  · intro j hj
    simp [mp_register_ioapic.set_ids, ioapic_state.set_slot, hj]
  · simp [mp_register_ioapic.set_ids, ioapic_state.set_slot]

/-- The commit part of a registration leaves every `mp_config` alone. -/
theorem commit_mp_config (kz hp : Bool) (s : ioapic_state) (idx entries b e j : Nat) :
    ((mp_register_ioapic.commit kz hp s idx entries b e).ioapics j).mp_config
      = (s.ioapics j).mp_config := by
  simp only [mp_register_ioapic.commit, ioapic_state.set_slot, alloc_ioapic_saved_registers]
  cases hp <;> by_cases hj : j = idx <;> simp [hj] <;> split_ifs <;> simp [hj]

/-- The configuration records across a call of `mp_register_ioapic`: only the chosen
slot is written, and on success its ID is the one `io_apic_unique_id` returned for a state
with the same slots below `nr_ioapics`. -/
theorem mp_register_ioapic_ids (MAX_IO_APICS : Nat) (dev : ioapic_device) (kz : Bool)
    (s : ioapic_state) (id : Int) (address gsi_base : Nat) (r : Int × ioapic_state)
    (h : mp_register_ioapic MAX_IO_APICS dev kz s id address gsi_base = some r) :
    (∀ j, (j ≠ find_free_ioapic_entry MAX_IO_APICS s
          ∨ MAX_IO_APICS ≤ find_free_ioapic_entry MAX_IO_APICS s) →
        (r.2.ioapics j).mp_config = (s.ioapics j).mp_config)
    ∧ (r.1 = 0 → ∃ s2 p, s2.nr_ioapics = s.nr_ioapics
        ∧ (∀ j, j ≠ find_free_ioapic_entry MAX_IO_APICS s →
            (s2.ioapics j).mp_config = (s.ioapics j).mp_config)
        ∧ io_apic_unique_id dev s2 (find_free_ioapic_entry MAX_IO_APICS s) (id % 256).toNat
            = some p
        ∧ (r.2.ioapics (find_free_ioapic_entry MAX_IO_APICS s)).mp_config.apicid = p.1) := by
  unfold mp_register_ioapic at h
  by_cases h1 : address = 0
  · rw [if_pos h1] at h; cases h
    exact ⟨fun _ _ => rfl, fun h0 => by simp [EINVAL] at h0⟩
  rw [if_neg h1] at h
  dsimp only at h
  split at h
  · cases h; exact ⟨fun _ _ => rfl, fun h0 => by simp [EEXIST] at h0⟩
  split at h
  · cases h; exact ⟨fun _ _ => rfl, fun h0 => by simp [ENOSPC] at h0⟩
  rename_i hidx
  have hcl := claim_slot_other s (find_free_ioapic_entry MAX_IO_APICS s) address
  split at h
  · cases h
    refine ⟨fun j hj => ?_, fun h0 => by simp [ENODEV] at h0⟩
    rcases hj with hj | hj
    · exact congrArg ioapic.mp_config (hcl j hj)
    · omega
  split at h
  · cases h
  rename_i apicid log3 hu
  obtain ⟨hs1, hs2⟩ := set_ids_slots
      (mp_register_ioapic.claim_slot s (find_free_ioapic_entry MAX_IO_APICS s) address)
      (find_free_ioapic_entry MAX_IO_APICS s) apicid
      (io_apic_get_version dev log3 (find_free_ioapic_entry MAX_IO_APICS s)).1
      (io_apic_get_version dev log3 (find_free_ioapic_entry MAX_IO_APICS s)).2
  generalize mp_register_ioapic.set_ids
      (mp_register_ioapic.claim_slot s (find_free_ioapic_entry MAX_IO_APICS s) address)
      (find_free_ioapic_entry MAX_IO_APICS s) apicid
      (io_apic_get_version dev log3 (find_free_ioapic_entry MAX_IO_APICS s)).1
      (io_apic_get_version dev log3 (find_free_ioapic_entry MAX_IO_APICS s)).2 = s3
    at h hs1 hs2
  generalize io_apic_get_redir_entries dev s3.mmio (find_free_ioapic_entry MAX_IO_APICS s)
    = ent at h
  split at h
  · cases h
    refine ⟨fun j hj => ?_, fun h0 => by simp [ENOSPC] at h0⟩
    rcases hj with hj | hj
    · exact congrArg ioapic.mp_config ((hs1 j hj).trans (hcl j hj))
    · omega
  · cases h
    refine ⟨fun j hj => ?_, fun _ => ⟨_, _, ?_, ?_, hu, ?_⟩⟩
    · rw [commit_mp_config]
      rcases hj with hj | hj
      · exact congrArg ioapic.mp_config ((hs1 j hj).trans (hcl j hj))
      · omega
    · rfl
    · intro j hj
      exact congrArg ioapic.mp_config (hcl j hj)
    · rw [commit_mp_config]
      exact hs2

/-- The bitmap only depends on the IDs of the slots below `nr_ioapics`. -/
theorem used_congr (s t : ioapic_state) (hn : t.nr_ioapics = s.nr_ioapics)
    (h : ∀ j, j < s.nr_ioapics → (t.ioapics j).mp_config = (s.ioapics j).mp_config) (b : Nat) :
    io_apic_unique_id.used t b = io_apic_unique_id.used s b := by
  cases hs : io_apic_unique_id.used s b with
  | false =>
    rw [used_eq_false_iff] at hs ⊢
    intro i hi
    rw [hn] at hi
    have := hs i hi
    simpa [mpc_ioapic_id, h i hi] using this
  | true =>
    rw [used_eq_true_iff] at hs ⊢
    obtain ⟨i, hi, he⟩ := hs
    exact ⟨i, by omega, by simpa [mpc_ioapic_id, h i hi] using he⟩

/-- A call of `mp_register_ioapic` on a gap-free registry keeps the hardware IDs of the
registered controllers pairwise different, provided fewer than 256 controllers are
registered whenever a slot is free. -/
theorem ids_unique_step (MAX_IO_APICS : Nat) (dev : ioapic_device) (kz : Bool)
    (s : ioapic_state) (id : Int) (address gsi_base : Nat) (r : Int × ioapic_state)
    (h : mp_register_ioapic MAX_IO_APICS dev kz s id address gsi_base = some r)
    (hn : find_free_ioapic_entry MAX_IO_APICS s < MAX_IO_APICS → s.nr_ioapics < 256)
    (hgap : s.gap_free) (hs : s.ids_unique) : r.2.ids_unique := by
  obtain ⟨hfr, hok⟩ := mp_register_ioapic_ids MAX_IO_APICS dev kz s id address gsi_base r h
  have hlow : ∀ j, j < s.nr_ioapics →
      (r.2.ioapics j).mp_config = (s.ioapics j).mp_config := by
    intro j hj
    apply hfr
    by_cases hlt : find_free_ioapic_entry MAX_IO_APICS s < MAX_IO_APICS
    · left
      rw [find_free_eq_nr_ioapics MAX_IO_APICS s hgap hlt]
      omega
    · right; omega
  rcases mp_register_ioapic_cases MAX_IO_APICS dev kz s id address gsi_base r h with
    ⟨-, hsame⟩ | ⟨h0, entries, -, -, -, hlt, -, -, -, -, hnr, -⟩
  · intro i j hi hj he
    rw [hsame.1] at hi hj
    apply hs i j hi hj
    simpa [mpc_ioapic_id, hlow i hi, hlow j hj] using he
  · have hidx := find_free_eq_nr_ioapics MAX_IO_APICS s hgap hlt
    obtain ⟨s2, p, hn2, hcfg, hu, hid⟩ := hok h0
    have hn := hn hlt
    rw [hidx] at hnr hcfg hu hid
    rw [if_pos (le_refl _)] at hnr
    have hfresh := io_apic_unique_id_fresh dev s2 s.nr_ioapics (id % 256).toNat
      (by omega) (by omega) p hu
    have hused : io_apic_unique_id.used s p.1 = false := by
      rw [← used_congr s s2 hn2 (fun j hj => hcfg j (by omega))]
      exact hfresh.2
    rw [used_eq_false_iff] at hused
    have hnew : mpc_ioapic_id r.2 s.nr_ioapics = p.1 := hid
    have hold : ∀ j, j < s.nr_ioapics → mpc_ioapic_id r.2 j = mpc_ioapic_id s j := by
      intro j hj
      simp [mpc_ioapic_id, hlow j hj]
    intro i j hi hj he
    rw [hnr] at hi hj
    by_cases ci : i = s.nr_ioapics <;> by_cases cj : j = s.nr_ioapics
    · omega
    · exfalso
      rw [ci, hnew, hold j (by omega)] at he
      exact hused j (by omega) he.symm
    · exfalso
      rw [cj, hnew, hold i (by omega)] at he
      exact hused i (by omega) he
    · rw [hold i (by omega), hold j (by omega)] at he
      exact hs i j (by omega) (by omega) he

/-- A sequence of calls with at most 256 slots keeps the hardware IDs of the registered
controllers pairwise different. -/
theorem ids_unique_seq (MAX_IO_APICS : Nat) (dev : ioapic_device) (hmax : MAX_IO_APICS ≤ 256)
    (calls : List register_call) :
    ∀ s t : ioapic_state, s.gap_free → s.ids_unique →
      mp_register_ioapic_seq MAX_IO_APICS dev s calls = some t → t.ids_unique := by
  induction calls with
  | nil => intro s t _ hs h; simp [mp_register_ioapic_seq] at h; subst h; exact hs
  | cons c cs ih =>
    intro s t hg hs h
    unfold mp_register_ioapic_seq at h
    split at h
    · cases h
    · rename_i r hr
      refine ih r.2 t (gap_free_step _ _ _ _ _ _ _ r hr hg) ?_ h
      refine ids_unique_step _ _ _ _ _ _ _ r hr (fun hlt => ?_) hg hs
      rw [← find_free_eq_nr_ioapics MAX_IO_APICS s hg hlt]
      omega

/-- C17: for a registry with fewer than 256 registered controllers and a requested ID
below 256, `io_apic_unique_id` returns the requested ID if no slot below `nr_ioapics`
carries it; otherwise the ID read from register 0 if no slot carries that; otherwise it
writes the lowest ID below 256 that no slot carries into register 0 and, when the
read-back check passes (as it does on a writable ID register), returns that ID. Every ID
it returns is below 256 and differs from the ID of every slot below `nr_ioapics`, and a
call of `mp_register_ioapic` on a gap-free registry with pairwise different IDs leaves the
IDs of the registered controllers pairwise different. -/
theorem io_apic_unique_id_spec (MAX_IO_APICS : Nat) (dev : ioapic_device) (s : ioapic_state)
    (idx id : Nat) (hn : s.nr_ioapics < 256) (hid : id < 256) :
    (io_apic_unique_id.used s id = false →
      io_apic_unique_id dev s idx id = some (id, s.mmio))
    ∧ (io_apic_unique_id.used s id = true →
        io_apic_unique_id.used s (IO_APIC_reg_00.ID (io_apic_read dev s.mmio idx 0).1) = false →
        io_apic_unique_id dev s idx id
          = some (IO_APIC_reg_00.ID (io_apic_read dev s.mmio idx 0).1,
              (io_apic_read dev s.mmio idx 0).2))
    ∧ (io_apic_unique_id.used s id = true →
        io_apic_unique_id.used s (IO_APIC_reg_00.ID (io_apic_read dev s.mmio idx 0).1) = true →
        (find_first_zero_bit (io_apic_unique_id.used s) 256 < 256
          ∧ io_apic_unique_id.used s (find_first_zero_bit (io_apic_unique_id.used s) 256)
              = false
          ∧ ∀ b, b < find_first_zero_bit (io_apic_unique_id.used s) 256 →
              io_apic_unique_id.used s b = true)
        ∧ IO_APIC_reg_00.ID (IO_APIC_reg_00.set_ID (io_apic_read dev s.mmio idx 0).1
            (find_first_zero_bit (io_apic_unique_id.used s) 256))
            = find_first_zero_bit (io_apic_unique_id.used s) 256
        ∧ (∀ p, io_apic_unique_id dev s idx id = some p →
            p = (find_first_zero_bit (io_apic_unique_id.used s) 256,
              (io_apic_read dev (io_apic_write (io_apic_read dev s.mmio idx 0).2 idx 0
                (IO_APIC_reg_00.set_ID (io_apic_read dev s.mmio idx 0).1
                  (find_first_zero_bit (io_apic_unique_id.used s) 256))) idx 0).2))
        ∧ (id_register_writable dev →
            io_apic_unique_id dev s idx id
              = some (find_first_zero_bit (io_apic_unique_id.used s) 256,
                (io_apic_read dev (io_apic_write (io_apic_read dev s.mmio idx 0).2 idx 0
                  (IO_APIC_reg_00.set_ID (io_apic_read dev s.mmio idx 0).1
                    (find_first_zero_bit (io_apic_unique_id.used s) 256))) idx 0).2)))
    ∧ (∀ p, io_apic_unique_id dev s idx id = some p →
        p.1 < 256 ∧ ∀ i, i < s.nr_ioapics → mpc_ioapic_id s i ≠ p.1)
    ∧ (∀ (kz : Bool) (reqid : Int) (address gsi_base : Nat) (r : Int × ioapic_state),
        s.gap_free → s.ids_unique →
        mp_register_ioapic MAX_IO_APICS dev kz s reqid address gsi_base = some r →
        r.2.ids_unique) := by
  obtain ⟨l1, l2, l3⟩ := find_first_zero_bit_used s hn
  have hthird : io_apic_unique_id.used s id = true →
      io_apic_unique_id.used s (IO_APIC_reg_00.ID (io_apic_read dev s.mmio idx 0).1) = true →
      ∀ p, io_apic_unique_id dev s idx id = some p →
        p = (find_first_zero_bit (io_apic_unique_id.used s) 256,
          (io_apic_read dev (io_apic_write (io_apic_read dev s.mmio idx 0).2 idx 0
            (IO_APIC_reg_00.set_ID (io_apic_read dev s.mmio idx 0).1
              (find_first_zero_bit (io_apic_unique_id.used s) 256))) idx 0).2) := by
    intro h1 h2 p hp
    unfold io_apic_unique_id at hp
    rw [h1] at hp
    simp only [Bool.not_true, Bool.false_eq_true, if_false] at hp
    rw [h2] at hp
    simp only [Bool.not_true, Bool.false_eq_true, if_false, Nat.mod_eq_of_lt l1] at hp
    split at hp
    · cases hp
    · cases hp; rfl
  refine ⟨?_, ?_, ?_, ?_, ?_⟩
  · intro h
    simp [io_apic_unique_id, h]
  · intro h1 h2
    unfold io_apic_unique_id
    rw [h1]
    simp only [Bool.not_true, Bool.false_eq_true, if_false]
    rw [h2]
    simp
  · intro h1 h2
    refine ⟨⟨l1, l2, l3⟩, ?_, hthird h1 h2, ?_⟩
    · rw [IO_APIC_reg_00.ID_set_ID, Nat.mod_eq_of_lt l1]
    · intro hw
      obtain ⟨p, hp⟩ := io_apic_unique_id_returns dev hw s idx id
      rw [hp, hthird h1 h2 p hp]
  · intro p hp
    obtain ⟨a, b⟩ := io_apic_unique_id_fresh dev s idx id hn hid p hp
    exact ⟨a, (used_eq_false_iff s p.1).mp b⟩
  · intro kz reqid address gsi_base r hg hs hr
    exact ids_unique_step MAX_IO_APICS dev kz s reqid address gsi_base r hr (fun _ => hn) hg hs

/-- Witness for C17: after the two registrations of the scenario (IDs 0 and 1), a third
controller that asks for ID 0 and whose register 0 also reports ID 0 gets ID 2. -/
theorem io_apic_unique_id_spec_witness :
    (registry_after 128 scenario_device scenario_calls).nr_ioapics < 256
    ∧ (0 : Nat) < 256
    ∧ io_apic_unique_id.used (registry_after 128 scenario_device scenario_calls) 0 = true
    ∧ (io_apic_unique_id scenario_device (registry_after 128 scenario_device scenario_calls)
        2 0).map Prod.fst = some 2 :=
  ⟨by decide, by decide, by decide,
   by
    have h := (io_apic_unique_id_spec 128 scenario_device
      (registry_after 128 scenario_device scenario_calls) 2 0 (by decide)
      (by decide)).2.2.1 (by decide) (by decide)
    rw [h.2.2.2 (ioapic_model_id_register_writable _)]
    decide⟩

/-! ## Theorems: legacy source table -/

/-- The scan finds `m` exactly when a record below `mp_irq_entries` equals `m`. -/
theorem has_eq_true_iff (t : mp_irq_table) (m : mpc_intsrc) :
    t.has m = true ↔ ∃ i, i < t.mp_irq_entries ∧ t.mp_irqs i = m := by
  simp [mp_irq_table.has, List.any_eq_true]

/-- The scan misses `m` exactly when no record below `mp_irq_entries` equals `m`. -/
theorem has_eq_false_iff (t : mp_irq_table) (m : mpc_intsrc) :
    t.has m = false ↔ ∀ i, i < t.mp_irq_entries → t.mp_irqs i ≠ m := by
  simp [mp_irq_table.has, List.any_eq_false]

/-- What `mp_save_irq` does to the table when `m` is new. -/
theorem mp_save_irq_new (MAX_IRQ_SOURCES : Nat) (t : mp_irq_table) (m : mpc_intsrc)
    (h : t.has m = false) :
    (mp_save_irq MAX_IRQ_SOURCES t m).table.mp_irqs t.mp_irq_entries = m
    ∧ (mp_save_irq MAX_IRQ_SOURCES t m).table.mp_irq_entries = t.mp_irq_entries + 1
    ∧ (∀ j, j ≠ t.mp_irq_entries →
        (mp_save_irq MAX_IRQ_SOURCES t m).table.mp_irqs j = t.mp_irqs j)
    ∧ (mp_save_irq MAX_IRQ_SOURCES t m).panicked
        = decide (t.mp_irq_entries + 1 = MAX_IRQ_SOURCES) := by
  simp only [mp_save_irq, h, Bool.false_eq_true, if_false, if_true, true_and]
  exact ⟨fun j hj => by simp [hj], trivial⟩

/-- After `mp_save_irq` the table holds `m`. -/
theorem mp_save_irq_has (MAX_IRQ_SOURCES : Nat) (t : mp_irq_table) (m : mpc_intsrc) :
    (mp_save_irq MAX_IRQ_SOURCES t m).table.has m = true := by
  cases h : t.has m with
  | true => simp [mp_save_irq, h]
  | false =>
    obtain ⟨a, b, -⟩ := mp_save_irq_new MAX_IRQ_SOURCES t m h
    rw [has_eq_true_iff]
    exact ⟨t.mp_irq_entries, by omega, a⟩

/-- A call of `mp_save_irq` keeps the records pairwise different. -/
theorem mp_save_irq_no_dup (MAX_IRQ_SOURCES : Nat) (t : mp_irq_table) (m : mpc_intsrc)
    (ht : t.no_dup) : (mp_save_irq MAX_IRQ_SOURCES t m).table.no_dup := by
  cases h : t.has m with
  | true =>
    have : mp_save_irq MAX_IRQ_SOURCES t m = { table := t, panicked := false } := by
      simp [mp_save_irq, h]
    rw [this]; exact ht
  | false =>
    obtain ⟨a, b, c, -⟩ := mp_save_irq_new MAX_IRQ_SOURCES t m h
    rw [has_eq_false_iff] at h
    intro i j hi hj he
    rw [b] at hi hj
    by_cases ci : i = t.mp_irq_entries <;> by_cases cj : j = t.mp_irq_entries
    · omega
    · exfalso
      rw [ci, a, c j cj] at he
      exact h j (by omega) he.symm
    · exfalso
      rw [cj, a, c i ci] at he
      exact h i (by omega) he
    · rw [c i ci, c j cj] at he
      exact ht i j (by omega) (by omega) he

/-- A sequence of `mp_save_irq` calls keeps the records pairwise different. -/
theorem mp_save_irq_seq_no_dup (MAX_IRQ_SOURCES : Nat) (ms : List mpc_intsrc) :
    ∀ t u : mp_irq_table, t.no_dup → mp_save_irq_seq MAX_IRQ_SOURCES t ms = some u →
      u.no_dup := by
  induction ms with
  | nil => intro t u ht h; simp [mp_save_irq_seq] at h; subst h; exact ht
  | cons m ms ih =>
    intro t u ht h
    unfold mp_save_irq_seq at h
    split at h
    · cases h
    · exact ih _ u (mp_save_irq_no_dup MAX_IRQ_SOURCES t m ht) h

/-- C18: `mp_save_irq` returns with the table and the count unchanged when a record equal
to `m` is below `mp_irq_entries`; otherwise it stores `m` at index `mp_irq_entries`, adds
one to the count and leaves every other record where it was. Recording `m` again changes
nothing and cannot panic, a call keeps the records pairwise different, and every table
reached from the empty one by a sequence of calls holds no two equal records. -/
theorem mp_save_irq_coalesces (MAX_IRQ_SOURCES : Nat) (t : mp_irq_table) (m : mpc_intsrc) :
    (t.has m = true → mp_save_irq MAX_IRQ_SOURCES t m = { table := t, panicked := false })
    ∧ (t.has m = false →
        (mp_save_irq MAX_IRQ_SOURCES t m).table.mp_irqs t.mp_irq_entries = m
        ∧ (mp_save_irq MAX_IRQ_SOURCES t m).table.mp_irq_entries = t.mp_irq_entries + 1
        ∧ ∀ j, j ≠ t.mp_irq_entries →
            (mp_save_irq MAX_IRQ_SOURCES t m).table.mp_irqs j = t.mp_irqs j)
    ∧ mp_save_irq MAX_IRQ_SOURCES (mp_save_irq MAX_IRQ_SOURCES t m).table m
        = { table := (mp_save_irq MAX_IRQ_SOURCES t m).table, panicked := false }
    ∧ (t.no_dup → (mp_save_irq MAX_IRQ_SOURCES t m).table.no_dup)
    ∧ (∀ (ms : List mpc_intsrc) (u : mp_irq_table),
        mp_save_irq_seq MAX_IRQ_SOURCES mp_irq_table.empty ms = some u → u.no_dup) := by
  refine ⟨?_, ?_, ?_, mp_save_irq_no_dup MAX_IRQ_SOURCES t m, ?_⟩
  · intro h
    simp [mp_save_irq, h]
  · intro h
    obtain ⟨a, b, c, -⟩ := mp_save_irq_new MAX_IRQ_SOURCES t m h
    exact ⟨a, b, c⟩
  · have h := mp_save_irq_has MAX_IRQ_SOURCES t m
    generalize (mp_save_irq MAX_IRQ_SOURCES t m).table = t1 at h
    simp [mp_save_irq, h]
  · intro ms u h
    refine mp_save_irq_seq_no_dup MAX_IRQ_SOURCES ms mp_irq_table.empty u ?_ h
    intro i j hi
    simp [mp_irq_table.empty] at hi

/-- Witness for C18: recording IRQ 1, IRQ 2 and IRQ 1 again from the empty table leaves
two records, IRQ 1 at index 0 and IRQ 2 at index 1. -/
theorem mp_save_irq_coalesces_witness :
    (mp_save_irq 256 (mp_save_irq 256 (mp_save_irq 256 mp_irq_table.empty
        (example_intsrc 1)).table (example_intsrc 2)).table (example_intsrc 1))
      = { table := (mp_save_irq 256 (mp_save_irq 256 mp_irq_table.empty
            (example_intsrc 1)).table (example_intsrc 2)).table, panicked := false }
    ∧ (mp_save_irq 256 (mp_save_irq 256 mp_irq_table.empty
        (example_intsrc 1)).table (example_intsrc 2)).table.mp_irq_entries = 2 :=
  ⟨(mp_save_irq_coalesces 256 (mp_save_irq 256 (mp_save_irq 256 mp_irq_table.empty
      (example_intsrc 1)).table (example_intsrc 2)).table (example_intsrc 1)).1 (by decide),
   by decide⟩

/-- C19 (the code breaks the claim): `mp_save_irq` ends in `panic` exactly when a new
record brings the count to `MAX_IRQ_SOURCES`, not when the capacity would be exceeded. A
table holding `MAX_IRQ_SOURCES - 1` records is below capacity, yet recording a new record
stores it in the last slot and then panics, so a table with all `MAX_IRQ_SOURCES` slots
in use is never returned; below that count a new record is stored without a panic. -/
theorem mp_save_irq_panics_when_full (MAX_IRQ_SOURCES : Nat) (t : mp_irq_table)
    (m : mpc_intsrc) :
    ((mp_save_irq MAX_IRQ_SOURCES t m).panicked = true
      ↔ t.has m = false ∧ t.mp_irq_entries + 1 = MAX_IRQ_SOURCES)
    ∧ (t.has m = false → t.mp_irq_entries + 1 = MAX_IRQ_SOURCES →
        t.mp_irq_entries < MAX_IRQ_SOURCES
        ∧ (mp_save_irq MAX_IRQ_SOURCES t m).panicked = true
        ∧ (mp_save_irq MAX_IRQ_SOURCES t m).table.mp_irq_entries = MAX_IRQ_SOURCES
        ∧ (mp_save_irq MAX_IRQ_SOURCES t m).table.mp_irqs t.mp_irq_entries = m)
    ∧ (t.has m = false → t.mp_irq_entries + 1 < MAX_IRQ_SOURCES →
        (mp_save_irq MAX_IRQ_SOURCES t m).panicked = false
        ∧ (mp_save_irq MAX_IRQ_SOURCES t m).table.mp_irq_entries = t.mp_irq_entries + 1) := by
  refine ⟨?_, ?_, ?_⟩
  · cases h : t.has m with
    | true => simp [mp_save_irq, h]
    | false =>
      obtain ⟨-, -, -, d⟩ := mp_save_irq_new MAX_IRQ_SOURCES t m h
      rw [d]
      simp
  · intro h hfull
    obtain ⟨a, b, -, d⟩ := mp_save_irq_new MAX_IRQ_SOURCES t m h
    refine ⟨by omega, ?_, by omega, a⟩
    rw [d]
    simpa using hfull
  · intro h hlt
    obtain ⟨-, b, -, d⟩ := mp_save_irq_new MAX_IRQ_SOURCES t m h
    refine ⟨?_, b⟩
    rw [d]
    simp only [decide_eq_false_iff_not]
    omega

/-- Failing input for C19: with a capacity of 4 records, a table holding the 3 records
IRQ 1, IRQ 2 and IRQ 3 is below capacity, and recording the new record IRQ 4 panics. -/
theorem mp_save_irq_panics_when_full_witness :
    (mp_save_irq_seq 4 mp_irq_table.empty
        [example_intsrc 1, example_intsrc 2, example_intsrc 3]).isSome = true
    ∧ (mp_save_irq 4 (mp_save_irq 4 (mp_save_irq 4 mp_irq_table.empty
        (example_intsrc 1)).table (example_intsrc 2)).table
        (example_intsrc 3)).table.mp_irq_entries = 3
    ∧ (mp_save_irq 4 (mp_save_irq 4 (mp_save_irq 4 (mp_save_irq 4 mp_irq_table.empty
        (example_intsrc 1)).table (example_intsrc 2)).table
        (example_intsrc 3)).table (example_intsrc 4)).panicked = true
    ∧ (mp_save_irq_seq 4 mp_irq_table.empty
        [example_intsrc 1, example_intsrc 2, example_intsrc 3, example_intsrc 4]).isNone
          = true :=
  ⟨by decide, by decide,
   ((mp_save_irq_panics_when_full 4 (mp_save_irq 4 (mp_save_irq 4 (mp_save_irq 4
      mp_irq_table.empty (example_intsrc 1)).table (example_intsrc 2)).table
      (example_intsrc 3)).table (example_intsrc 4)).2.1 (by decide) (by decide)).2.1,
   by decide⟩

/-! ## Theorems: registration error codes -/

/-- C20 (counterexample): after the two registrations of the scenario, a registration
whose range overlaps [0, 23] returns `-ENOSPC`; with only 2 slots a registration with a
free range returns `-ENOSPC` as well; and a registration with the register window of
controller 0 returns `-EEXIST`. The overlap code equals the no-slot code and differs from
the duplicate-window code. -/
theorem mp_register_ioapic_overlap_code :
    (mp_register_ioapic 128 scenario_device true
        (registry_after 128 scenario_device scenario_calls) 2 0xFEC02000 20).map Prod.fst
      = some (-ENOSPC)
    ∧ (mp_register_ioapic 2 scenario_device true
        (registry_after 2 scenario_device scenario_calls) 2 0xFEC02000 32).map Prod.fst
      = some (-ENOSPC)
    ∧ (mp_register_ioapic 128 scenario_device true
        (registry_after 128 scenario_device scenario_calls) 2 0xFEC00000 32).map Prod.fst
      = some (-EEXIST)
    ∧ (registry_after 2 scenario_device scenario_calls).nr_ioapics = 2
    ∧ -ENOSPC ≠ -EEXIST := by
  decide

/-- C20 (amended): `mp_register_ioapic` returns `-EINVAL` for a zero address, `-EEXIST`
for the register window of a registered controller, `-ENOSPC` when no slot is free, and
also `-ENOSPC` when the controller passes the probe, its ID register is writable and its
base or end lies in the range of a registered controller. The code of a range overlap is
the code of an exhausted registry and differs from the code of a duplicate window. -/
theorem mp_register_ioapic_error_codes (MAX_IO_APICS : Nat) (dev : ioapic_device)
    (kz : Bool) (s : ioapic_state) (id : Int) (address gsi_base : Nat) :
    (address = 0 →
      mp_register_ioapic MAX_IO_APICS dev kz s id address gsi_base = some (-EINVAL, s))
    ∧ (address ≠ 0 →
        (List.range s.nr_ioapics).any
          (fun i => (s.ioapics i).mp_config.apicaddr == address) = true →
        mp_register_ioapic MAX_IO_APICS dev kz s id address gsi_base = some (-EEXIST, s))
    ∧ (address ≠ 0 →
        (List.range s.nr_ioapics).any
          (fun i => (s.ioapics i).mp_config.apicaddr == address) = false →
        MAX_IO_APICS ≤ find_free_ioapic_entry MAX_IO_APICS s →
        mp_register_ioapic MAX_IO_APICS dev kz s id address gsi_base = some (-ENOSPC, s))
    ∧ (address ≠ 0 →
        (List.range s.nr_ioapics).any
          (fun i => (s.ioapics i).mp_config.apicaddr == address) = false →
        find_free_ioapic_entry MAX_IO_APICS s < MAX_IO_APICS →
        (bad_ioapic_register dev (mp_register_ioapic.claim_slot s
          (find_free_ioapic_entry MAX_IO_APICS s) address).mmio
          (find_free_ioapic_entry MAX_IO_APICS s)).1 = false →
        id_register_writable dev →
        (∃ i, i < s.nr_ioapics ∧
          ((mp_ioapic_gsi_routing s i).contains gsi_base = true
            ∨ ∃ n, reports_entries dev (find_free_ioapic_entry MAX_IO_APICS s) n
                ∧ (mp_ioapic_gsi_routing s i).contains ((gsi_base + (n + 1) - 1) % 2 ^ 32)
                    = true)) →
        ∃ s', mp_register_ioapic MAX_IO_APICS dev kz s id address gsi_base
            = some (-ENOSPC, s')
          ∧ s.same_registry s')
    ∧ -ENOSPC ≠ -EEXIST := by
  refine ⟨?_, ?_, ?_, ?_, by decide⟩
  · intro h
    simp [mp_register_ioapic, h]
  · intro h hd
    unfold mp_register_ioapic
    rw [if_neg h]
    dsimp only
    rw [hd, if_pos rfl]
  · intro h hd hfull
    unfold mp_register_ioapic
    rw [if_neg h]
    dsimp only
    rw [hd, if_neg (by simp), if_pos hfull]
  · intro h hd hfree hbad hw hc
    obtain ⟨r, hr⟩ := mp_register_ioapic_returns MAX_IO_APICS dev hw kz s id address gsi_base
    have hcode : r.1 = -ENOSPC := by
      rcases mp_register_ioapic_code MAX_IO_APICS dev kz s id address gsi_base r hr with
        ⟨-, h0⟩ | ⟨-, -, hd2⟩ | ⟨hcode, -⟩ | ⟨-, hb⟩ | ⟨hcode, -⟩ | hok
      · exact absurd h0 h
      · rw [hd] at hd2; cases hd2
      · exact hcode
      · rw [hbad] at hb; cases hb
      · exact hcode
      · exfalso
        rcases mp_register_ioapic_cases MAX_IO_APICS dev kz s id address gsi_base r hr with
          ⟨h0, -⟩ | ⟨-, entries, -, -, -, -, -, -, -, hconf, -, -, -, t, ht⟩
        · exact h0 hok
        · have : mp_register_ioapic.conflict s gsi_base
              ((gsi_base + entries - 1) % 2 ^ 32) = true := by
            rw [conflict_eq_true_iff]
            obtain ⟨i, hi, hci⟩ := hc
            refine ⟨i, hi, ?_⟩
            rcases hci with hb | ⟨n, hn, he⟩
            · exact Or.inl hb
            · right
              rw [ht, hn t]
              exact he
          rw [this] at hconf
          cases hconf
    have hsame : s.same_registry r.2 := by
      rcases mp_register_ioapic_cases MAX_IO_APICS dev kz s id address gsi_base r hr with
        ⟨-, hs⟩ | ⟨h0, -⟩
      · exact hs
      · exfalso; rw [hcode] at h0; revert h0; decide
    refine ⟨r.2, ?_, hsame⟩
    rw [hr, ← hcode]

/-- Witness for C20 (amended): in the scenario a registration at GSI base 20 on a present
controller returns `-ENOSPC`. -/
theorem mp_register_ioapic_error_codes_witness :
    ∃ s', mp_register_ioapic 128 scenario_device true
        (registry_after 128 scenario_device scenario_calls) 2 0xFEC02000 20
          = some (-ENOSPC, s')
      ∧ (registry_after 128 scenario_device scenario_calls).same_registry s' :=
  (mp_register_ioapic_error_codes 128 scenario_device true
    (registry_after 128 scenario_device scenario_calls) 2 0xFEC02000 20).2.2.2.1
    (by decide) (by decide) (by decide) (by decide)
    (ioapic_model_id_register_writable _) ⟨0, by decide, Or.inl (by decide)⟩

/-! ## Theorems: range arithmetic and high-water marks -/

/-- C21 (counterexample): on the empty registry a controller with 24 entries registered at
GSI base 0xFFFFFFF0 succeeds, and the slot holds `gsi_base = 0xFFFFFFF0` and `gsi_end = 7`:
the end wrapped around modulo 2^32 and lies below the base. -/
theorem mp_register_ioapic_range_wraps :
    (mp_register_ioapic 128 scenario_device true ioapic_state.empty 0 0xFEC00000
        0xFFFFFFF0).map
      (fun r => (r.1, (r.2.ioapics 0).nr_registers, (r.2.ioapics 0).gsi_config))
      = some (0, 24, { gsi_base := 0xFFFFFFF0, gsi_end := 7 }) := by
  decide

/-- C21 (amended): after a successful `mp_register_ioapic` with a 32-bit `gsi_base`, the
registered slot has `nr_registers` equal to the entries field read from register 1 plus
one, between 1 and 256, the given `gsi_base`, and `gsi_end` equal to
`gsi_base + nr_registers - 1` modulo 2^32. When `gsi_base + nr_registers` is at most 2^32
the end is `gsi_base + nr_registers - 1` without wrap-around and `gsi_base <= gsi_end`;
otherwise the end wraps around and lies below `gsi_base`. -/
theorem mp_register_ioapic_range_spec (MAX_IO_APICS : Nat) (dev : ioapic_device) (kz : Bool)
    (s : ioapic_state) (id : Int) (address gsi_base : Nat) (r : Int × ioapic_state)
    (hb : gsi_base < 2 ^ 32)
    (h : mp_register_ioapic MAX_IO_APICS dev kz s id address gsi_base = some r)
    (h0 : r.1 = 0) :
    (∃ t : List mmio_access,
      (r.2.ioapics (find_free_ioapic_entry MAX_IO_APICS s)).nr_registers
        = IO_APIC_reg_01.entries (dev (t ++ [mmio_access.writel
            (find_free_ioapic_entry MAX_IO_APICS s) io_apic.index 1]) % 2 ^ 32) + 1)
    ∧ 0 < (r.2.ioapics (find_free_ioapic_entry MAX_IO_APICS s)).nr_registers
    ∧ (r.2.ioapics (find_free_ioapic_entry MAX_IO_APICS s)).nr_registers ≤ 256
    ∧ (r.2.ioapics (find_free_ioapic_entry MAX_IO_APICS s)).gsi_config.gsi_base = gsi_base
    ∧ (r.2.ioapics (find_free_ioapic_entry MAX_IO_APICS s)).gsi_config.gsi_end
        = (gsi_base + (r.2.ioapics (find_free_ioapic_entry MAX_IO_APICS s)).nr_registers - 1)
            % 2 ^ 32
    ∧ (gsi_base + (r.2.ioapics (find_free_ioapic_entry MAX_IO_APICS s)).nr_registers ≤ 2 ^ 32 →
        (r.2.ioapics (find_free_ioapic_entry MAX_IO_APICS s)).gsi_config.gsi_end
          = gsi_base + (r.2.ioapics (find_free_ioapic_entry MAX_IO_APICS s)).nr_registers - 1
        ∧ gsi_base ≤ (r.2.ioapics (find_free_ioapic_entry MAX_IO_APICS s)).gsi_config.gsi_end)
    ∧ (2 ^ 32 < gsi_base + (r.2.ioapics (find_free_ioapic_entry MAX_IO_APICS s)).nr_registers →
        (r.2.ioapics (find_free_ioapic_entry MAX_IO_APICS s)).gsi_config.gsi_end
          = gsi_base + (r.2.ioapics (find_free_ioapic_entry MAX_IO_APICS s)).nr_registers - 1
              - 2 ^ 32
        ∧ (r.2.ioapics (find_free_ioapic_entry MAX_IO_APICS s)).gsi_config.gsi_end
            < gsi_base) := by
  rcases mp_register_ioapic_cases MAX_IO_APICS dev kz s id address gsi_base r h with
    ⟨hne, -⟩ | ⟨-, entries, he1, he2, -, -, -, hn, hg, -, -, -, -, t, ht⟩
  · exact absurd h0 hne
  · rw [hn, hg]
    dsimp only
    refine ⟨⟨t, ht⟩, by omega, he2, rfl, rfl, ?_, ?_⟩
    · intro hfit
      omega
    · intro hwrap
      omega

/-- Witness for C21 (amended): the first registration of the scenario, 24 entries at GSI
base 0, succeeds and stores the base 0 and a positive register count. -/
theorem mp_register_ioapic_range_spec_witness :
    (0 : Nat) < 2 ^ 32
    ∧ ∃ r, mp_register_ioapic 128 scenario_device true ioapic_state.empty 0 0xFEC00000 0
          = some r
        ∧ r.1 = 0
        ∧ (r.2.ioapics (find_free_ioapic_entry 128 ioapic_state.empty)).gsi_config.gsi_base = 0
        ∧ 0 < (r.2.ioapics (find_free_ioapic_entry 128 ioapic_state.empty)).nr_registers := by
  have hm : (mp_register_ioapic 128 scenario_device true ioapic_state.empty 0 0xFEC00000
      0).map Prod.fst = some 0 := by decide
  cases hr : mp_register_ioapic 128 scenario_device true ioapic_state.empty 0 0xFEC00000 0 with
  | none => rw [hr] at hm; cases hm
  | some r =>
    rw [hr] at hm
    have h0 : r.1 = 0 := by simpa using hm
    have hspec := mp_register_ioapic_range_spec 128 scenario_device true ioapic_state.empty 0
      0xFEC00000 0 r (by decide) hr h0
    exact ⟨by decide, r, rfl, h0, hspec.2.2.2.1, hspec.2.1⟩

/-- With a writable ID register a sequence of calls never stops at the `BUG_ON`. -/
theorem mp_register_ioapic_seq_returns (MAX_IO_APICS : Nat) (dev : ioapic_device)
    (hw : id_register_writable dev) (calls : List register_call) :
    ∀ s, (mp_register_ioapic_seq MAX_IO_APICS dev s calls).isSome = true := by
  induction calls with
  | nil => intro s; rfl
  | cons c cs ih =>
    intro s
    obtain ⟨r, hr⟩ := mp_register_ioapic_returns MAX_IO_APICS dev hw c.kzalloc_ok s c.id
      c.address c.gsi_base
    unfold mp_register_ioapic_seq
    rw [hr]
    exact ih r.2

/-- The empty registry has an exact `gsi_top`. -/
theorem gsi_top_exact_empty : ioapic_state.empty.gsi_top_exact := by
  refine ⟨fun i h => ?_, Or.inl ⟨rfl, fun _ => rfl⟩⟩
  simp [ioapic_state.empty, ioapic.zero] at h

/-- A call of `mp_register_ioapic` that fails, or whose registered range does not reach
past 2^32 - 1, keeps `gsi_top` exact. -/
theorem gsi_top_exact_step (MAX_IO_APICS : Nat) (dev : ioapic_device) (kz : Bool)
    (s : ioapic_state) (id : Int) (address gsi_base : Nat) (r : Int × ioapic_state)
    (h : mp_register_ioapic MAX_IO_APICS dev kz s id address gsi_base = some r)
    (hfit : r.1 = 0 →
      gsi_base + (r.2.ioapics (find_free_ioapic_entry MAX_IO_APICS s)).nr_registers
        ≤ 2 ^ 32 - 1)
    (hs : s.gsi_top_exact) : r.2.gsi_top_exact := by
  rcases mp_register_ioapic_cases MAX_IO_APICS dev kz s id address gsi_base r h with
    ⟨-, hsame⟩ | ⟨h0, entries, he1, he2, -, hlt, hoth, hn, hg, -, -, htop, -⟩
  · obtain ⟨-, ht, -, hsl⟩ := hsame
    unfold ioapic_state.gsi_top_exact
    simp only [ht, fun j => (hsl j).1, fun j => (hsl j).2]
    exact hs
  · have hfree : (s.ioapics (find_free_ioapic_entry MAX_IO_APICS s)).nr_registers = 0 := by
      obtain ⟨-, -, -, d⟩ := find_free_loop_spec s.ioapics MAX_IO_APICS 0
      exact d (by unfold find_free_ioapic_entry at hlt; omega)
    have hf := hfit h0
    rw [hn] at hf
    have hend : (gsi_base + entries - 1) % 2 ^ 32 = gsi_base + entries - 1 :=
      Nat.mod_eq_of_lt (by omega)
    have hend1 : (gsi_base + entries - 1 + 1) % 2 ^ 32 = gsi_base + entries - 1 + 1 :=
      Nat.mod_eq_of_lt (by omega)
    rw [hend] at hg htop
    rw [hend1] at htop
    have hge : (r.2.ioapics (find_free_ioapic_entry MAX_IO_APICS s)).gsi_config.gsi_end
        = gsi_base + entries - 1 := by rw [hg]
    generalize gsi_base + entries - 1 = e at hge htop
    obtain ⟨hs1, hs2⟩ := hs
    have htop1 : s.gsi_top ≤ r.2.gsi_top ∧ e + 1 ≤ r.2.gsi_top := by
      rw [htop]
      by_cases c : e ≥ s.gsi_top
      · rw [if_pos c]; omega
      · rw [if_neg c]; omega
    constructor
    · intro i hi
      by_cases ci : i = find_free_ioapic_entry MAX_IO_APICS s
      · subst ci
        rw [hge]
        exact htop1.2
      · rw [(hoth i ci).1] at hi
        rw [(hoth i ci).2]
        have := hs1 i hi
        omega
    · right
      by_cases ctop : e ≥ s.gsi_top
      · refine ⟨find_free_ioapic_entry MAX_IO_APICS s, by omega, ?_⟩
        rw [htop, if_pos ctop, hge]
      · rcases hs2 with ⟨h0, -⟩ | ⟨i, hi, hitop⟩
        · omega
        · have ci : i ≠ find_free_ioapic_entry MAX_IO_APICS s := by
            intro hc; rw [hc] at hi; omega
          refine ⟨i, ?_, ?_⟩
          · rw [(hoth i ci).1]; exact hi
          · rw [htop, if_neg ctop, (hoth i ci).2]; exact hitop

/-- Along a sequence from a gap-free registry with an exact `gsi_top`, in which no
registration reaches past 2^32 - 1, the registry stays gap-free, `nr_ioapics` grows by the
number of successful calls and `gsi_top` stays exact. -/
theorem high_water_marks_seq (MAX_IO_APICS : Nat) (dev : ioapic_device)
    (calls : List register_call) :
    ∀ s t : ioapic_state, s.gap_free → s.gsi_top_exact →
      mp_register_ioapic_fits MAX_IO_APICS dev s calls = true →
      mp_register_ioapic_seq MAX_IO_APICS dev s calls = some t →
      t.gap_free
      ∧ t.nr_ioapics = s.nr_ioapics + mp_register_ioapic_successes MAX_IO_APICS dev s calls
      ∧ t.gsi_top_exact := by
  induction calls with
  | nil =>
    intro s t hg hx _ h
    simp [mp_register_ioapic_seq] at h
    subst h
    exact ⟨hg, rfl, hx⟩
  | cons c cs ih =>
    intro s t hg hx hfit h
    unfold mp_register_ioapic_seq at h
    cases hr : mp_register_ioapic MAX_IO_APICS dev c.kzalloc_ok s c.id c.address c.gsi_base with
    | none => rw [hr] at h; cases h
    | some r =>
      rw [hr] at h
      dsimp only at h
      have hfit2 : (r.1 ≠ 0
            ∨ c.gsi_base + (r.2.ioapics (find_free_ioapic_entry MAX_IO_APICS s)).nr_registers
                ≤ 2 ^ 32 - 1)
          ∧ mp_register_ioapic_fits MAX_IO_APICS dev r.2 cs = true := by
        have hf := hfit
        rw [mp_register_ioapic_fits, hr] at hf
        simpa only [Bool.and_eq_true, Bool.or_eq_true, decide_eq_true_eq] using hf
      have hsucc : mp_register_ioapic_successes MAX_IO_APICS dev s (c :: cs)
          = (if r.1 = 0 then 1 else 0)
            + mp_register_ioapic_successes MAX_IO_APICS dev r.2 cs := by
        rw [mp_register_ioapic_successes, hr]
      have hg2 := gap_free_step _ _ _ _ _ _ _ r hr hg
      have hx2 := gsi_top_exact_step _ _ _ _ _ _ _ r hr
        (fun h0 => hfit2.1.resolve_left (fun hne => hne h0)) hx
      obtain ⟨a, b, c3⟩ := ih r.2 t hg2 hx2 hfit2.2 h
      refine ⟨a, ?_, c3⟩
      rw [b, hsucc]
      rcases mp_register_ioapic_cases MAX_IO_APICS dev c.kzalloc_ok s c.id c.address
        c.gsi_base r hr with ⟨hne, hsame⟩ | ⟨h0, entries, -, -, -, hlt, -, -, -, -, hnr, -⟩
      · rw [hsame.1, if_neg hne]
        omega
      · rw [hnr, find_free_eq_nr_ioapics MAX_IO_APICS s hg hlt, if_pos (le_refl _), if_pos h0]
        omega

/-- C24: for a sequence of `mp_register_ioapic` calls from the empty registry in which no
registration reaches past 2^32 - 1 (for every call that returns 0, `gsi_base` plus the
entry count of the registered controller is at most 2^32 - 1): the sequence runs to its
end on a device with a writable ID register, and whenever it does, slot `i` is occupied
exactly when `i < nr_ioapics`, `nr_ioapics` is the number of calls that returned 0, and
`gsi_top` is one past the largest `gsi_end` of an occupied slot, or 0 when no slot is
occupied. A call that returns an error changes neither `nr_ioapics` nor `gsi_top`. -/
theorem registry_high_water_marks (MAX_IO_APICS : Nat) (dev : ioapic_device)
    (calls : List register_call)
    (hfit : mp_register_ioapic_fits MAX_IO_APICS dev ioapic_state.empty calls = true) :
    (id_register_writable dev →
      (mp_register_ioapic_seq MAX_IO_APICS dev ioapic_state.empty calls).isSome = true)
    ∧ (∀ t, mp_register_ioapic_seq MAX_IO_APICS dev ioapic_state.empty calls = some t →
        (∀ i, i < t.nr_ioapics ↔ 0 < (t.ioapics i).nr_registers)
        ∧ t.nr_ioapics
            = mp_register_ioapic_successes MAX_IO_APICS dev ioapic_state.empty calls
        ∧ (∀ i, 0 < (t.ioapics i).nr_registers →
            (t.ioapics i).gsi_config.gsi_end + 1 ≤ t.gsi_top)
        ∧ ((t.gsi_top = 0 ∧ ∀ i, (t.ioapics i).nr_registers = 0)
          ∨ ∃ i, 0 < (t.ioapics i).nr_registers
              ∧ t.gsi_top = (t.ioapics i).gsi_config.gsi_end + 1))
    ∧ (∀ (s : ioapic_state) (kz : Bool) (id : Int) (address gsi_base : Nat)
        (r : Int × ioapic_state),
        mp_register_ioapic MAX_IO_APICS dev kz s id address gsi_base = some r → r.1 ≠ 0 →
        r.2.nr_ioapics = s.nr_ioapics ∧ r.2.gsi_top = s.gsi_top) := by
  refine ⟨fun hw => mp_register_ioapic_seq_returns MAX_IO_APICS dev hw calls _, ?_, ?_⟩
  · intro t ht
    obtain ⟨a, b, c⟩ := high_water_marks_seq MAX_IO_APICS dev calls ioapic_state.empty t
      gap_free_empty gsi_top_exact_empty hfit ht
    refine ⟨a, ?_, c.1, c.2⟩
    rw [b]
    simp [ioapic_state.empty]
  · intro s kz id address gsi_base r hr hne
    rcases mp_register_ioapic_cases MAX_IO_APICS dev kz s id address gsi_base r hr with
      ⟨-, hsame⟩ | ⟨h0, -⟩
    · exact ⟨hsame.1, hsame.2.1⟩
    · exact absurd h0 hne

/-- Witness for C24: 24 entries at GSI base 0, a rejected registration at GSI base 20 and
8 entries at GSI base 2^32 - 10. No registration reaches past 2^32 - 1, two of the three
calls succeed, two slots are occupied, and `gsi_top` is 2^32 - 2, one past the end of the
range [2^32 - 10, 2^32 - 3]. -/
theorem registry_high_water_marks_witness :
    mp_register_ioapic_fits 128 scenario_device ioapic_state.empty scenario_near_top = true
    ∧ ∃ t, mp_register_ioapic_seq 128 scenario_device ioapic_state.empty scenario_near_top
          = some t
        ∧ t.nr_ioapics = mp_register_ioapic_successes 128 scenario_device ioapic_state.empty
            scenario_near_top
        ∧ mp_register_ioapic_successes 128 scenario_device ioapic_state.empty
            scenario_near_top = 2
        ∧ t.gsi_top = 2 ^ 32 - 2
        ∧ (∀ i, i < t.nr_ioapics ↔ 0 < (t.ioapics i).nr_registers) := by
  have hfit : mp_register_ioapic_fits 128 scenario_device ioapic_state.empty
      scenario_near_top = true := by decide
  have hspec := registry_high_water_marks 128 scenario_device scenario_near_top hfit
  have hsome := hspec.1 (ioapic_model_id_register_writable _)
  have htop : (mp_register_ioapic_seq 128 scenario_device ioapic_state.empty
      scenario_near_top).map (fun t => t.gsi_top) = some (2 ^ 32 - 2) := by decide
  cases ht : mp_register_ioapic_seq 128 scenario_device ioapic_state.empty
      scenario_near_top with
  | none => rw [ht] at hsome; cases hsome
  | some t =>
    rw [ht] at htop
    obtain ⟨a, b, -⟩ := hspec.2.1 t ht
    exact ⟨hfit, t, rfl, b, by decide, by simpa using htop, a⟩

/-! ## Theorems: quiescent pin on a register file -/

/-- A read selects the register and leaves the contents of the register file alone. -/
theorem replay_io_apic_read (init : Nat → Nat → Nat) (dev : ioapic_device)
    (log : List mmio_access) (apic reg : Nat) :
    (regfile.replay init (io_apic_read dev log apic reg).2).regs
      = (regfile.replay init log).regs := by
  simp [io_apic_read, regfile.replay, List.foldl_append, regfile.step, io_apic.index,
    io_apic.data]

/-- A write stores the value in the addressed register and nowhere else. -/
theorem replay_io_apic_write (init : Nat → Nat → Nat) (log : List mmio_access)
    (apic reg v : Nat) :
    (regfile.replay init (io_apic_write log apic reg v)).regs
      = fun a r => if a = apic ∧ r = reg then v else (regfile.replay init log).regs a r := by
  simp [io_apic_write, regfile.replay, List.foldl_append, regfile.step, io_apic.index,
    io_apic.data]

/-- A store to the EOI register leaves the register file alone. -/
theorem replay_io_apic_eoi (init : Nat → Nat → Nat) (log : List mmio_access)
    (apic vector : Nat) :
    (regfile.replay init (io_apic_eoi log apic vector)).regs
      = (regfile.replay init log).regs := by
  simp [io_apic_eoi, regfile.replay, List.foldl_append, regfile.step, io_apic.index,
    io_apic.data, io_apic.eoi]

/-- On the register-file device a read returns the contents of the register. -/
theorem io_apic_read_regfile_model (init : Nat → Nat → Nat) (log : List mmio_access)
    (apic reg : Nat) :
    (io_apic_read (regfile_model init) log apic reg).1
      = (regfile.replay init log).regs apic reg % 2 ^ 32 := by
  simp [io_apic_read, regfile_model, List.getLast?_append, regfile.replay, List.foldl_append,
    regfile.step, io_apic.index]

/-- Reading an entry leaves the register file alone. -/
theorem replay_read_entry (init : Nat → Nat → Nat) (dev : ioapic_device)
    (log : List mmio_access) (apic pin : Nat) :
    (regfile.replay init (__ioapic_read_entry dev log apic pin).2).regs
      = (regfile.replay init log).regs := by
  simp only [__ioapic_read_entry, replay_io_apic_read]

/-- On the register-file device an entry read is the contents of its two registers. -/
theorem read_entry_regfile_model (init : Nat → Nat → Nat) (log : List mmio_access)
    (apic pin : Nat) :
    (ioapic_read_entry (regfile_model init) log apic pin).1
      = { w1 := (regfile.replay init log).regs apic (0x10 + 2 * pin) % 2 ^ 32,
          w2 := (regfile.replay init log).regs apic (0x11 + 2 * pin) % 2 ^ 32 } := by
  simp only [ioapic_read_entry, __ioapic_read_entry, io_apic_read_regfile_model,
    replay_io_apic_read]

/-- Writing an entry stores its two words in the two registers of the pin. -/
theorem replay_write_entry (init : Nat → Nat → Nat) (log : List mmio_access)
    (apic pin : Nat) (e : IO_APIC_route_entry) :
    (regfile.replay init (__ioapic_write_entry log apic pin e)).regs
      = fun a r => if a = apic ∧ r = 0x10 + 2 * pin then e.w1
          else if a = apic ∧ r = 0x11 + 2 * pin then e.w2
          else (regfile.replay init log).regs a r := by
  simp only [__ioapic_write_entry, replay_io_apic_write]

/-- `same_outside` is reflexive. -/
theorem same_outside_refl (f : regfile) (apic pin : Nat) : f.same_outside f apic pin :=
  fun _ _ _ => rfl

/-- `same_outside` is transitive. -/
theorem same_outside_trans {f g h : regfile} {apic pin : Nat}
    (h1 : f.same_outside g apic pin) (h2 : g.same_outside h apic pin) :
    f.same_outside h apic pin :=
  fun a r hn => (h2 a r hn).trans (h1 a r hn)

/-- Two register files with the same contents are the same outside any pin. -/
theorem same_outside_of_regs_eq {f g : regfile} (h : g.regs = f.regs) (apic pin : Nat) :
    f.same_outside g apic pin :=
  fun a r _ => by rw [h]

/-- Writing an entry touches only the two registers of the pin. -/
theorem same_outside_write_entry (init : Nat → Nat → Nat) (log : List mmio_access)
    (apic pin : Nat) (e : IO_APIC_route_entry) :
    (regfile.replay init log).same_outside
      (regfile.replay init (__ioapic_write_entry log apic pin e)) apic pin := by
  intro a r hn
  rw [replay_write_entry]
  dsimp only
  rw [if_neg (fun h => hn ⟨h.1, Or.inl h.2⟩), if_neg (fun h => hn ⟨h.1, Or.inr h.2⟩)]

/-- The end-of-interrupt step touches only the two registers of the pin. -/
theorem same_outside_eoi (s : ioapic_state) (init : Nat → Nat → Nat) (dev : ioapic_device)
    (log : List mmio_access) (apic pin vector : Nat) :
    (regfile.replay init log).same_outside
      (regfile.replay init (__eoi_ioapic_pin s dev log apic pin vector)) apic pin := by
  unfold __eoi_ioapic_pin
  split
  · exact same_outside_of_regs_eq (replay_io_apic_eoi init log apic vector) apic pin
  · dsimp only
    exact same_outside_trans
      (same_outside_trans
        (same_outside_of_regs_eq (replay_read_entry init dev log apic pin) apic pin)
        (same_outside_write_entry init _ apic pin _))
      (same_outside_write_entry init _ apic pin _)

/-- Masking an entry stores the masked zero entry in the two registers of the pin. -/
theorem replay_mask_entry (init : Nat → Nat → Nat) (log : List mmio_access)
    (apic pin : Nat) :
    (regfile.replay init (ioapic_mask_entry log apic pin)).regs
      = fun a r => if a = apic ∧ r = 0x11 + 2 * pin then 0
          else if a = apic ∧ r = 0x10 + 2 * pin then 0x10000
          else (regfile.replay init log).regs a r := by
  simp only [ioapic_mask_entry, replay_io_apic_write]
  rfl

/-- The masking step of `clear_IO_APIC_pin` touches only the two registers of the pin. -/
theorem same_outside_ensure_masked (init : Nat → Nat → Nat) (dev : ioapic_device)
    (log : List mmio_access) (apic pin : Nat) :
    (regfile.replay init log).same_outside
      (regfile.replay init (clear_IO_APIC_pin.ensure_masked dev apic pin
        (ioapic_read_entry dev log apic pin)).2) apic pin := by
  unfold clear_IO_APIC_pin.ensure_masked
  simp only [ioapic_read_entry, ioapic_write_entry]
  split
  · exact same_outside_trans
      (same_outside_trans
        (same_outside_of_regs_eq (replay_read_entry init dev log apic pin) apic pin)
        (same_outside_write_entry init _ apic pin _))
      (same_outside_of_regs_eq (replay_read_entry init dev _ apic pin) apic pin)
  · exact same_outside_of_regs_eq (replay_read_entry init dev log apic pin) apic pin

/-- The register file after `clear_IO_APIC_pin` on a pin that is not in SMI mode, for any
device: the two registers of the pin hold the masked zero entry and every other register
holds what it held before. -/
theorem clear_IO_APIC_pin_replay (s : ioapic_state) (init : Nat → Nat → Nat)
    (dev : ioapic_device) (log : List mmio_access) (apic pin : Nat)
    (hsmi : (ioapic_read_entry dev log apic pin).1.delivery_mode ≠ dest_SMI) :
    (regfile.replay init (clear_IO_APIC_pin s dev log apic pin)).regs apic (0x10 + 2 * pin)
      = 0x10000
    ∧ (regfile.replay init (clear_IO_APIC_pin s dev log apic pin)).regs apic (0x11 + 2 * pin)
      = 0
    ∧ (regfile.replay init log).same_outside
        (regfile.replay init (clear_IO_APIC_pin s dev log apic pin)) apic pin := by
  have key : ∀ log2 : List mmio_access,
      (regfile.replay init log).same_outside (regfile.replay init log2) apic pin →
      (regfile.replay init (ioapic_read_entry dev (ioapic_mask_entry log2 apic pin)
          apic pin).2).regs apic (0x10 + 2 * pin) = 0x10000
      ∧ (regfile.replay init (ioapic_read_entry dev (ioapic_mask_entry log2 apic pin)
          apic pin).2).regs apic (0x11 + 2 * pin) = 0
      ∧ (regfile.replay init log).same_outside
          (regfile.replay init (ioapic_read_entry dev (ioapic_mask_entry log2 apic pin)
            apic pin).2) apic pin := by
    intro log2 h2
    simp only [ioapic_read_entry, replay_read_entry, replay_mask_entry]
    refine ⟨by simp, by simp, ?_⟩
    intro a r hn
    rw [replay_read_entry, replay_mask_entry]
    dsimp only
    rw [if_neg (fun h => hn ⟨h.1, Or.inr h.2⟩), if_neg (fun h => hn ⟨h.1, Or.inl h.2⟩)]
    exact h2 a r hn
  have h1 := same_outside_ensure_masked init dev log apic pin
  unfold clear_IO_APIC_pin
  dsimp only
  rw [if_neg hsmi]
  apply key
  split
  · refine same_outside_trans ?_ (same_outside_eoi s init dev _ apic pin _)
    split
    · exact same_outside_trans h1 (same_outside_write_entry init _ apic pin _)
    · exact h1
  · exact h1

/-- C22: on the register-file device, for every registry state (hence every controller
version), trace, controller and pin whose entry is not in SMI delivery mode, the entry of
the pin read after `clear_IO_APIC_pin` is the word pair (0x10000, 0): the mask bit is set
and vector, delivery mode, destination, destination mode, trigger, polarity, remote-IRR
and delivery status are zero. The entry of every other pin, and every other register of
the register file, reads as before. -/
theorem clear_IO_APIC_pin_quiescent (s : ioapic_state) (init : Nat → Nat → Nat)
    (log : List mmio_access) (apic pin : Nat)
    (hsmi : (ioapic_read_entry (regfile_model init) log apic pin).1.delivery_mode
      ≠ dest_SMI) :
    (ioapic_read_entry (regfile_model init)
        (clear_IO_APIC_pin s (regfile_model init) log apic pin) apic pin).1
      = { w1 := 0x10000, w2 := 0 }
    ∧ ((ioapic_read_entry (regfile_model init)
          (clear_IO_APIC_pin s (regfile_model init) log apic pin) apic pin).1.mask
        = IOAPIC_MASKED
      ∧ (ioapic_read_entry (regfile_model init)
          (clear_IO_APIC_pin s (regfile_model init) log apic pin) apic pin).1.vector = 0
      ∧ (ioapic_read_entry (regfile_model init)
          (clear_IO_APIC_pin s (regfile_model init) log apic pin) apic pin).1.delivery_mode = 0
      ∧ (ioapic_read_entry (regfile_model init)
          (clear_IO_APIC_pin s (regfile_model init) log apic pin) apic pin).1.dest = 0
      ∧ (ioapic_read_entry (regfile_model init)
          (clear_IO_APIC_pin s (regfile_model init) log apic pin) apic pin).1.dest_mode = 0
      ∧ (ioapic_read_entry (regfile_model init)
          (clear_IO_APIC_pin s (regfile_model init) log apic pin) apic pin).1.trigger = 0
      ∧ (ioapic_read_entry (regfile_model init)
          (clear_IO_APIC_pin s (regfile_model init) log apic pin) apic pin).1.polarity = 0
      ∧ (ioapic_read_entry (regfile_model init)
          (clear_IO_APIC_pin s (regfile_model init) log apic pin) apic pin).1.irr = 0
      ∧ (ioapic_read_entry (regfile_model init)
          (clear_IO_APIC_pin s (regfile_model init) log apic pin) apic pin).1.delivery_status
          = 0)
    ∧ (∀ a p, ¬(a = apic ∧ p = pin) →
        (ioapic_read_entry (regfile_model init)
          (clear_IO_APIC_pin s (regfile_model init) log apic pin) a p).1
        = (ioapic_read_entry (regfile_model init) log a p).1)
    ∧ (∀ a r, ¬(a = apic ∧ (r = 0x10 + 2 * pin ∨ r = 0x11 + 2 * pin)) →
        (io_apic_read (regfile_model init)
          (clear_IO_APIC_pin s (regfile_model init) log apic pin) a r).1
        = (io_apic_read (regfile_model init) log a r).1) := by
  obtain ⟨h1, h2, h3⟩ := clear_IO_APIC_pin_replay s init (regfile_model init) log apic pin hsmi
  have he : (ioapic_read_entry (regfile_model init)
        (clear_IO_APIC_pin s (regfile_model init) log apic pin) apic pin).1
      = { w1 := 0x10000, w2 := 0 } := by
    rw [read_entry_regfile_model, h1, h2]
    rfl
  refine ⟨he, ?_, ?_, ?_⟩
  · rw [he]
    decide
  · intro a p hn
    rw [read_entry_regfile_model, read_entry_regfile_model,
      h3 a (0x10 + 2 * p) (by omega), h3 a (0x11 + 2 * p) (by omega)]
  · intro a r hn
    rw [io_apic_read_regfile_model, io_apic_read_regfile_model, h3 a r hn]

/-- Witness for C22: on a controller of version 0 whose registers all hold 0xC031 (vector
0x31, unmasked, level-triggered, remote-IRR set), pin 3 is not in SMI mode and reads as
the masked zero entry after `clear_IO_APIC_pin`. -/
theorem clear_IO_APIC_pin_quiescent_witness :
    (ioapic_read_entry (regfile_model (fun _ _ => 0xC031)) [] 0 3).1.delivery_mode ≠ dest_SMI
    ∧ (ioapic_read_entry (regfile_model (fun _ _ => 0xC031)) [] 0 3).1.irr = 1
    ∧ (ioapic_read_entry (regfile_model (fun _ _ => 0xC031))
        (clear_IO_APIC_pin ioapic_state.empty (regfile_model (fun _ _ => 0xC031)) [] 0 3)
        0 3).1 = { w1 := 0x10000, w2 := 0 } :=
  ⟨by decide, by decide,
   (clear_IO_APIC_pin_quiescent ioapic_state.empty (fun _ _ => 0xC031) [] 0 3
      (by decide)).1⟩

/-! ## Theorems: uninstalling a flow handler -/

/-- C23 (counterexample): with the handler `handle_bad_irq` given explicitly on a line
whose chip is the `no_irq_chip` placeholder, `__irq_do_set_handler` only warns: depth stays
0, the disabled flag stays clear and `handle_irq` keeps the old handler. On a line whose
chip is real but has neither a mask-and-acknowledge nor a mask operation, the uninstall
calls the NULL `irq_mask` pointer. -/
theorem uninstall_bad_irq_on_placeholder :
    __irq_do_set_handler (fun m _ => m)
        (example_line { irq_chip.absent with is_no_irq_chip := true })
        irq_flow_handler.handle_bad_irq false "none"
      = some { example_line { irq_chip.absent with is_no_irq_chip := true } with warnings := 1 }
    ∧ (example_line { irq_chip.absent with is_no_irq_chip := true }).desc.depth = 0
    ∧ (example_line { irq_chip.absent with
        is_no_irq_chip := true }).desc.irq_data.IRQD_IRQ_DISABLED = false
    ∧ (example_line { irq_chip.absent with is_no_irq_chip := true }).desc.handle_irq
        = irq_flow_handler.other 1
    ∧ __irq_do_set_handler (fun m _ => m) (example_line irq_chip.absent)
        irq_flow_handler.NULL false "none" = none := by
  decide

/-- C23 (amended): for a NULL handler, or `handle_bad_irq` on a real chip,
`__irq_do_set_handler` on a real chip with a mask-and-acknowledge or a mask operation
invokes `mask_ack_irq` and leaves depth 1, the disabled and masked flags set (the state
`irq_shutdown` produces), `handle_irq` equal to `handle_bad_irq`, and the action NULL when
`is_chained` is set and unchanged otherwise; on a real chip with neither operation it
calls a NULL pointer. On the `no_irq_chip` placeholder a NULL handler invokes no operation,
leaves the masked flag unchanged and sets depth 1, the disabled flag and `handle_bad_irq`,
while an explicit `handle_bad_irq` only raises a warning and changes nothing. -/
theorem uninstall_spec (__irq_set_trigger : irq_line → Nat → irq_line) (m : irq_line)
    (is_chained : Bool) (name : String) :
    (m.desc.irq_data.chip.is_no_irq_chip = false →
      (m.desc.irq_data.chip.irq_mask_ack = true ∨ m.desc.irq_data.chip.irq_mask = true) →
      ∀ handle, handle = irq_flow_handler.NULL ∨ handle = irq_flow_handler.handle_bad_irq →
      ∃ m', __irq_do_set_handler __irq_set_trigger m handle is_chained name = some m'
        ∧ m'.desc.depth = 1
        ∧ m'.desc.irq_data.IRQD_IRQ_DISABLED = true
        ∧ m'.desc.irq_data.IRQD_IRQ_MASKED = true
        ∧ m'.desc.handle_irq = irq_flow_handler.handle_bad_irq
        ∧ m'.desc.name = name
        ∧ m'.desc.action = (if is_chained then irqaction_ptr.NULL else m.desc.action)
        ∧ m'.calls = m.calls ++
            (if m.desc.irq_data.chip.irq_mask_ack then [chip_call.irq_mask_ack]
             else if m.desc.irq_data.chip.irq_ack then [chip_call.irq_mask, chip_call.irq_ack]
             else [chip_call.irq_mask])
        ∧ m'.warnings = m.warnings
        ∧ ∀ m'', irq_shutdown m = some m'' →
            m''.desc.depth = m'.desc.depth
            ∧ m''.desc.irq_data.IRQD_IRQ_DISABLED = m'.desc.irq_data.IRQD_IRQ_DISABLED
            ∧ m''.desc.irq_data.IRQD_IRQ_MASKED = m'.desc.irq_data.IRQD_IRQ_MASKED)
    ∧ (m.desc.irq_data.chip.is_no_irq_chip = false →
        m.desc.irq_data.chip.irq_mask_ack = false → m.desc.irq_data.chip.irq_mask = false →
        ∀ handle, handle = irq_flow_handler.NULL ∨ handle = irq_flow_handler.handle_bad_irq →
        __irq_do_set_handler __irq_set_trigger m handle is_chained name = none)
    ∧ (m.desc.irq_data.chip.is_no_irq_chip = true →
        ∃ m', __irq_do_set_handler __irq_set_trigger m irq_flow_handler.NULL is_chained name
            = some m'
          ∧ m'.desc.depth = 1
          ∧ m'.desc.irq_data.IRQD_IRQ_DISABLED = true
          ∧ m'.desc.irq_data.IRQD_IRQ_MASKED = m.desc.irq_data.IRQD_IRQ_MASKED
          ∧ m'.desc.handle_irq = irq_flow_handler.handle_bad_irq
          ∧ m'.desc.name = name
          ∧ m'.desc.action = (if is_chained then irqaction_ptr.NULL else m.desc.action)
          ∧ m'.calls = m.calls
          ∧ m'.warnings = m.warnings)
    ∧ (m.desc.irq_data.chip.is_no_irq_chip = true →
        __irq_do_set_handler __irq_set_trigger m irq_flow_handler.handle_bad_irq is_chained name
          = some { m with warnings := m.warnings + 1 }) := by
  refine ⟨?_, ?_, ?_, ?_⟩
  · intro hno hcap handle hh
    have hsd : ∀ m'', irq_shutdown m = some m'' →
        m''.desc.depth = 1 ∧ m''.desc.irq_data.IRQD_IRQ_DISABLED = true
        ∧ m''.desc.irq_data.IRQD_IRQ_MASKED = true := by
      intro m'' h
      unfold irq_shutdown at h
      dsimp only [irq_state_set_disabled] at h
      split at h
      · cases h; exact ⟨rfl, rfl, rfl⟩
      · split at h
        · cases h; exact ⟨rfl, rfl, rfl⟩
        · split at h
          · cases h; exact ⟨rfl, rfl, rfl⟩
          · cases h
    by_cases hma : m.desc.irq_data.chip.irq_mask_ack = true
    · rcases hh with rfl | rfl <;> cases is_chained <;>
        simp [__irq_do_set_handler, mask_ack_irq, hno, hma, irq_state_set_masked,
          irq_state_set_disabled, irq_line.invoke] <;>
        intro m'' h <;> exact hsd m'' h
    · have hmk : m.desc.irq_data.chip.irq_mask = true := by tauto
      by_cases hak : m.desc.irq_data.chip.irq_ack = true
      · rcases hh with rfl | rfl <;> cases is_chained <;>
          simp [__irq_do_set_handler, mask_ack_irq, hno, hma, hmk, hak, irq_state_set_masked,
            irq_state_set_disabled, irq_line.invoke] <;>
          intro m'' h <;> exact hsd m'' h
      · rcases hh with rfl | rfl <;> cases is_chained <;>
          simp [__irq_do_set_handler, mask_ack_irq, hno, hma, hmk, hak, irq_state_set_masked,
            irq_state_set_disabled, irq_line.invoke] <;>
          intro m'' h <;> exact hsd m'' h
  · intro hno hma hmk handle hh
    rcases hh with rfl | rfl <;>
      simp [__irq_do_set_handler, mask_ack_irq, hno, hma, hmk]
  · intro hno
    cases is_chained <;>
      simp [__irq_do_set_handler, hno, irq_state_set_disabled]
  · intro hno
    simp [__irq_do_set_handler, hno]

/-- Witness for C23 (amended): uninstalling the handler of a chained line whose chip has a
mask operation. -/
theorem uninstall_spec_witness :
    ∃ m', __irq_do_set_handler (fun m _ => m)
        (example_line { irq_chip.absent with irq_mask := true }) irq_flow_handler.NULL true
        "none" = some m'
      ∧ m'.desc.depth = 1
      ∧ m'.desc.irq_data.IRQD_IRQ_DISABLED = true
      ∧ m'.desc.irq_data.IRQD_IRQ_MASKED = true
      ∧ m'.desc.handle_irq = irq_flow_handler.handle_bad_irq
      ∧ m'.desc.action = irqaction_ptr.NULL
      ∧ m'.calls = [chip_call.irq_mask] := by
  obtain ⟨m', h, a1, a2, a3, a4, -, a6, a7, -⟩ :=
    (uninstall_spec (fun m _ => m) (example_line { irq_chip.absent with irq_mask := true })
      true "none").1 (by decide) (Or.inr (by decide)) irq_flow_handler.NULL (Or.inl rfl)
  exact ⟨m', h, a1, a2, a3, a4, a6, a7⟩

end LegoOS
